import Mathlib

/-!
# New Relic firehose nozzle: event filter and transformation

A shallow embedding of `main.go`: the filter state built by `setFilters`, the
accept/reject decision and the per-kind record construction of `transformEvent`, and one
round of the loop of `main` as a step function on the counters, the count of events seen
and the records handed to the sink.

Conventions of the embedding.

* Go `string` values that arrive as protobuf string fields or configuration text are
  Lean `String`s; the log body, a Go `[]byte`, is a `List UInt8`.
* A protobuf optional field (a Go pointer) is an `Option`; `none` is the nil pointer.
* `map[string]interface{}` is an association list with one entry per key, written with
  `NREventType.set` and read with `NREventType.get`.
* Unsigned 64-bit counters are `Nat` reduced modulo `2 ^ 64`.
* A nil dereference is the outcome `Outcome.panic`.
-/

namespace Nozzle

/-! ## Values stored in a record -/

/-- An IEEE-754 double, kept as its 64-bit pattern: the code only copies such values. -/
structure Float64 where
  bits : Nat
  deriving DecidableEq, Repr

/-- A `time.Time` built by `time.Unix(0, n)`, kept as its nanosecond count. -/
structure GoTime where
  unixNano : Int
  deriving DecidableEq, Repr

/-- The protobuf message `events.UUID`. -/
structure UUID where
  low : Nat
  high : Nat
  deriving DecidableEq, Repr

/-- A Go `interface{}` value as stored in a record. `bytesString` is a Go string given
by its bytes (`string(msgContent)`); `null`, `array` and `object` are the shapes that
`encoding/json` decodes besides numbers, strings and booleans. -/
inductive Value where
  | str (s : String)
  | bytesString (b : List UInt8)
  | int64 (i : Int)
  | int32 (i : Int)
  | uint64 (n : Nat)
  | float64 (f : Float64)
  | bool (b : Bool)
  | time (t : GoTime)
  | uuid (u : UUID)
  | null
  | array (items : List Value)
  | object (fields : List (String × Value))

/-- The record type `NREventType`, a `map[string]interface{}`. -/
abbrev NREventType := List (String × Value)

/-- Map assignment `m[k] = v`: overwrite the entry of `k`, or add one. -/
def NREventType.set : NREventType → String → Value → NREventType
  | [], k, v => [(k, v)]
  | (k', v') :: rest, k, v =>
    if k' = k then (k, v) :: rest else (k', v') :: NREventType.set rest k v

/-- Map lookup `m[k]`; `none` when the key is absent. -/
def NREventType.get : NREventType → String → Option Value
  | [], _ => none
  | (k', v') :: rest, k => if k' = k then some v' else NREventType.get rest k

/-! ## Filters -/

/-- The filter state `EventFilters`. -/
structure EventFilters where
  globalDeploymentFilters : List String := []
  globalOriginFilters : List String := []
  globalJobFilters : List String := []
  globalAllFiltersSelected : Bool := false
  globalDeploymentsAllFilterIsSelected : Bool := false
  globalOriginsAllFilterIsSelected : Bool := false
  globalJobsAllFilterIsSelected : Bool := false
  globalNoneSelected : Bool := false
  totalGlobalFiltersCount : Nat := 0
  valueMetricDeploymentFilters : List String := []
  valueMetricOriginFilters : List String := []
  valueMetricJobFilters : List String := []
  valueMetricMetricFilters : List String := []
  valueMetricAllFiltersSelected : Bool := false
  valueMetricDeploymentsAllFilterIsSelected : Bool := false
  valueMetricOriginsAllFilterIsSelected : Bool := false
  valueMetricJobsAllFilterIsSelected : Bool := false
  valueMetricMetricAllFilterIsSelected : Bool := false
  valueMetricNoneSelected : Bool := false
  totalValueMetricFiltersCount : Nat := 0
  totalValueMetricMetricsCount : Nat := 0
  deriving DecidableEq, Repr

/-- The function `filtered`: does `str` occur in `arr`. -/
def filtered : List String → String → Bool
  | [], _ => false
  | s :: rest, str => if s = str then true else filtered rest str

/-- The seven dimension lists that `setFilters` reads out of the configuration text:
three global exclusion lists and four value-metric inclusion lists. -/
structure FilterLists where
  globalDeployment : List String := []
  globalOrigin : List String := []
  globalJob : List String := []
  valueMetricDeployment : List String := []
  valueMetricOrigin : List String := []
  valueMetricJob : List String := []
  valueMetricMetric : List String := []
  deriving DecidableEq, Repr

/-- The body of `setFilters` once the seven lists are parsed (lines 365-367 and
396-399 produce `L`); `filters` is the package-level state it assigns into. Each field
is given the value it holds when `setFilters` returns: the two `...AllFiltersSelected`
flags are reset to false and set when "all" occurs in the concatenation
`allGlobalFilters` (deployment, origin, job) or `allValueMetricFilters` (deployment,
origin, job: the metric list is not appended to it), the two `...NoneSelected` flags
are reset, and a per-dimension flag, which the source only ever sets to true, keeps its
previous value when "all" is absent. -/
def setFilterLists (L : FilterLists) (filters : EventFilters) : EventFilters :=
  let allGlobalFilters : List String :=
    (([] ++ L.globalDeployment) ++ L.globalOrigin) ++ L.globalJob
  let allValueMetricFilters : List String :=
    (([] ++ L.valueMetricDeployment) ++ L.valueMetricOrigin) ++ L.valueMetricJob
  { globalDeploymentFilters := L.globalDeployment
    globalOriginFilters := L.globalOrigin
    globalJobFilters := L.globalJob
    totalGlobalFiltersCount :=
      L.globalDeployment.length + L.globalOrigin.length + L.globalJob.length
    globalAllFiltersSelected := filtered allGlobalFilters "all"
    globalNoneSelected := false
    globalDeploymentsAllFilterIsSelected :=
      if filtered L.globalDeployment "all" then true
      else filters.globalDeploymentsAllFilterIsSelected
    globalOriginsAllFilterIsSelected :=
      if filtered L.globalOrigin "all" then true
      else filters.globalOriginsAllFilterIsSelected
    globalJobsAllFilterIsSelected :=
      if filtered L.globalJob "all" then true else filters.globalJobsAllFilterIsSelected
    valueMetricDeploymentFilters := L.valueMetricDeployment
    valueMetricOriginFilters := L.valueMetricOrigin
    valueMetricJobFilters := L.valueMetricJob
    valueMetricMetricFilters := L.valueMetricMetric
    totalValueMetricFiltersCount :=
      L.valueMetricDeployment.length + L.valueMetricOrigin.length
        + L.valueMetricJob.length
    totalValueMetricMetricsCount := L.valueMetricMetric.length
    valueMetricAllFiltersSelected := filtered allValueMetricFilters "all"
    valueMetricNoneSelected := false
    valueMetricDeploymentsAllFilterIsSelected :=
      if filtered L.valueMetricDeployment "all" then true
      else filters.valueMetricDeploymentsAllFilterIsSelected
    valueMetricOriginsAllFilterIsSelected :=
      if filtered L.valueMetricOrigin "all" then true
      else filters.valueMetricOriginsAllFilterIsSelected
    valueMetricJobsAllFilterIsSelected :=
      if filtered L.valueMetricJob "all" then true
      else filters.valueMetricJobsAllFilterIsSelected
    valueMetricMetricAllFilterIsSelected :=
      if filtered L.valueMetricMetric "all" then true
      else filters.valueMetricMetricAllFilterIsSelected }

/-! ## Events -/

/-- The six event kinds `events.Envelope_EventType` that the nozzle handles. -/
inductive EventType where
  | HttpStartStop
  | LogMessage
  | ValueMetric
  | CounterEvent
  | Error
  | ContainerMetric
  deriving DecidableEq, Repr

/-- The name of an event kind, `Envelope_EventType.String()`. -/
def EventType.String : EventType → String
  | .HttpStartStop => "HttpStartStop"
  | .LogMessage => "LogMessage"
  | .ValueMetric => "ValueMetric"
  | .CounterEvent => "CounterEvent"
  | .Error => "Error"
  | .ContainerMetric => "ContainerMetric"

/-- The enum `events.LogMessage_MessageType`. -/
inductive MessageType where
  | OUT
  | ERR
  deriving DecidableEq, Repr

/-- The name of a message type, `LogMessage_MessageType.String()`. -/
def MessageType.String : MessageType → String
  | .OUT => "OUT"
  | .ERR => "ERR"

/-- The enum `events.PeerType`. -/
inductive PeerType where
  | Client
  | Server
  deriving DecidableEq, Repr

/-- The name of a peer type, `PeerType.String()`. -/
def PeerType.String : PeerType → String
  | .Client => "Client"
  | .Server => "Server"

/-- The payload `events.ValueMetric`. -/
structure ValueMetric where
  Name : Option String := none
  Value : Option Float64 := none
  Unit : Option String := none
  deriving DecidableEq, Repr

/-- The payload `events.CounterEvent`. -/
structure CounterEvent where
  Name : Option String := none
  Delta : Option Nat := none
  Total : Option Nat := none
  deriving DecidableEq, Repr

/-- The payload `events.ContainerMetric`. -/
structure ContainerMetric where
  ApplicationId : Option String := none
  InstanceIndex : Option Int := none
  CpuPercentage : Option Float64 := none
  MemoryBytes : Option Nat := none
  DiskBytes : Option Nat := none
  MemoryBytesQuota : Option Nat := none
  DiskBytesQuota : Option Nat := none
  deriving DecidableEq, Repr

/-- The payload `events.LogMessage`; `Message` is a byte slice. -/
structure LogMessage where
  Message : Option (List UInt8) := none
  MessageType : Option MessageType := none
  Timestamp : Option Int := none
  AppId : Option String := none
  SourceType : Option String := none
  SourceInstance : Option String := none
  deriving DecidableEq, Repr

/-- The payload `events.HttpStartStop`; `Method` is kept as its enum number. -/
structure HttpStartStop where
  StartTimestamp : Option Int := none
  StopTimestamp : Option Int := none
  RequestId : Option UUID := none
  PeerType : Option PeerType := none
  Method : Option Int := none
  Uri : Option String := none
  RemoteAddress : Option String := none
  UserAgent : Option String := none
  StatusCode : Option Int := none
  ContentLength : Option Int := none
  ApplicationId : Option UUID := none
  InstanceIndex : Option Int := none
  InstanceId : Option String := none
  Forwarded : List String := []
  deriving DecidableEq, Repr

/-- The payload `events.Error`. -/
structure ErrorEvent where
  Source : Option String := none
  Code : Option Int := none
  Message : Option String := none
  deriving DecidableEq, Repr

/-- The message `events.Envelope`. `Tags` lists the entries of the tag map in the order
the `range` loop visits them. -/
structure Envelope where
  Origin : Option String := none
  EventType : Option EventType := none
  Timestamp : Option Int := none
  Deployment : Option String := none
  Job : Option String := none
  Index : Option String := none
  Ip : Option String := none
  Tags : List (String × String) := []
  HttpStartStop : Option HttpStartStop := none
  LogMessage : Option LogMessage := none
  ValueMetric : Option ValueMetric := none
  CounterEvent : Option CounterEvent := none
  Error : Option ErrorEvent := none
  ContainerMetric : Option ContainerMetric := none
  deriving DecidableEq, Repr

/-- Getter `GetDeployment`: the field, or "" when it is nil. -/
def Envelope.GetDeployment (e : Envelope) : String := e.Deployment.getD ""

/-- Getter `GetOrigin`. -/
def Envelope.GetOrigin (e : Envelope) : String := e.Origin.getD ""

/-- Getter `GetJob`. -/
def Envelope.GetJob (e : Envelope) : String := e.Job.getD ""

/-- Getter `GetIndex`. -/
def Envelope.GetIndex (e : Envelope) : String := e.Index.getD ""

/-- Getter `GetIp`. -/
def Envelope.GetIp (e : Envelope) : String := e.Ip.getD ""

/-- Getter `GetTimestamp`: the field, or 0 when it is nil. -/
def Envelope.GetTimestamp (e : Envelope) : Int := e.Timestamp.getD 0

/-- Getter `GetEventType`: the tag, or the default of the generated getter when it is
nil, the kind `HttpStartStop`. -/
def Envelope.GetEventType (e : Envelope) : Nozzle.EventType :=
  e.EventType.getD Nozzle.EventType.HttpStartStop

/-- The call `cfEvent.ValueMetric.GetName()`: nil-safe on the payload and on the name. -/
def Envelope.valueMetricGetName (e : Envelope) : String :=
  match e.ValueMetric with
  | none => ""
  | some vm => vm.Name.getD ""

/-! ## Process state and collaborators -/

/-- The counters `PcfCounters`, unsigned 64-bit. -/
structure PcfCounters where
  valueMetricEvents : Nat := 0
  counterEvents : Nat := 0
  containerEvents : Nat := 0
  httpStartStopEvents : Nat := 0
  logMessageEvents : Nat := 0
  errors : Nat := 0
  deriving DecidableEq, Repr

/-- The increment `c++` of an unsigned 64-bit counter. -/
def incr64 (c : Nat) : Nat := (c + 1) % 2 ^ 64

/-- Modelled from the spec: the declaration of the metadata record returned by
`appManager.GetAppData` is not among the sources. The fields are the ones
`addAppDetailInfo` reads; the source shows `Instances` to be an integer and `Diego`,
`SshEnabled` to be booleans, and the three time fields are taken as an integer and two
strings. -/
structure AppInfo where
  Timestamp : Int := 0
  Name : String := ""
  Guid : String := ""
  CreatedTime : String := ""
  LastUpdated : String := ""
  Instances : Int := 0
  StackGUID : String := ""
  State : String := ""
  Diego : Bool := false
  SshEnabled : Bool := false
  SpaceName : String := ""
  SpaceGUID : String := ""
  OrgName : String := ""
  OrgGUID : String := ""
  deriving DecidableEq, Repr

/-- Modelled from the spec: the metadata cache `AppManager` is not among the sources.
It holds one snapshot keyed by workload id. -/
structure AppManager where
  snapshot : List (String × AppInfo) := []
  deriving DecidableEq, Repr

/-- Modelled from the spec: `GetAppData` is not among the sources. It returns the
snapshot's record of the id and, on a miss, a zero-valued record, never an error. -/
def AppManager.GetAppData (m : AppManager) (appGUID : String) : AppInfo :=
  match m.snapshot.find? (fun p => p.1 = appGUID) with
  | some p => p.2
  | none => {}

/-- Package-level values that `transformEvent` reads, and the library functions it
calls whose code is outside the repository: `jsonUnmarshal` is `json.Unmarshal` into a
`map[string]interface{}` (`none` for an error, else the entries of the decoded map),
`uuidString` and `methodString` are the `String()` renderings of a request id and of a
method number, `float64OfInt64` and `float64Div` the conversion and the division of
doubles. -/
structure Env where
  pcfDomain : String := ""
  nozzleInstanceIp : String := ""
  nozzleInstanceId : String := ""
  appManager : AppManager := {}
  jsonUnmarshal : List UInt8 → Option (List (String × Value))
  uuidString : UUID → String
  methodString : Int → String
  float64OfInt64 : Int → Float64
  float64Div : Float64 → Float64 → Float64

/-- The constant `pcfEventType`. -/
def pcfEventType : String := "PcfFirehoseEvent"

/-! ## Transformation -/

/-- The function `fillGenericMetrics`. The tests `pcfDomain > ""` and
`nozzleInstanceIp > ""` hold exactly for a non-empty string; the timestamp is divided
as Go divides signed integers, truncating toward zero. -/
def fillGenericMetrics (env : Env) (nrEvent : NREventType) (eventOrigin : String)
    (firehoseEventType : String) (eventDeployment : String) (eventJob : String)
    (eventIndex : String) (eventIp : String) (eventTimestamp : Int)
    (tags : List (String × String)) : NREventType :=
  let nrEvent := nrEvent.set "origin" (.str eventOrigin)
  let nrEvent := nrEvent.set "eventType" (.str pcfEventType)
  let nrEvent := nrEvent.set "FirehoseEventType" (.str firehoseEventType)
  let nrEvent :=
    if env.pcfDomain ≠ "" then nrEvent.set "pcfDomain" (.str env.pcfDomain) else nrEvent
  let nrEvent :=
    if env.nozzleInstanceIp ≠ "" then
      nrEvent.set "nozzleInstanceIp" (.str env.nozzleInstanceIp)
    else nrEvent
  let nrEvent := nrEvent.set "nozzleInstanceId" (.str env.nozzleInstanceId)
  let nrEvent := nrEvent.set "deployment" (.str eventDeployment)
  let nrEvent := nrEvent.set "job" (.str eventJob)
  let nrEvent := nrEvent.set "index" (.str eventIndex)
  let nrEvent := nrEvent.set "ip" (.str eventIp)
  let nrEvent := nrEvent.set "timestamp" (.int64 (Int.tdiv eventTimestamp 1000000))
  tags.foldl (fun r t => r.set ("tag_" ++ t.1) (.str t.2)) nrEvent

/-- The function `transformValueMetric`; `none` is the nil dereference `vm.Name` on a
missing payload. -/
def transformValueMetric (cfEvent : Envelope) (nrEvent : NREventType) :
    Option NREventType :=
  match cfEvent.ValueMetric with
  | none => none
  | some vm =>
    let nrEvent := match vm.Name with
      | some n => nrEvent.set ("valueMetric" ++ "Name") (.str n)
      | none => nrEvent
    let nrEvent := match vm.Value with
      | some x => nrEvent.set ("valueMetric" ++ "Value") (.float64 x)
      | none => nrEvent
    let nrEvent := match vm.Unit with
      | some u => nrEvent.set ("valueMetric" ++ "Unit") (.str u)
      | none => nrEvent
    some nrEvent

/-- The function `transformCounterEvent`. -/
def transformCounterEvent (cfEvent : Envelope) (nrEvent : NREventType) :
    Option NREventType :=
  match cfEvent.CounterEvent with
  | none => none
  | some ce =>
    let nrEvent := match ce.Name with
      | some n => nrEvent.set ("counterEvent" ++ "Name") (.str n)
      | none => nrEvent
    let nrEvent := match ce.Delta with
      | some d => nrEvent.set ("counterEvent" ++ "Delta") (.uint64 d)
      | none => nrEvent
    let nrEvent := match ce.Total with
      | some t => nrEvent.set ("counterEvent" ++ "Total") (.uint64 t)
      | none => nrEvent
    some nrEvent

/-- The rendering `strconv.FormatInt(i, 10)`. -/
def formatInt (i : Int) : String :=
  match i with
  | Int.ofNat n => Nat.repr n
  | Int.negSucc n => "-" ++ Nat.repr (n + 1)

/-- The rendering `strconv.FormatBool`. -/
def formatBool (b : Bool) : String := if b then "true" else "false"

/-- The function `addAppDetailInfo`. -/
def addAppDetailInfo (env : Env) (nrEvent : NREventType) (appGUID : String) :
    NREventType :=
  let appData := env.appManager.GetAppData appGUID
  let nrEvent := nrEvent.set "appInfoUpdated" (.int64 appData.Timestamp)
  let nrEvent := nrEvent.set "appName" (.str appData.Name)
  let nrEvent := nrEvent.set "appGuid" (.str appData.Guid)
  let nrEvent := nrEvent.set "appCreated" (.str appData.CreatedTime)
  let nrEvent := nrEvent.set "appLastUpdated" (.str appData.LastUpdated)
  let nrEvent := nrEvent.set "appInstances" (.str (formatInt appData.Instances))
  let nrEvent := nrEvent.set "appStackGuid" (.str appData.StackGUID)
  let nrEvent := nrEvent.set "appState" (.str appData.State)
  let nrEvent := nrEvent.set "diegoContainer" (.str (formatBool appData.Diego))
  let nrEvent := nrEvent.set "appSshEnabled" (.str (formatBool appData.SshEnabled))
  let nrEvent := nrEvent.set "appSpaceName" (.str appData.SpaceName)
  let nrEvent := nrEvent.set "appSpaceGuid" (.str appData.SpaceGUID)
  let nrEvent := nrEvent.set "appOrgName" (.str appData.OrgName)
  nrEvent.set "appOrgGuid" (.str appData.OrgGUID)

/-- The function `transformContainerMetric`. -/
def transformContainerMetric (env : Env) (cfEvent : Envelope) (nrEvent : NREventType) :
    Option NREventType :=
  match cfEvent.ContainerMetric with
  | none => none
  | some cm =>
    let nrEvent := match cm.ApplicationId with
      | some appGuid =>
        addAppDetailInfo env
          (nrEvent.set ("containerMetric" ++ "ApplicationId") (.str appGuid)) appGuid
      | none => nrEvent
    let nrEvent := match cm.InstanceIndex with
      | some i => nrEvent.set ("containerMetric" ++ "InstanceIndex") (.int32 i)
      | none => nrEvent
    let nrEvent := match cm.CpuPercentage with
      | some x => nrEvent.set ("containerMetric" ++ "CpuPercentage") (.float64 x)
      | none => nrEvent
    let nrEvent := match cm.MemoryBytes with
      | some n => nrEvent.set ("containerMetric" ++ "MemoryBytes") (.uint64 n)
      | none => nrEvent
    let nrEvent := match cm.DiskBytes with
      | some n => nrEvent.set ("containerMetric" ++ "DiskBytes") (.uint64 n)
      | none => nrEvent
    let nrEvent := match cm.MemoryBytesQuota with
      | some n => nrEvent.set ("containerMetric" ++ "MemoryBytesQuota") (.uint64 n)
      | none => nrEvent
    let nrEvent := match cm.DiskBytesQuota with
      | some n => nrEvent.set ("containerMetric" ++ "DiskBytesQuota") (.uint64 n)
      | none => nrEvent
    some nrEvent

/-- The truncation of the log body: `if len(msgContent) > 4096 { msgContent =
msgContent[0:4095] }`. -/
def truncateMessage (msgContent : List UInt8) : List UInt8 :=
  if msgContent.length > 4096 then msgContent.take 4095 else msgContent

/-- The loop `for k, v := range parsedContent { nrEvent[prefix+"Message"+k] = v }`. -/
def mergeParsedContent (nrEvent : NREventType) (parsedContent : List (String × Value)) :
    NREventType :=
  parsedContent.foldl (fun r kv => r.set (("log" ++ "Message") ++ kv.1) kv.2) nrEvent

/-- The function `transformLogMessage`. -/
def transformLogMessage (env : Env) (cfEvent : Envelope) (nrEvent : NREventType) :
    Option NREventType :=
  match cfEvent.LogMessage with
  | none => none
  | some message =>
    let nrEvent := match message.Message with
      | some body =>
        let msgContent := truncateMessage body
        let nrEvent := nrEvent.set ("log" ++ "Message") (.bytesString msgContent)
        let nrEvent := match env.jsonUnmarshal msgContent with
          | some parsedContent => mergeParsedContent nrEvent parsedContent
          | none => nrEvent
        addAppDetailInfo env nrEvent (message.AppId.getD "")
      | none => nrEvent
    let nrEvent := match message.MessageType with
      | some t => nrEvent.set ("log" ++ "MessageType") (.str t.String)
      | none => nrEvent
    let nrEvent := match message.Timestamp with
      | some t => nrEvent.set ("log" ++ "Timestamp") (.time ⟨t⟩)
      | none => nrEvent
    let nrEvent := match message.AppId with
      | some a => nrEvent.set ("log" ++ "AppId") (.str a)
      | none => nrEvent
    let nrEvent := match message.SourceType with
      | some t => nrEvent.set ("log" ++ "SourceType") (.str t)
      | none => nrEvent
    let nrEvent := match message.SourceInstance with
      | some i => nrEvent.set ("log" ++ "SourceInstance") (.str i)
      | none => nrEvent
    some nrEvent

/-- The difference `end.Sub(start)` of two times given by their nanosecond counts: a
`time.Duration`, saturated at the ends of the signed 64-bit range. -/
def timeSub (stop : Int) (start : Int) : Int :=
  let d := stop - start
  if d < -(2 ^ 63) then -(2 ^ 63) else if d > 2 ^ 63 - 1 then 2 ^ 63 - 1 else d

/-- The loop over `httpEvent.Forwarded`, started at position `i`. -/
def forwardedLoop (nrEvent : NREventType) (i : Nat) : List String → NREventType
  | [] => nrEvent
  | forwardedIp :: rest =>
    forwardedLoop (nrEvent.set (("http" ++ "Forwarded") ++ Nat.repr i) (.str forwardedIp))
      (i + 1) rest

/-- The function `transformHttpStartStopEvent`. The getters of the two timestamps are
nil-safe, so the first nil dereference on a missing payload is `httpEvent.RequestId`. -/
def transformHttpStartStopEvent (env : Env) (cfEvent : Envelope) (nrEvent : NREventType) :
    Option NREventType :=
  match cfEvent.HttpStartStop with
  | none => none
  | some httpEvent =>
    let start := httpEvent.StartTimestamp.getD 0
    let stop := httpEvent.StopTimestamp.getD 0
    let duration :=
      env.float64Div (env.float64OfInt64 (timeSub stop start)) (env.float64OfInt64 1000000)
    let nrEvent := nrEvent.set ("http" ++ "StartTimestamp") (.time ⟨start⟩)
    let nrEvent := nrEvent.set ("http" ++ "StopTimestamp") (.time ⟨stop⟩)
    let nrEvent := nrEvent.set ("http" ++ "DurationMs") (.float64 duration)
    let nrEvent := match httpEvent.RequestId with
      | some u => nrEvent.set ("http" ++ "RequestId") (.str (env.uuidString u))
      | none => nrEvent
    let nrEvent := match httpEvent.PeerType with
      | some t => nrEvent.set ("http" ++ "PeerType") (.str t.String)
      | none => nrEvent
    let nrEvent := match httpEvent.Method with
      | some m => nrEvent.set ("http" ++ "Method") (.str (env.methodString m))
      | none => nrEvent
    let nrEvent := match httpEvent.Uri with
      | some u => nrEvent.set ("http" ++ "Uri") (.str u)
      | none => nrEvent
    let nrEvent := match httpEvent.RemoteAddress with
      | some a => nrEvent.set ("http" ++ "RemoteAddress") (.str a)
      | none => nrEvent
    let nrEvent := match httpEvent.UserAgent with
      | some a => nrEvent.set ("http" ++ "UserAgent") (.str a)
      | none => nrEvent
    let nrEvent := match httpEvent.StatusCode with
      | some c => nrEvent.set ("http" ++ "StatusCode") (.int32 c)
      | none => nrEvent
    let nrEvent := match httpEvent.ContentLength with
      | some n => nrEvent.set ("http" ++ "ContentLength") (.int64 n)
      | none => nrEvent
    let nrEvent := match httpEvent.ApplicationId with
      | some u => nrEvent.set ("http" ++ "ApplicationId") (.uuid u)
      | none => nrEvent
    let nrEvent := match httpEvent.InstanceIndex with
      | some i => nrEvent.set ("http" ++ "InstanceIndex") (.int32 i)
      | none => nrEvent
    let nrEvent := match httpEvent.InstanceId with
      | some i => nrEvent.set ("http" ++ "InstanceId") (.str i)
      | none => nrEvent
    some (forwardedLoop nrEvent 0 httpEvent.Forwarded)

/-- The function `transformErrorEvent`. -/
def transformErrorEvent (cfEvent : Envelope) (nrEvent : NREventType) :
    Option NREventType :=
  match cfEvent.Error with
  | none => none
  | some errEvent =>
    let nrEvent := match errEvent.Source with
      | some x => nrEvent.set ("error" ++ "Source") (.str x)
      | none => nrEvent
    let nrEvent := match errEvent.Code with
      | some c => nrEvent.set ("error" ++ "Code") (.int32 c)
      | none => nrEvent
    let nrEvent := match errEvent.Message with
      | some m => nrEvent.set ("error" ++ "Message") (.str m)
      | none => nrEvent
    some nrEvent

/-- The flag `globalEventsFilter` of `transformEvent` (line 517): the global exclusion
filters match the event. -/
def globalEventsFilter (filters : EventFilters) (cfEvent : Envelope) : Bool :=
  let eventDeployment := cfEvent.GetDeployment
  let eventOrigin := cfEvent.GetOrigin
  let eventJob := cfEvent.GetJob
  decide (filters.totalGlobalFiltersCount > 0) &&
    (filters.globalAllFiltersSelected
      || filtered filters.globalDeploymentFilters eventDeployment
      || filtered filters.globalOriginFilters eventOrigin
      || filtered filters.globalJobFilters eventJob)

/-- The flag `processEvent` of `transformEvent` as it stands at line 570, after the
exclusion test (lines 515-520) and the value-metric inclusion test (lines 555-568). -/
def processEvent (filters : EventFilters) (cfEvent : Envelope)
    (firehoseEventType : String) : Bool :=
  let eventDeployment := cfEvent.GetDeployment
  let eventOrigin := cfEvent.GetOrigin
  let eventJob := cfEvent.GetJob
  let processEvent := if globalEventsFilter filters cfEvent then false else true
  if globalEventsFilter filters cfEvent = false then true
  else if firehoseEventType = "ValueMetric" then
    if filters.totalValueMetricFiltersCount + filters.totalValueMetricMetricsCount = 0 then
      false
    else
      let vmName := cfEvent.valueMetricGetName
      if filters.valueMetricAllFiltersSelected
          || filtered filters.valueMetricDeploymentFilters eventDeployment
          || filtered filters.valueMetricOriginFilters eventOrigin
          || filtered filters.valueMetricJobFilters eventJob
          || filtered filters.valueMetricMetricFilters vmName then true
      else processEvent
  else processEvent

/-- What a call of `transformEvent` ends in: a nil-dereference panic, or a return with
the record and the counters as the call leaves them and the returned error (`none` is
the nil error). -/
inductive Outcome where
  | panic
  | returned (nrEvent : NREventType) (pcfCounters : PcfCounters) (err : Option String)

/-- The function `transformEvent`. On the accepting branch the generic fields are
filled, then `*cfEvent.EventType` is dereferenced (a panic when the tag is nil), the
counter of the kind is incremented and the transformation of the kind runs. -/
def transformEvent (env : Env) (filters : EventFilters) (pcfCounters : PcfCounters)
    (cfEvent : Envelope) (nrEvent : NREventType) (firehoseEventType : String) : Outcome :=
  if processEvent filters cfEvent firehoseEventType then
    let nrEvent := fillGenericMetrics env nrEvent cfEvent.GetOrigin firehoseEventType
      cfEvent.GetDeployment cfEvent.GetJob cfEvent.GetIndex cfEvent.GetIp
      cfEvent.GetTimestamp cfEvent.Tags
    match cfEvent.EventType with
    | none => .panic
    | some .HttpStartStop =>
      let pcfCounters :=
        { pcfCounters with httpStartStopEvents := incr64 pcfCounters.httpStartStopEvents }
      match transformHttpStartStopEvent env cfEvent nrEvent with
      | none => .panic
      | some r => .returned r pcfCounters none
    | some .LogMessage =>
      let pcfCounters :=
        { pcfCounters with logMessageEvents := incr64 pcfCounters.logMessageEvents }
      match transformLogMessage env cfEvent nrEvent with
      | none => .panic
      | some r => .returned r pcfCounters none
    | some .ContainerMetric =>
      let pcfCounters :=
        { pcfCounters with containerEvents := incr64 pcfCounters.containerEvents }
      match transformContainerMetric env cfEvent nrEvent with
      | none => .panic
      | some r => .returned r pcfCounters none
    | some .CounterEvent =>
      let pcfCounters :=
        { pcfCounters with counterEvents := incr64 pcfCounters.counterEvents }
      match transformCounterEvent cfEvent nrEvent with
      | none => .panic
      | some r => .returned r pcfCounters none
    | some .ValueMetric =>
      let pcfCounters :=
        { pcfCounters with valueMetricEvents := incr64 pcfCounters.valueMetricEvents }
      match transformValueMetric cfEvent nrEvent with
      | none => .panic
      | some r => .returned r pcfCounters none
    | some .Error =>
      let pcfCounters := { pcfCounters with errors := incr64 pcfCounters.errors }
      match transformErrorEvent cfEvent nrEvent with
      | none => .panic
      | some r => .returned r pcfCounters none
  else
    .returned nrEvent pcfCounters (some "eventskipped")

/-! ## The driver loop -/

/-- The values that are fixed when the loop of `main` starts: the package-level values
read by `transformEvent`, the filter state, the selected kinds, the subscription id and
the nozzle version. -/
structure Driver where
  env : Env
  filters : EventFilters := {}
  SelectedEvents : List EventType := []
  FirehoseSubscriptionID : String := ""
  nozzleVersion : String := ""

/-- The map `includedEventTypes` (lines 221-232): false for each of the six kinds, then
true for every selected kind. -/
def includedEventTypes (selected : List EventType) (k : EventType) : Bool :=
  selected.contains k

/-- The state that the loop of `main` carries: the counters, the count `i` of events
received since the last tick, and the records handed to `insightsClient.EnqueueEvent`,
oldest first. -/
structure LoopState where
  pcfCounters : PcfCounters := {}
  i : Int := 0
  enqueued : List NREventType := []

/-- What one round of the `select` receives: an event (`none` is the nil pointer), a
stream error, or a tick. -/
inductive LoopInput where
  | event (ev : Option Envelope)
  | streamError (err : String)
  | tick

/-- The increment of the Go `int` `i`, taken as a signed 64-bit integer. -/
def wrapInt64 (x : Int) : Int := (x + 2 ^ 63) % 2 ^ 64 - 2 ^ 63

/-- One round of the loop of `main` (lines 299-333); logging is left out. `none` is a
panic of `transformEvent`, which ends the process. -/
def loopStep (d : Driver) (s : LoopState) : LoopInput → Option LoopState
  | .event none => some { s with i := wrapInt64 (s.i + 1) }
  | .event (some ev) =>
    let i := wrapInt64 (s.i + 1)
    let firehoseEventType := ev.GetEventType
    if includedEventTypes d.SelectedEvents firehoseEventType then
      match transformEvent d.env d.filters s.pcfCounters ev [] firehoseEventType.String with
      | .panic => none
      | .returned _ pcfCounters (some _) =>
        some { pcfCounters := pcfCounters, i := i, enqueued := s.enqueued }
      | .returned nrEvent pcfCounters none =>
        let nrEvent := nrEvent.set "firehoseSubscriptionId" (.str d.FirehoseSubscriptionID)
        let nrEvent := nrEvent.set "nozzleVersion" (.str d.nozzleVersion)
        some { pcfCounters := pcfCounters, i := i, enqueued := s.enqueued ++ [nrEvent] }
    else some { pcfCounters := s.pcfCounters, i := i, enqueued := s.enqueued }
  | .streamError _ => some s
  | .tick => some { pcfCounters := s.pcfCounters, i := 0, enqueued := s.enqueued }

/-- The counter that `transformEvent` increments for an event of the given kind. -/
def PcfCounters.ofKind (c : PcfCounters) : EventType → Nat
  | .HttpStartStop => c.httpStartStopEvents
  | .LogMessage => c.logMessageEvents
  | .ValueMetric => c.valueMetricEvents
  | .CounterEvent => c.counterEvents
  | .Error => c.errors
  | .ContainerMetric => c.containerEvents

/-- The increment that the switch of `transformEvent` (lines 600-632) applies to the
counters for an event of the given kind. -/
def PcfCounters.incr (c : PcfCounters) : EventType → PcfCounters
  | .HttpStartStop => { c with httpStartStopEvents := incr64 c.httpStartStopEvents }
  | .LogMessage => { c with logMessageEvents := incr64 c.logMessageEvents }
  | .ValueMetric => { c with valueMetricEvents := incr64 c.valueMetricEvents }
  | .CounterEvent => { c with counterEvents := incr64 c.counterEvents }
  | .Error => { c with errors := incr64 c.errors }
  | .ContainerMetric => { c with containerEvents := incr64 c.containerEvents }

/-! ## Configuration text -/

/-- The white space of `unicode.IsSpace`, which `strings.TrimSpace` removes: tab, line
feed, vertical tab, form feed, carriage return, space, U+0085, U+00A0 and the characters
of the Unicode category Z. -/
def isSpace (c : Char) : Bool :=
  let n := c.toNat
  n = 0x09 || n = 0x0A || n = 0x0B || n = 0x0C || n = 0x0D || n = 0x20 || n = 0x85
    || n = 0xA0 || n = 0x1680 || (0x2000 ≤ n && n ≤ 0x200A) || n = 0x2028 || n = 0x2029
    || n = 0x202F || n = 0x205F || n = 0x3000

/-- The library function `strings.TrimSpace` on the characters of a string: leading white
space is dropped, then trailing white space. -/
def trimSpaceChars (l : List Char) : List Char :=
  (l.dropWhile isSpace).rdropWhile isSpace

/-- The library function `strings.TrimSpace`. -/
def stringsTrimSpace (s : String) : String := ⟨trimSpaceChars s.data⟩

/-- The library function `strings.Split` for a one-character separator, on the characters
of a string: the pieces between the occurrences of the separator, in order; a string
without separator, the empty string included, is one piece. -/
def splitChars (sep : Char) : List Char → List (List Char)
  | [] => [[]]
  | c :: cs =>
    if c = sep then [] :: splitChars sep cs
    else
      match splitChars sep cs with
      | [] => [[c]]
      | piece :: pieces => (c :: piece) :: pieces

/-- The library function `strings.Split` for a one-character separator. -/
def stringsSplit (s : String) (sep : Char) : List String :=
  (splitChars sep s.data).map String.mk

/-- The function `splitString`. Every call passes the separator ",", so the separator is
a character here; the nil slice returned for the empty text is the empty list. -/
def splitString (value : String) (separator : Char) : List String :=
  if value = "" then []
  else (stringsSplit value separator).map stringsTrimSpace

/-- The loop of `getFilterValues` that joins the decoded values with commas. -/
def joinFilterValues : List String → String
  | [] => ""
  | v :: rest => rest.foldl (fun valuesSlice x => valuesSlice ++ "," ++ x) v

/-- The function `getFilterValues`. `decode` is `json.Unmarshal` into a slice of
`ValueMetricFilterStruct`, given by the `Value` fields of the decoded slice (the empty
list when nothing is decoded). -/
def getFilterValues (decode : String → List String) (jsonFilters : String) : List String :=
  splitString (joinFilterValues (decode jsonFilters)) ','

/-- The configuration `PcfExtConfig`. -/
structure PcfExtConfig where
  GLOBAL_DEPLOYMENT_EXCLUSION_FILTERS : String := ""
  GLOBAL_ORIGIN_EXCLUSION_FILTERS : String := ""
  GLOBAL_JOB_EXCLUSION_FILTERS : String := ""
  VALUEMETRIC_DEPLOYMENT_INCLUSION_FILTERS : String := ""
  VALUEMETRIC_ORIGIN_INCLUSION_FILTERS : String := ""
  VALUEMETRIC_JOB_INCLUSION_FILTERS : String := ""
  VALUEMETRIC_METRIC_INCLUSION_FILTERS : String := ""
  ADMIN_USER : String := ""
  ADMIN_PASSWORD : String := ""
  APP_DETAIL_INTERVAL : String := ""
  REDIS_DB : String := ""
  deriving DecidableEq, Repr

/-- The seven lists that `setFilters` parses out of the configuration (lines 365-367 and
396-399): the two deployment lists with `splitString`, the other five with
`getFilterValues`. -/
def parsedFilterLists (decode : String → List String) (pcfExtendedConfig : PcfExtConfig) :
    FilterLists where
  globalDeployment := splitString pcfExtendedConfig.GLOBAL_DEPLOYMENT_EXCLUSION_FILTERS ','
  globalOrigin := getFilterValues decode pcfExtendedConfig.GLOBAL_ORIGIN_EXCLUSION_FILTERS
  globalJob := getFilterValues decode pcfExtendedConfig.GLOBAL_JOB_EXCLUSION_FILTERS
  valueMetricDeployment :=
    splitString pcfExtendedConfig.VALUEMETRIC_DEPLOYMENT_INCLUSION_FILTERS ','
  valueMetricOrigin :=
    getFilterValues decode pcfExtendedConfig.VALUEMETRIC_ORIGIN_INCLUSION_FILTERS
  valueMetricJob := getFilterValues decode pcfExtendedConfig.VALUEMETRIC_JOB_INCLUSION_FILTERS
  valueMetricMetric :=
    getFilterValues decode pcfExtendedConfig.VALUEMETRIC_METRIC_INCLUSION_FILTERS

/-- The function `setFilters`: the lists are parsed and the filter state is assigned as
in `setFilterLists`. -/
def setFilters (decode : String → List String) (pcfExtendedConfig : PcfExtConfig)
    (filters : EventFilters) : EventFilters :=
  setFilterLists (parsedFilterLists decode pcfExtendedConfig) filters

/-- The loop of `parseSelectedEvents` over the pieces of the text; `selectedEvents` is the
list built so far. `table` is the map `events.Envelope_EventType_value` from the names of
the kinds to the kinds. -/
def parseSelectedEventsLoop (table : String → Option EventType) :
    List String → List EventType → Except String (List EventType)
  | [], selectedEvents => .ok selectedEvents
  | envValueSplit :: rest, selectedEvents =>
    let envValueSlitTrimmed := stringsTrimSpace envValueSplit
    match table envValueSlitTrimmed with
    | some val => parseSelectedEventsLoop table rest (selectedEvents ++ [val])
    | none => .error ("[" ++ envValueSlitTrimmed ++ "] is not a valid event type")

/-- The function `parseSelectedEvents`; `envValue` is the value of the environment
variable NOZZLE_SELECTED_EVENTS. -/
def parseSelectedEvents (table : String → Option EventType) (envValue : String) :
    Except String (List EventType) :=
  if envValue = "" then .ok [.ValueMetric, .CounterEvent]
  else parseSelectedEventsLoop table (stringsSplit envValue ',') []

/-! ## Notions used in the statements -/

/-- An optional assignment: `m[k] = v` when the value is present, nothing otherwise. The
transformations are chains of such assignments. -/
def setOpt (r : NREventType) (k : String) (o : Option Value) : NREventType :=
  match o with
  | some v => r.set k v
  | none => r

/-- The record of a call that returned the nil error. -/
def Outcome.record : Outcome → Option NREventType
  | .returned r _ none => some r
  | _ => none

/-- Two records are the same map: they hold the same value, or none, under every key. -/
def SameMap (r1 r2 : NREventType) : Prop := ∀ k, r1.get k = r2.get k

/-- Two calls end alike: both panic, or both return the same error and records that are
the same map. -/
def Outcome.sameResult : Outcome → Outcome → Prop
  | .panic, .panic => True
  | .returned r1 _ e1, .returned r2 _ e2 => e1 = e2 ∧ SameMap r1 r2
  | _, _ => False

/-- Two decoders differ only in the order in which the entries of a decoded object are
visited. -/
def SameDecoding (u1 u2 : List UInt8 → Option (List (String × Value))) : Prop :=
  ∀ b, match u1 b, u2 b with
    | some l1, some l2 => l1.Perm l2
    | none, none => True
    | _, _ => False

/-- The string `s` starts with the string `p`. -/
def startsWith (p s : String) : Bool := p.data.isPrefixOf s.data

/-- The names of the generic fields written by `fillGenericMetrics` before the tags. -/
def genericFields : List String :=
  ["origin", "eventType", "FirehoseEventType", "pcfDomain", "nozzleInstanceIp",
    "nozzleInstanceId", "deployment", "job", "index", "ip", "timestamp"]

/-- The record as `transformEvent` passes it to the transformation of the kind: the
generic fields and the tags of the event written into `nrEvent` (lines 571-576). -/
def genericRecord (env : Env) (cfEvent : Envelope) (nrEvent : NREventType)
    (firehoseEventType : String) : NREventType :=
  fillGenericMetrics env nrEvent cfEvent.GetOrigin firehoseEventType cfEvent.GetDeployment
    cfEvent.GetJob cfEvent.GetIndex cfEvent.GetIp cfEvent.GetTimestamp cfEvent.Tags

/-- The stems with which the field names of the six transformations start. -/
def kindFieldStems : List String :=
  ["valueMetric", "counterEvent", "containerMetric", "log", "http", "error"]

/-- The names of the fourteen fields written by `addAppDetailInfo`. -/
def enrichmentFields : List String :=
  ["appInfoUpdated", "appName", "appGuid", "appCreated", "appLastUpdated", "appInstances",
    "appStackGuid", "appState", "diegoContainer", "appSshEnabled", "appSpaceName",
    "appSpaceGuid", "appOrgName", "appOrgGuid"]

/-! ## Conditions of the filter policy -/

/-- The global exclusion matches the event: some global exclusion list is non-empty and
either "all" occurs in the global deployment, origin or job exclusion list, or the
deployment, origin or job of the event occurs in its respective exclusion list. -/
def GlobalExclusionMatches (L : FilterLists) (ev : Envelope) : Prop :=
  (L.globalDeployment ≠ [] ∨ L.globalOrigin ≠ [] ∨ L.globalJob ≠ []) ∧
    ("all" ∈ L.globalDeployment ∨ "all" ∈ L.globalOrigin ∨ "all" ∈ L.globalJob
      ∨ ev.GetDeployment ∈ L.globalDeployment ∨ ev.GetOrigin ∈ L.globalOrigin
      ∨ ev.GetJob ∈ L.globalJob)

instance (L : FilterLists) (ev : Envelope) : Decidable (GlobalExclusionMatches L ev) := by
  unfold GlobalExclusionMatches
  infer_instance

/-- The deployment, origin, job or metric name of the event occurs in its respective
value-metric inclusion list. -/
def InclusionMatches (L : FilterLists) (ev : Envelope) : Prop :=
  ev.GetDeployment ∈ L.valueMetricDeployment ∨ ev.GetOrigin ∈ L.valueMetricOrigin
    ∨ ev.GetJob ∈ L.valueMetricJob ∨ ev.valueMetricGetName ∈ L.valueMetricMetric

instance (L : FilterLists) (ev : Envelope) : Decidable (InclusionMatches L ev) := by
  unfold InclusionMatches
  infer_instance

/-- The envelope carries its kind tag and the payload of that kind. -/
def Envelope.payloadPresent (e : Envelope) : Bool :=
  match e.EventType with
  | none => false
  | some .HttpStartStop => e.HttpStartStop.isSome
  | some .LogMessage => e.LogMessage.isSome
  | some .ContainerMetric => e.ContainerMetric.isSome
  | some .CounterEvent => e.CounterEvent.isSome
  | some .ValueMetric => e.ValueMetric.isSome
  | some .Error => e.Error.isSome

/-- The call returned the nil error: the event was accepted and transformed. -/
def Outcome.accepted : Outcome → Prop
  | .returned _ _ none => True
  | _ => False

/-- The fourteen enrichment fields with the values that `addAppDetailInfo` gives them for
the metadata record `d`. -/
def enrichmentOf (d : AppInfo) : NREventType :=
  [("appInfoUpdated", .int64 d.Timestamp), ("appName", .str d.Name), ("appGuid", .str d.Guid),
    ("appCreated", .str d.CreatedTime), ("appLastUpdated", .str d.LastUpdated),
    ("appInstances", .str (formatInt d.Instances)), ("appStackGuid", .str d.StackGUID),
    ("appState", .str d.State), ("diegoContainer", .str (formatBool d.Diego)),
    ("appSshEnabled", .str (formatBool d.SshEnabled)), ("appSpaceName", .str d.SpaceName),
    ("appSpaceGuid", .str d.SpaceGUID), ("appOrgName", .str d.OrgName),
    ("appOrgGuid", .str d.OrgGUID)]

/-! ## Values for the concrete examples -/

/-- The double 1.0. -/
def float64One : Float64 := ⟨0x3FF0000000000000⟩

/-- The 4095 bytes `{"":1`, 4089 spaces, `}`: a JSON object with the empty key. -/
def paddedEmptyKeyBody : List UInt8 :=
  [123, 34, 34, 58, 49] ++ (List.replicate 4089 32 ++ [125])

/-- The result of `json.Unmarshal` into a `map[string]interface{}` on the bodies the
examples use: `paddedEmptyKeyBody` and `{"":1}` decode to the object with the empty key
and the number 1, `{"x":1}` to the object with the key "x"; every other text is taken as
undecodable, which is what the decoder answers on the remaining example body, 4096 letters
"a". -/
def exampleUnmarshal (b : List UInt8) : Option (List (String × Value)) :=
  if b = paddedEmptyKeyBody then some [("", .float64 float64One)]
  else if b = [123, 34, 34, 58, 49, 125] then some [("", .float64 float64One)]
  else if b = [123, 34, 120, 34, 58, 49, 125] then some [("x", .float64 float64One)]
  else none

/-- An environment for the concrete examples; the library functions other than
`jsonUnmarshal` are stand-ins that no example depends on. -/
def exampleEnv : Env where
  pcfDomain := "example.com"
  nozzleInstanceIp := "10.0.0.1"
  nozzleInstanceId := "0"
  jsonUnmarshal := exampleUnmarshal
  uuidString := fun u => Nat.repr u.low ++ "-" ++ Nat.repr u.high
  methodString := fun m => formatInt m
  float64OfInt64 := fun i => ⟨i.toNat⟩
  float64Div := fun a _ => a

/-- A log event of deployment "cf" with the given message body. -/
def logEvent (body : List UInt8) : Envelope where
  Origin := some "rep"
  EventType := some .LogMessage
  Timestamp := some 1497038366041617814
  Deployment := some "cf"
  Job := some "diego_cell"
  LogMessage := some
    { Message := some body, MessageType := some .OUT, Timestamp := some 1497038366041615818,
      AppId := some "app-1", SourceType := some "APP/PROC/WEB", SourceInstance := some "0" }

/-- A body of 4096 letters "a". -/
def body4096 : List UInt8 := List.replicate 4096 97

/-- A body of 5000 bytes: `paddedEmptyKeyBody` followed by 905 letters "x". -/
def body5000 : List UInt8 := paddedEmptyKeyBody ++ List.replicate 905 120

/-- The body `{"":1}`. -/
def bodyEmptyKey : List UInt8 := [123, 34, 34, 58, 49, 125]

/-- The value that the loop over the decoded object leaves under the key "logMessage":
each entry with the empty key overwrites it, the other entries leave it. -/
def afterEmptyKeys (parsedContent : List (String × Value)) (v : Option Value) :
    Option Value :=
  parsedContent.foldl (fun acc kv => if kv.1 = "" then some kv.2 else acc) v

/-- A gauge event with deployment "prod" and origin "doppler". -/
def gaugeProd : Envelope where
  Origin := some "doppler"
  EventType := some .ValueMetric
  Timestamp := some 1497038365914920486
  Deployment := some "prod"
  Job := some "doppler"
  ValueMetric := some { Name := some "numCPUS", Value := some float64One, Unit := some "count" }

/-- A counter event with deployment "prod" and origin "doppler". -/
def counterProd : Envelope where
  Origin := some "doppler"
  EventType := some .CounterEvent
  Deployment := some "prod"
  Job := some "doppler"
  CounterEvent := some { Name := some "sent", Delta := some 1, Total := some 2 }

/-- Exclusion of deployment "prod", with "all" in every inclusion list. -/
def excludeProdIncludeAll : FilterLists where
  globalDeployment := ["prod"]
  valueMetricDeployment := ["all"]
  valueMetricOrigin := ["all"]
  valueMetricJob := ["all"]
  valueMetricMetric := ["all"]

/-- Exclusion of deployment "prod", with "all" in the metric inclusion list only. -/
def excludeProdIncludeMetricAll : FilterLists where
  globalDeployment := ["prod"]
  valueMetricMetric := ["all"]

/-- Exclusion of deployment "prod", with no inclusion rule. -/
def excludeProd : FilterLists where
  globalDeployment := ["prod"]

/-- Exclusion of deployment "staging", with no inclusion rule. -/
def excludeStaging : FilterLists where
  globalDeployment := ["staging"]

/-- Exclusion of deployment "prod", with the metric "numCPUS" included. -/
def excludeProdIncludeNumCPUS : FilterLists where
  globalDeployment := ["prod"]
  valueMetricMetric := ["numCPUS"]

/-- Exclusion of every deployment by "all", with inclusion lists that name the
deployment "staging" and the metric "cpu" and hold no "all". -/
def excludeAllIncludeStaging : FilterLists where
  globalDeployment := ["all"]
  valueMetricDeployment := ["staging"]
  valueMetricMetric := ["cpu"]

/-- No exclusion rule and no inclusion rule. -/
def noFilterLists : FilterLists := {}

/-- The body `{"x":1}`. -/
def bodyX : List UInt8 := [123, 34, 120, 34, 58, 49, 125]

/-- The body `{"Type":1}`. -/
def bodyTypeKey : List UInt8 := [123, 34, 84, 121, 112, 101, 34, 58, 49, 125]

/-- The decoder of the examples, extended by the result of `json.Unmarshal` on the body
`{"Type":1}`: the object with the key "Type" and the number 1. -/
def exampleUnmarshalType (b : List UInt8) : Option (List (String × Value)) :=
  if b = bodyTypeKey then some [("Type", .float64 float64One)] else exampleUnmarshal b

/-- The environment of the examples with the extended decoder. -/
def exampleTypeEnv : Env := { exampleEnv with jsonUnmarshal := exampleUnmarshalType }

/-- A container event of deployment "cf" that carries the application id "app-1". -/
def containerApp1 : Envelope where
  Origin := some "rep"
  EventType := some .ContainerMetric
  Timestamp := some 1497038370673051301
  Deployment := some "cf"
  Job := some "diego_cell"
  ContainerMetric := some
    { ApplicationId := some "app-1", InstanceIndex := some 0,
      CpuPercentage := some float64One, MemoryBytes := some 359899136,
      DiskBytes := some 142286848, MemoryBytesQuota := some 536870912,
      DiskBytesQuota := some 1073741824 }

/-- An envelope tagged ValueMetric that carries no ValueMetric payload. -/
def gaugeNoPayload : Envelope where
  Origin := some "doppler"
  EventType := some .ValueMetric
  Deployment := some "prod"
  Job := some "doppler"

/-- An envelope without kind tag that carries an HttpStartStop payload. -/
def httpNoTag : Envelope where
  Origin := some "gorouter"
  Deployment := some "cf"
  Job := some "router"
  HttpStartStop := some {}

/-- A log event with a message body and no application id. -/
def logNoAppId : Envelope where
  Origin := some "rep"
  EventType := some .LogMessage
  Deployment := some "cf"
  Job := some "diego_cell"
  LogMessage := some { Message := some [104, 105], MessageType := some .OUT }

/-- A log event with the application id "app-1" and no message body. -/
def logNoBody : Envelope where
  Origin := some "rep"
  EventType := some .LogMessage
  Deployment := some "cf"
  Job := some "diego_cell"
  LogMessage := some { MessageType := some .OUT, AppId := some "app-1" }

/-- An HTTP event with three forwarded addresses, that took 88938459 nanoseconds. -/
def httpThreeHops : Envelope where
  Origin := some "gorouter"
  EventType := some .HttpStartStop
  Timestamp := some 1497038373295178447
  Deployment := some "cf"
  Job := some "router"
  Tags := [("source_id", "gorouter")]
  HttpStartStop := some
    { StartTimestamp := some 1497038373206213992, StopTimestamp := some 1497038373295152451,
      RequestId := some ⟨7513566559519661218, 8828490834936076361⟩,
      PeerType := some .Client, Method := some 1, Uri := some "http://api.example.com/v2/info",
      StatusCode := some 200, ContentLength := some 42,
      Forwarded := ["104.197.98.14", "35.186.215.103", "130.211.2.63"] }

/-- A gauge event with two tags. -/
def gaugeTwoTags : Envelope where
  Origin := some "doppler"
  EventType := some .ValueMetric
  Timestamp := some 1497038365914920486
  Deployment := some "prod"
  Job := some "doppler"
  Tags := [("source_id", "doppler"), ("zone", "z1")]
  ValueMetric := some { Name := some "numCPUS", Value := some float64One, Unit := some "count" }

/-- The two tags of `gaugeTwoTags` in the other order. -/
def twoTagsSwapped : List (String × String) := [("zone", "z1"), ("source_id", "doppler")]

/-- Counters after one gauge event. -/
def countersAfterOneGauge : PcfCounters where
  valueMetricEvents := 1

/-- A driver that subscribes to the two default kinds, with no filter. -/
def exampleDriver : Driver where
  env := exampleEnv
  SelectedEvents := [.ValueMetric, .CounterEvent]
  FirehoseSubscriptionID := "newrelic.firehose"
  nozzleVersion := "1.0"

/-- The names of the six kinds, as a table from names to kinds. -/
def exampleEventTypeValue (name : String) : Option EventType :=
  if name = "HttpStartStop" then some .HttpStartStop
  else if name = "LogMessage" then some .LogMessage
  else if name = "ValueMetric" then some .ValueMetric
  else if name = "CounterEvent" then some .CounterEvent
  else if name = "Error" then some .Error
  else if name = "ContainerMetric" then some .ContainerMetric
  else none

/-- The event `gaugeProd` with another timestamp, two tags and another value and unit. -/
def gaugeProdOther : Envelope where
  Origin := some "doppler"
  EventType := some .ValueMetric
  Timestamp := some 7
  Deployment := some "prod"
  Job := some "doppler"
  Index := some "3"
  Tags := [("source_id", "doppler"), ("zone", "z1")]
  ValueMetric := some { Name := some "numCPUS", Value := none, Unit := some "cores" }

/-- Counters that are all ahead of zero. -/
def countersBusy : PcfCounters where
  valueMetricEvents := 1000
  counterEvents := 20
  errors := 3

/-- Exclusion of the deployments "prod" and "staging" and of the job "router", with no
inclusion rule: the lists of `excludeProd` with entries added. -/
def excludeProdStagingRouter : FilterLists where
  globalDeployment := ["prod", "staging"]
  globalJob := ["router"]

/-- Exclusion of deployment "prod", with the metrics "numCPUS" and "cpu" and the origin
"gorouter" included: the lists of `excludeProdIncludeNumCPUS` with entries added. -/
def excludeProdIncludeMore : FilterLists where
  globalDeployment := ["prod"]
  valueMetricOrigin := ["gorouter"]
  valueMetricMetric := ["numCPUS", "cpu"]

/-! ## Lemmas on the filter -/

theorem filtered_iff (arr : List String) (str : String) :
    filtered arr str = true ↔ str ∈ arr := by
  induction arr with
  | nil => simp [filtered]
  | cons s rest ih =>
    by_cases h : s = str
    · simp [filtered, h]
    · have h' : ¬ str = s := fun e => h e.symm
      simp [filtered, h, h', ih]

theorem filtered_eq_false_iff (arr : List String) (str : String) :
    filtered arr str = false ↔ str ∉ arr := by
  rw [← filtered_iff]
  cases filtered arr str <;> simp

theorem eventType_string_eq_valueMetric (k : EventType) :
    k.String = "ValueMetric" ↔ k = .ValueMetric := by
  cases k <;> simp [EventType.String]

/-- The flag computed at line 517 holds exactly when the global exclusion, read on the
configured lists, matches the event. -/
theorem globalEventsFilter_iff (L : FilterLists) (F0 : EventFilters) (ev : Envelope) :
    globalEventsFilter (setFilterLists L F0) ev = true ↔ GlobalExclusionMatches L ev := by
  simp only [globalEventsFilter, setFilterLists, GlobalExclusionMatches, Bool.and_eq_true,
    Bool.or_eq_true, decide_eq_true_eq, filtered_iff, List.nil_append, List.mem_append]
  constructor
  · rintro ⟨hpos, h⟩
    refine ⟨?_, by tauto⟩
    by_contra hne
    push_neg at hne
    obtain ⟨h1, h2, h3⟩ := hne
    simp [h1, h2, h3] at hpos
  · rintro ⟨hne, h⟩
    refine ⟨?_, by tauto⟩
    rcases hne with h1 | h1 | h1
    · have := List.length_pos.mpr h1
      omega
    · have := List.length_pos.mpr h1
      omega
    · have := List.length_pos.mpr h1
      omega

/-- When the global exclusion matches, `processEvent` is decided by the value-metric
inclusion test alone. -/
theorem processEvent_of_excluded (L : FilterLists) (F0 : EventFilters) (ev : Envelope)
    (fet : String) (hx : GlobalExclusionMatches L ev) :
    processEvent (setFilterLists L F0) ev fet =
      (decide (fet = "ValueMetric") &&
        (filtered (L.valueMetricDeployment ++ L.valueMetricOrigin ++ L.valueMetricJob) "all"
          || filtered L.valueMetricDeployment ev.GetDeployment
          || filtered L.valueMetricOrigin ev.GetOrigin
          || filtered L.valueMetricJob ev.GetJob
          || filtered L.valueMetricMetric ev.valueMetricGetName)) := by
  have hg := (globalEventsFilter_iff L F0 ev).mpr hx
  unfold processEvent
  simp only [hg, if_true, Bool.true_eq_false, if_false]
  by_cases hk : fet = "ValueMetric"
  · simp only [hk, if_true, decide_True, Bool.true_and]
    by_cases hz : (setFilterLists L F0).totalValueMetricFiltersCount
        + (setFilterLists L F0).totalValueMetricMetricsCount = 0
    · simp only [hz, if_true]
      simp only [setFilterLists] at hz
      have h1 : L.valueMetricDeployment = [] := List.length_eq_zero.mp (by omega)
      have h2 : L.valueMetricOrigin = [] := List.length_eq_zero.mp (by omega)
      have h3 : L.valueMetricJob = [] := List.length_eq_zero.mp (by omega)
      have h4 : L.valueMetricMetric = [] := List.length_eq_zero.mp (by omega)
      simp [h1, h2, h3, h4, filtered]
    · simp only [hz, if_false]
      simp only [setFilterLists, List.nil_append]
      split <;> simp_all
  · simp [hk]

/-- When the global exclusion does not match, `processEvent` is true. -/
theorem processEvent_of_not_excluded (L : FilterLists) (F0 : EventFilters) (ev : Envelope)
    (fet : String) (hx : ¬ GlobalExclusionMatches L ev) :
    processEvent (setFilterLists L F0) ev fet = true := by
  have hg : globalEventsFilter (setFilterLists L F0) ev = false := by
    cases h : globalEventsFilter (setFilterLists L F0) ev
    · rfl
    · exact absurd ((globalEventsFilter_iff L F0 ev).mp h) hx
  unfold processEvent
  simp [hg]

/-- A rejected call returns the record and the counters untouched, with the error
"eventskipped". -/
theorem transformEvent_of_not_processEvent (env : Env) (filters : EventFilters)
    (c : PcfCounters) (ev : Envelope) (nrEvent : NREventType) (fet : String)
    (h : processEvent filters ev fet = false) :
    transformEvent env filters c ev nrEvent fet = .returned nrEvent c (some "eventskipped") := by
  unfold transformEvent
  simp [h]

/-- An event that passes the filter and carries its tag and payload is transformed and
the call returns the nil error. -/
theorem transformEvent_accepted_of_processEvent (env : Env) (filters : EventFilters)
    (c : PcfCounters) (ev : Envelope) (nrEvent : NREventType) (fet : String)
    (h : processEvent filters ev fet = true) (hp : ev.payloadPresent = true) :
    (transformEvent env filters c ev nrEvent fet).accepted := by
  unfold transformEvent
  simp only [h, if_true]
  unfold Envelope.payloadPresent at hp
  cases hk : ev.EventType with
  | none => simp [hk] at hp
  | some k =>
    cases k <;> simp only [hk] at hp ⊢
    · obtain ⟨x, hx⟩ := Option.isSome_iff_exists.mp hp
      simp [transformHttpStartStopEvent, hx, Outcome.accepted]
    · obtain ⟨x, hx⟩ := Option.isSome_iff_exists.mp hp
      simp [transformLogMessage, hx, Outcome.accepted]
    · obtain ⟨x, hx⟩ := Option.isSome_iff_exists.mp hp
      simp [transformValueMetric, hx, Outcome.accepted]
    · obtain ⟨x, hx⟩ := Option.isSome_iff_exists.mp hp
      simp [transformCounterEvent, hx, Outcome.accepted]
    · obtain ⟨x, hx⟩ := Option.isSome_iff_exists.mp hp
      simp [transformErrorEvent, hx, Outcome.accepted]
    · obtain ⟨x, hx⟩ := Option.isSome_iff_exists.mp hp
      simp [transformContainerMetric, hx, Outcome.accepted]

/-- A call that returns the nil error passed the filter. -/
theorem processEvent_of_accepted (env : Env) (filters : EventFilters)
    (c : PcfCounters) (ev : Envelope) (nrEvent : NREventType) (fet : String)
    (h : (transformEvent env filters c ev nrEvent fet).accepted) :
    processEvent filters ev fet = true := by
  cases hp : processEvent filters ev fet
  · rw [transformEvent_of_not_processEvent env filters c ev nrEvent fet hp] at h
    exact absurd h (by simp [Outcome.accepted])
  · rfl

/-- A call on an event that passes the filter returns no error: it returns the nil error
or it panics. -/
theorem transformEvent_no_error_of_processEvent (env : Env) (filters : EventFilters)
    (c : PcfCounters) (ev : Envelope) (nrEvent : NREventType) (fet : String)
    (h : processEvent filters ev fet = true) (r : NREventType) (c' : PcfCounters)
    (e : String) :
    transformEvent env filters c ev nrEvent fet ≠ .returned r c' (some e) := by
  unfold transformEvent
  simp only [h, if_true]
  intro he
  split at he
  · exact Outcome.noConfusion he
  all_goals
    split at he
    · exact Outcome.noConfusion he
    · simp at he

/-! ## The filter policy -/

/-- C1. For every filter configuration and every event whose kind is not ValueMetric:
if the global exclusion matches, `transformEvent` rejects the event, returning the error
"eventskipped" and leaving record and counters untouched, whatever the value-metric
inclusion lists contain. -/
theorem C1_excluded_non_gauge_rejected (env : Env) (L : FilterLists) (F0 : EventFilters)
    (c : PcfCounters) (ev : Envelope) (nrEvent : NREventType)
    (hkind : ev.GetEventType ≠ .ValueMetric) (hx : GlobalExclusionMatches L ev) :
    transformEvent env (setFilterLists L F0) c ev nrEvent ev.GetEventType.String
      = .returned nrEvent c (some "eventskipped") := by
  apply transformEvent_of_not_processEvent
  rw [processEvent_of_excluded L F0 ev _ hx]
  have hne : ¬ ev.GetEventType.String = "ValueMetric" :=
    fun h => hkind ((eventType_string_eq_valueMetric _).mp h)
  simp [hne]

/-- C1, at a counter event of deployment "prod" under the exclusion list ["prod"], with
"all" in every inclusion list. -/
theorem C1_excluded_non_gauge_rejected_witness :
    counterProd.GetEventType ≠ .ValueMetric ∧
    GlobalExclusionMatches excludeProdIncludeAll counterProd ∧
    transformEvent exampleEnv (setFilterLists excludeProdIncludeAll {}) {} counterProd []
      counterProd.GetEventType.String = .returned [] {} (some "eventskipped") :=
  ⟨by decide, by decide,
    C1_excluded_non_gauge_rejected exampleEnv excludeProdIncludeAll {} {} counterProd []
      (by decide) (by decide)⟩

/-- C2, at the input of the claim: a ValueMetric event with deployment "prod" and
origin "doppler", the global exclusion list deployment=["prod"] and the inclusion list
metric=["all"]. The event is rejected: "all" in the metric inclusion list is compared
with the metric name and is no sentinel, since `valueMetricAllFiltersSelected` is
computed from the deployment, origin and job lists only. -/
theorem C2_metric_all_rejected :
    transformEvent exampleEnv (setFilterLists excludeProdIncludeMetricAll {}) {} gaugeProd []
      gaugeProd.GetEventType.String = .returned [] {} (some "eventskipped") :=
  transformEvent_of_not_processEvent exampleEnv _ {} gaugeProd [] _ (by decide)

/-- The part of C2 that the code keeps: "all" in the deployment, origin or job
inclusion list re-admits every excluded ValueMetric event. -/
theorem gauge_all_in_deployment_origin_job_accepted (env : Env) (L : FilterLists)
    (F0 : EventFilters) (c : PcfCounters) (ev : Envelope) (vm : ValueMetric)
    (nrEvent : NREventType) (hkind : ev.EventType = some .ValueMetric)
    (hvm : ev.ValueMetric = some vm) (hx : GlobalExclusionMatches L ev)
    (hall : "all" ∈ L.valueMetricDeployment ∨ "all" ∈ L.valueMetricOrigin
      ∨ "all" ∈ L.valueMetricJob) :
    (transformEvent env (setFilterLists L F0) c ev nrEvent ev.GetEventType.String).accepted := by
  apply transformEvent_accepted_of_processEvent
  · rw [processEvent_of_excluded L F0 ev _ hx]
    have hf : filtered (L.valueMetricDeployment ++ L.valueMetricOrigin ++ L.valueMetricJob)
        "all" = true := by
      rw [filtered_iff]
      simp only [List.mem_append]
      tauto
    rw [hf]
    simp [Envelope.GetEventType, hkind, EventType.String]
  · simp [Envelope.payloadPresent, hkind, hvm]

/-- C3. For every ValueMetric event that the global exclusion matches: if all four
value-metric inclusion lists are empty, `transformEvent` rejects the event, returning
"eventskipped" and leaving record and counters untouched. -/
theorem C3_excluded_gauge_no_inclusion_rejected (env : Env) (L : FilterLists)
    (F0 : EventFilters) (c : PcfCounters) (ev : Envelope) (nrEvent : NREventType)
    (hkind : ev.GetEventType = .ValueMetric) (hx : GlobalExclusionMatches L ev)
    (hd : L.valueMetricDeployment = []) (ho : L.valueMetricOrigin = [])
    (hj : L.valueMetricJob = []) (hm : L.valueMetricMetric = []) :
    transformEvent env (setFilterLists L F0) c ev nrEvent ev.GetEventType.String
      = .returned nrEvent c (some "eventskipped") := by
  have hs : ev.GetEventType.String = "ValueMetric" := by
    rw [hkind]
    rfl
  rw [hs]
  apply transformEvent_of_not_processEvent
  rw [processEvent_of_excluded L F0 ev _ hx]
  simp [hd, ho, hj, hm, filtered]

/-- C3, at the input of the claim: deployment "prod", origin "doppler", global exclusion
list deployment=["prod"], no inclusion rule. -/
theorem C3_excluded_gauge_no_inclusion_rejected_witness :
    gaugeProd.GetEventType = .ValueMetric ∧ GlobalExclusionMatches excludeProd gaugeProd ∧
    transformEvent exampleEnv (setFilterLists excludeProd {}) {} gaugeProd []
      gaugeProd.GetEventType.String = .returned [] {} (some "eventskipped") :=
  ⟨by decide, by decide,
    C3_excluded_gauge_no_inclusion_rejected exampleEnv excludeProd {} {} gaugeProd []
      (by decide) (by decide) rfl rfl rfl rfl⟩

/-- C4. For every filter configuration and every event, whatever its kind and whether or
not it carries a payload: if no global exclusion list contains "all" and the deployment,
origin and job of the event are each absent from the respective exclusion list, the
filter accepts the event, whatever the value-metric inclusion lists contain: the flag
`processEvent` is true and `transformEvent` returns no error, "eventskipped" or other;
when the event carries its kind tag and payload, `transformEvent` returns the nil
error. -/
theorem C4_not_excluded_accepted (env : Env) (L : FilterLists) (F0 : EventFilters)
    (c : PcfCounters) (ev : Envelope) (nrEvent : NREventType)
    (hall : "all" ∉ L.globalDeployment ∧ "all" ∉ L.globalOrigin ∧ "all" ∉ L.globalJob)
    (hd : ev.GetDeployment ∉ L.globalDeployment) (ho : ev.GetOrigin ∉ L.globalOrigin)
    (hj : ev.GetJob ∉ L.globalJob) :
    processEvent (setFilterLists L F0) ev ev.GetEventType.String = true ∧
    (∀ r c' e, transformEvent env (setFilterLists L F0) c ev nrEvent ev.GetEventType.String
      ≠ .returned r c' (some e)) ∧
    (ev.payloadPresent = true →
      (transformEvent env (setFilterLists L F0) c ev nrEvent
        ev.GetEventType.String).accepted) := by
  have hx : ¬ GlobalExclusionMatches L ev := by
    unfold GlobalExclusionMatches
    tauto
  have hpe := processEvent_of_not_excluded L F0 ev ev.GetEventType.String hx
  exact ⟨hpe, transformEvent_no_error_of_processEvent env _ c ev nrEvent _ hpe,
    transformEvent_accepted_of_processEvent env _ c ev nrEvent _ hpe⟩

/-- C4, under the exclusion list ["staging"], at a gauge event of deployment "prod",
which is transformed, and at a gauge envelope of deployment "prod" without payload, which
passes the filter too. -/
theorem C4_not_excluded_accepted_witness :
    processEvent (setFilterLists excludeStaging {}) gaugeProd gaugeProd.GetEventType.String
      = true ∧
    (transformEvent exampleEnv (setFilterLists excludeStaging {}) {} gaugeProd []
      gaugeProd.GetEventType.String).accepted ∧
    processEvent (setFilterLists excludeStaging {}) gaugeNoPayload
      gaugeNoPayload.GetEventType.String = true :=
  ⟨(C4_not_excluded_accepted exampleEnv excludeStaging {} {} gaugeProd [] (by decide)
      (by decide) (by decide) (by decide)).1,
    (C4_not_excluded_accepted exampleEnv excludeStaging {} {} gaugeProd [] (by decide)
      (by decide) (by decide) (by decide)).2.2 (by decide),
    (C4_not_excluded_accepted exampleEnv excludeStaging {} {} gaugeNoPayload []
      (by decide) (by decide) (by decide) (by decide)).1⟩

/-- C5. For every event tagged ValueMetric that the global exclusion matches, whether or
not it carries its payload, and every inclusion configuration with no "all" in the
deployment, origin and job inclusion lists (the metric list needs no such condition: an
"all" there is only compared with the metric name): the filter accepts the event if and
only if its deployment, origin, job or metric name occurs in the respective inclusion
list. The flag `processEvent` is true exactly then, `transformEvent` returns
"eventskipped" with record and counters untouched exactly when none occurs, and it returns
an error only then; for an event that carries its payload, `transformEvent` returns the
nil error exactly when one occurs. -/
theorem C5_excluded_gauge_accepted_iff_included (env : Env) (L : FilterLists)
    (F0 : EventFilters) (c : PcfCounters) (ev : Envelope)
    (nrEvent : NREventType) (hkind : ev.EventType = some .ValueMetric)
    (hx : GlobalExclusionMatches L ev)
    (hall : "all" ∉ L.valueMetricDeployment ∧ "all" ∉ L.valueMetricOrigin
      ∧ "all" ∉ L.valueMetricJob) :
    (processEvent (setFilterLists L F0) ev ev.GetEventType.String = true
      ↔ InclusionMatches L ev) ∧
    (transformEvent env (setFilterLists L F0) c ev nrEvent ev.GetEventType.String
        = .returned nrEvent c (some "eventskipped")
      ↔ ¬ InclusionMatches L ev) ∧
    ((∃ r c' e, transformEvent env (setFilterLists L F0) c ev nrEvent ev.GetEventType.String
        = .returned r c' (some e))
      ↔ ¬ InclusionMatches L ev) ∧
    (ev.ValueMetric.isSome = true →
      ((transformEvent env (setFilterLists L F0) c ev nrEvent
          ev.GetEventType.String).accepted
        ↔ InclusionMatches L ev)) := by
  have hs : ev.GetEventType.String = "ValueMetric" := by
    simp [Envelope.GetEventType, hkind, EventType.String]
  have hf : filtered (L.valueMetricDeployment ++ L.valueMetricOrigin ++ L.valueMetricJob)
      "all" = false := by
    rw [filtered_eq_false_iff]
    simp only [List.mem_append]
    tauto
  have hpe : processEvent (setFilterLists L F0) ev ev.GetEventType.String = true
      ↔ InclusionMatches L ev := by
    rw [processEvent_of_excluded L F0 ev _ hx, hs, hf]
    simp only [InclusionMatches, decide_True, Bool.true_and, Bool.false_or, Bool.or_eq_true,
      filtered_iff]
    tauto
  by_cases hm : InclusionMatches L ev
  · have h1 := hpe.mpr hm
    have hne := transformEvent_no_error_of_processEvent env _ c ev nrEvent _ h1
    refine ⟨hpe, ⟨fun he => absurd he (hne _ _ _), fun hn => absurd hm hn⟩,
      ⟨fun ⟨r, c', e, he⟩ => absurd he (hne r c' e), fun hn => absurd hm hn⟩, fun hvm => ?_⟩
    have hp : ev.payloadPresent = true := by simp [Envelope.payloadPresent, hkind, hvm]
    exact ⟨fun _ => hm, fun _ => transformEvent_accepted_of_processEvent env _ c ev nrEvent _
      h1 hp⟩
  · have h1 : processEvent (setFilterLists L F0) ev ev.GetEventType.String = false := by
      cases h : processEvent (setFilterLists L F0) ev ev.GetEventType.String
      · rfl
      · exact absurd (hpe.mp h) hm
    have hrej := transformEvent_of_not_processEvent env _ c ev nrEvent _ h1
    refine ⟨hpe, ⟨fun _ => hm, fun _ => hrej⟩, ⟨fun _ => hm, fun _ => ⟨_, _, _, hrej⟩⟩,
      fun _ => ⟨fun ha => ?_, fun h => absurd h hm⟩⟩
    rw [hrej] at ha
    exact absurd ha (by simp [Outcome.accepted])

/-- C5, under the exclusion of deployment "prod" with the metric "numCPUS" included, at a
gauge event of deployment "prod" and metric name "numCPUS", which is re-admitted and
transformed, and at a gauge envelope of deployment "prod" without payload, which the
filter rejects: its metric name reads as "". -/
theorem C5_excluded_gauge_accepted_iff_included_witness :
    InclusionMatches excludeProdIncludeNumCPUS gaugeProd ∧
    (transformEvent exampleEnv (setFilterLists excludeProdIncludeNumCPUS {}) {} gaugeProd []
      gaugeProd.GetEventType.String).accepted ∧
    transformEvent exampleEnv (setFilterLists excludeProdIncludeNumCPUS {}) {} gaugeNoPayload
      [] gaugeNoPayload.GetEventType.String = .returned [] {} (some "eventskipped") :=
  ⟨by decide,
    ((C5_excluded_gauge_accepted_iff_included exampleEnv excludeProdIncludeNumCPUS {} {}
      gaugeProd [] rfl (by decide) (by decide)).2.2.2 rfl).mpr (by decide),
    (C5_excluded_gauge_accepted_iff_included exampleEnv excludeProdIncludeNumCPUS {} {}
      gaugeNoPayload [] rfl (by decide) (by decide)).2.1.mpr (by decide)⟩

/-- C6. For every configuration whose global deployment exclusion list contains "all":
the global exclusion matches every event whatever its deployment, origin and job, so
every event of a kind other than ValueMetric is rejected; and the "all" of the exclusion
list is no inclusion: a ValueMetric event is still rejected when the deployment, origin
and job inclusion lists hold no "all" and no inclusion list holds the event's deployment,
origin, job or metric name. -/
theorem C6_all_is_list_local (env : Env) (L : FilterLists) (F0 : EventFilters)
    (c : PcfCounters) (ev : Envelope) (nrEvent : NREventType)
    (hall : "all" ∈ L.globalDeployment) :
    globalEventsFilter (setFilterLists L F0) ev = true ∧
    (ev.GetEventType ≠ .ValueMetric →
      transformEvent env (setFilterLists L F0) c ev nrEvent ev.GetEventType.String
        = .returned nrEvent c (some "eventskipped")) ∧
    (ev.GetEventType = .ValueMetric →
      "all" ∉ L.valueMetricDeployment → "all" ∉ L.valueMetricOrigin →
      "all" ∉ L.valueMetricJob → ¬ InclusionMatches L ev →
      transformEvent env (setFilterLists L F0) c ev nrEvent ev.GetEventType.String
        = .returned nrEvent c (some "eventskipped")) := by
  have hx : GlobalExclusionMatches L ev :=
    ⟨Or.inl (List.ne_nil_of_mem hall), Or.inl hall⟩
  refine ⟨(globalEventsFilter_iff L F0 ev).mpr hx, fun hk => ?_, fun _ h1 h2 h3 hm => ?_⟩
  · apply transformEvent_of_not_processEvent
    rw [processEvent_of_excluded L F0 ev _ hx]
    have hne : ¬ ev.GetEventType.String = "ValueMetric" :=
      fun h => hk ((eventType_string_eq_valueMetric _).mp h)
    simp [hne]
  · apply transformEvent_of_not_processEvent
    rw [processEvent_of_excluded L F0 ev _ hx]
    have hf : filtered (L.valueMetricDeployment ++ L.valueMetricOrigin ++ L.valueMetricJob)
        "all" = false := by
      rw [filtered_eq_false_iff]
      simp only [List.mem_append]
      tauto
    rw [hf]
    simp only [InclusionMatches, not_or] at hm
    obtain ⟨m1, m2, m3, m4⟩ := hm
    simp [(filtered_eq_false_iff _ _).mpr m1, (filtered_eq_false_iff _ _).mpr m2,
      (filtered_eq_false_iff _ _).mpr m3, (filtered_eq_false_iff _ _).mpr m4]

/-- C6, at a counter event and at a gauge event of deployment "prod", under the exclusion
list ["all"] and inclusion lists that name only "staging" and "cpu". -/
theorem C6_all_is_list_local_witness :
    "all" ∈ excludeAllIncludeStaging.globalDeployment ∧
    transformEvent exampleEnv (setFilterLists excludeAllIncludeStaging {}) {} counterProd []
      counterProd.GetEventType.String = .returned [] {} (some "eventskipped") ∧
    transformEvent exampleEnv (setFilterLists excludeAllIncludeStaging {}) {} gaugeProd []
      gaugeProd.GetEventType.String = .returned [] {} (some "eventskipped") :=
  ⟨by decide,
    (C6_all_is_list_local exampleEnv excludeAllIncludeStaging {} {} counterProd []
      (by decide)).2.1 (by decide),
    (C6_all_is_list_local exampleEnv excludeAllIncludeStaging {} {} gaugeProd []
      (by decide)).2.2 (by decide) (by decide) (by decide) (by decide) (by decide)⟩

/-- C7. An empty dimension list never matches anything: `filtered` of the empty list is
false at every string; when the three global exclusion lists are empty, the filter accepts
every event, whatever its kind and whether or not it carries a payload: the flag
`processEvent` is true, `transformEvent` returns no error, and it returns the nil error
when the event carries its kind tag and payload; and the filter re-admits an excluded
event only through an inclusion list that is not empty: one of the four lists is
non-empty and holds the event's value on its dimension or, for the deployment, origin and
job lists, the sentinel "all". -/
theorem C7_empty_list_never_matches (env : Env) (L : FilterLists) (F0 : EventFilters)
    (c : PcfCounters) (ev : Envelope) (nrEvent : NREventType) :
    (∀ s : String, filtered [] s = false) ∧
    (L.globalDeployment = [] → L.globalOrigin = [] → L.globalJob = [] →
      processEvent (setFilterLists L F0) ev ev.GetEventType.String = true ∧
      (∀ r c' e, transformEvent env (setFilterLists L F0) c ev nrEvent ev.GetEventType.String
        ≠ .returned r c' (some e)) ∧
      (ev.payloadPresent = true →
        (transformEvent env (setFilterLists L F0) c ev nrEvent
          ev.GetEventType.String).accepted)) ∧
    (GlobalExclusionMatches L ev →
      processEvent (setFilterLists L F0) ev ev.GetEventType.String = true →
      (L.valueMetricDeployment ≠ [] ∧
          ("all" ∈ L.valueMetricDeployment ∨ ev.GetDeployment ∈ L.valueMetricDeployment)) ∨
        (L.valueMetricOrigin ≠ [] ∧
          ("all" ∈ L.valueMetricOrigin ∨ ev.GetOrigin ∈ L.valueMetricOrigin)) ∨
        (L.valueMetricJob ≠ [] ∧
          ("all" ∈ L.valueMetricJob ∨ ev.GetJob ∈ L.valueMetricJob)) ∨
        (L.valueMetricMetric ≠ [] ∧ ev.valueMetricGetName ∈ L.valueMetricMetric)) ∧
    (GlobalExclusionMatches L ev →
      (transformEvent env (setFilterLists L F0) c ev nrEvent
        ev.GetEventType.String).accepted →
      (L.valueMetricDeployment ≠ [] ∧
          ("all" ∈ L.valueMetricDeployment ∨ ev.GetDeployment ∈ L.valueMetricDeployment)) ∨
        (L.valueMetricOrigin ≠ [] ∧
          ("all" ∈ L.valueMetricOrigin ∨ ev.GetOrigin ∈ L.valueMetricOrigin)) ∨
        (L.valueMetricJob ≠ [] ∧
          ("all" ∈ L.valueMetricJob ∨ ev.GetJob ∈ L.valueMetricJob)) ∨
        (L.valueMetricMetric ≠ [] ∧ ev.valueMetricGetName ∈ L.valueMetricMetric)) := by
  have hthird : GlobalExclusionMatches L ev →
      processEvent (setFilterLists L F0) ev ev.GetEventType.String = true →
      (L.valueMetricDeployment ≠ [] ∧
          ("all" ∈ L.valueMetricDeployment ∨ ev.GetDeployment ∈ L.valueMetricDeployment)) ∨
        (L.valueMetricOrigin ≠ [] ∧
          ("all" ∈ L.valueMetricOrigin ∨ ev.GetOrigin ∈ L.valueMetricOrigin)) ∨
        (L.valueMetricJob ≠ [] ∧
          ("all" ∈ L.valueMetricJob ∨ ev.GetJob ∈ L.valueMetricJob)) ∨
        (L.valueMetricMetric ≠ [] ∧ ev.valueMetricGetName ∈ L.valueMetricMetric) := by
    intro hx hpe
    rw [processEvent_of_excluded L F0 ev _ hx] at hpe
    simp only [Bool.and_eq_true, Bool.or_eq_true, filtered_iff, List.mem_append] at hpe
    obtain ⟨_, h⟩ := hpe
    rcases h with (((((h | h) | h) | h) | h) | h) | h
    · exact Or.inl ⟨List.ne_nil_of_mem h, Or.inl h⟩
    · exact Or.inr (Or.inl ⟨List.ne_nil_of_mem h, Or.inl h⟩)
    · exact Or.inr (Or.inr (Or.inl ⟨List.ne_nil_of_mem h, Or.inl h⟩))
    · exact Or.inl ⟨List.ne_nil_of_mem h, Or.inr h⟩
    · exact Or.inr (Or.inl ⟨List.ne_nil_of_mem h, Or.inr h⟩)
    · exact Or.inr (Or.inr (Or.inl ⟨List.ne_nil_of_mem h, Or.inr h⟩))
    · exact Or.inr (Or.inr (Or.inr ⟨List.ne_nil_of_mem h, h⟩))
  refine ⟨fun s => rfl, fun h1 h2 h3 => ?_, hthird,
    fun hx hacc => hthird hx (processEvent_of_accepted env _ c ev nrEvent _ hacc)⟩
  have hx : ¬ GlobalExclusionMatches L ev := by
    simp [GlobalExclusionMatches, h1, h2, h3]
  have hpe := processEvent_of_not_excluded L F0 ev ev.GetEventType.String hx
  exact ⟨hpe, transformEvent_no_error_of_processEvent env _ c ev nrEvent _ hpe,
    transformEvent_accepted_of_processEvent env _ c ev nrEvent _ hpe⟩

/-- C7, under a configuration with no filter at all: a gauge event is accepted and
transformed, and a gauge envelope without payload passes the filter too. -/
theorem C7_empty_list_never_matches_witness :
    filtered [] "prod" = false ∧
    (transformEvent exampleEnv (setFilterLists noFilterLists {}) {} gaugeProd []
      gaugeProd.GetEventType.String).accepted ∧
    processEvent (setFilterLists noFilterLists {}) gaugeNoPayload
      gaugeNoPayload.GetEventType.String = true :=
  ⟨(C7_empty_list_never_matches exampleEnv noFilterLists {} {} gaugeProd []).1 "prod",
    ((C7_empty_list_never_matches exampleEnv noFilterLists {} {} gaugeProd []).2.1
      rfl rfl rfl).2.2 (by decide),
    ((C7_empty_list_never_matches exampleEnv noFilterLists {} {} gaugeNoPayload []).2.1
      rfl rfl rfl).1⟩

/-! ## Lemmas on records -/

theorem get_set (r : NREventType) (k k' : String) (v : Value) :
    (r.set k v).get k' = if k = k' then some v else r.get k' := by
  induction r with
  | nil => simp [NREventType.set, NREventType.get]
  | cons p rest ih =>
    obtain ⟨a, b⟩ := p
    by_cases h : a = k
    · subst h
      by_cases h' : a = k' <;> simp [NREventType.set, NREventType.get, h']
    · by_cases h' : a = k'
      · subst h'
        have hk : ¬ k = a := fun e => h e.symm
        simp [NREventType.set, NREventType.get, h, hk]
      · simp [NREventType.set, NREventType.get, h, h', ih]

theorem append_eq_self_iff (s k : String) : s ++ k = s ↔ k = "" := by
  constructor
  · intro h
    have hd := congrArg String.data h
    simp only [String.data_append] at hd
    apply String.ext
    simpa using hd
  · rintro rfl
    simp

/-- The loop over the decoded object changes the field "logMessage" only through
entries with the empty key. -/
theorem get_mergeParsedContent_logMessage (kvs : List (String × Value)) (r : NREventType) :
    (mergeParsedContent r kvs).get "logMessage" = afterEmptyKeys kvs (r.get "logMessage") := by
  induction kvs generalizing r with
  | nil => rfl
  | cons kv rest ih =>
    have hstep : mergeParsedContent r (kv :: rest)
        = mergeParsedContent (r.set (("log" ++ "Message") ++ kv.1) kv.2) rest := rfl
    have hkey : ("log" ++ "Message" : String) = "logMessage" := by decide
    rw [hstep, ih, get_set, hkey]
    simp only [afterEmptyKeys, List.foldl_cons, append_eq_self_iff]

theorem afterEmptyKeys_of_no_empty_key (kvs : List (String × Value)) (v : Option Value)
    (h : ∀ kv ∈ kvs, kv.1 ≠ "") : afterEmptyKeys kvs v = v := by
  induction kvs generalizing v with
  | nil => rfl
  | cons kv rest ih =>
    have h1 : kv.1 ≠ "" := h kv (List.mem_cons_self _ _)
    have h2 : ∀ x ∈ rest, x.1 ≠ "" := fun x hx => h x (List.mem_cons_of_mem _ hx)
    simp only [afterEmptyKeys, List.foldl_cons, h1, if_false]
    exact ih v h2

theorem get_addAppDetailInfo_logMessage (env : Env) (r : NREventType) (g : String) :
    (addAppDetailInfo env r g).get "logMessage" = r.get "logMessage" := by
  simp [addAppDetailInfo, get_set]

/-- The field "logMessage" of the record that `transformLogMessage` builds for an event
with a message body: the truncated body, overwritten by the entries of the decoded
object that have the empty key. -/
theorem get_transformLogMessage_logMessage (env : Env) (ev : Envelope) (msg : LogMessage)
    (body : List UInt8) (r0 r : NREventType) (hmsg : ev.LogMessage = some msg)
    (hbody : msg.Message = some body) (hr : transformLogMessage env ev r0 = some r) :
    r.get "logMessage" =
      match env.jsonUnmarshal (truncateMessage body) with
      | some kvs => afterEmptyKeys kvs (some (.bytesString (truncateMessage body)))
      | none => some (.bytesString (truncateMessage body)) := by
  obtain ⟨m, mt, ts, ai, st, si⟩ := msg
  simp only at hbody
  subst hbody
  have hkey : ("log" ++ "Message" : String) = "logMessage" := by decide
  have hbase : ∀ x : NREventType,
      (match env.jsonUnmarshal (truncateMessage body) with
        | some parsedContent =>
          mergeParsedContent (x.set ("log" ++ "Message")
            (.bytesString (truncateMessage body))) parsedContent
        | none => x.set ("log" ++ "Message") (.bytesString (truncateMessage body))).get
          "logMessage" =
      match env.jsonUnmarshal (truncateMessage body) with
      | some kvs => afterEmptyKeys kvs (some (.bytesString (truncateMessage body)))
      | none => some (.bytesString (truncateMessage body)) := by
    intro x
    cases env.jsonUnmarshal (truncateMessage body) with
    | none => simp [get_set, hkey]
    | some kvs => simp [get_mergeParsedContent_logMessage, get_set, hkey]
  cases mt <;> cases ts <;> cases ai <;> cases st <;> cases si <;>
    simp only [transformLogMessage, hmsg, Option.some.injEq] at hr <;>
    subst hr <;>
    simp only [get_set, get_addAppDetailInfo_logMessage, hbase] <;>
    simp

/-- A log event that passes the filter is transformed by `transformLogMessage` on the
record with the generic fields, the log counter is incremented and the nil error is
returned. -/
theorem transformEvent_logMessage (env : Env) (filters : EventFilters) (c : PcfCounters)
    (ev : Envelope) (msg : LogMessage) (nrEvent : NREventType) (fet : String)
    (hkind : ev.EventType = some .LogMessage) (hmsg : ev.LogMessage = some msg)
    (hpe : processEvent filters ev fet = true) :
    ∃ r, transformLogMessage env ev
        (fillGenericMetrics env nrEvent ev.GetOrigin fet ev.GetDeployment ev.GetJob
          ev.GetIndex ev.GetIp ev.GetTimestamp ev.Tags) = some r ∧
      transformEvent env filters c ev nrEvent fet =
        .returned r { c with logMessageEvents := incr64 c.logMessageEvents } none := by
  have hsome : ∀ x, ∃ r, transformLogMessage env ev x = some r := by
    intro x
    simp [transformLogMessage, hmsg]
  obtain ⟨r, hr⟩ := hsome (fillGenericMetrics env nrEvent ev.GetOrigin fet ev.GetDeployment
    ev.GetJob ev.GetIndex ev.GetIp ev.GetTimestamp ev.Tags)
  refine ⟨r, hr, ?_⟩
  unfold transformEvent
  simp only [hpe, if_true, hkind, hr]

/-! ## The log message body -/

theorem truncateMessage_length_le (body : List UInt8) :
    (truncateMessage body).length ≤ 4096 := by
  unfold truncateMessage
  split
  · simp only [List.length_take]
    omega
  · omega

/-- A body longer than 4096 bytes is cut to its first 4095 bytes. -/
theorem truncateMessage_of_long (body : List UInt8) (h : body.length > 4096) :
    truncateMessage body = body.take 4095 ∧ (truncateMessage body).length = 4095 := by
  unfold truncateMessage
  simp only [h, if_true, List.length_take, true_and]
  omega

/-- A body of at most 4096 bytes is kept whole. -/
theorem truncateMessage_of_short (body : List UInt8) (h : body.length ≤ 4096) :
    truncateMessage body = body := by
  unfold truncateMessage
  have h' : ¬ body.length > 4096 := by omega
  simp only [h', if_false]

/-- The decoder is consulted on the truncated body only: replacing it by a decoder that
answers the same on the truncated body leaves `transformLogMessage` unchanged. -/
theorem transformLogMessage_decodes_truncated (env : Env) (ev : Envelope) (msg : LogMessage)
    (body : List UInt8) (r0 : NREventType)
    (u : List UInt8 → Option (List (String × Value)))
    (hmsg : ev.LogMessage = some msg) (hbody : msg.Message = some body)
    (hu : u (truncateMessage body) = env.jsonUnmarshal (truncateMessage body)) :
    transformLogMessage { env with jsonUnmarshal := u } ev r0
      = transformLogMessage env ev r0 := by
  have happ : ∀ (x : NREventType) (g : String),
      addAppDetailInfo { env with jsonUnmarshal := u } x g = addAppDetailInfo env x g :=
    fun _ _ => rfl
  simp only [transformLogMessage, hmsg, hbody, hu, happ]

/-- For a log event with a message body that passes the filter, the call returns the nil
error and the field "logMessage" of the record is the truncated body, overwritten by the
entries of the decoded object that have the empty key. -/
theorem logMessage_field (env : Env) (filters : EventFilters) (c : PcfCounters)
    (ev : Envelope) (msg : LogMessage) (body : List UInt8) (nrEvent : NREventType)
    (fet : String) (hkind : ev.EventType = some .LogMessage)
    (hmsg : ev.LogMessage = some msg) (hbody : msg.Message = some body)
    (hpe : processEvent filters ev fet = true) :
    ∃ r c', transformEvent env filters c ev nrEvent fet = .returned r c' none ∧
      r.get "logMessage" =
        match env.jsonUnmarshal (truncateMessage body) with
        | some kvs => afterEmptyKeys kvs (some (.bytesString (truncateMessage body)))
        | none => some (.bytesString (truncateMessage body)) := by
  obtain ⟨r, hr, ht⟩ := transformEvent_logMessage env filters c ev msg nrEvent fet hkind hmsg hpe
  exact ⟨r, _, ht, get_transformLogMessage_logMessage env ev msg body _ r hmsg hbody hr⟩

/-- When the truncated body does not decode, or decodes to an object without the empty
key, the field "logMessage" of the record is the truncated body. -/
theorem logMessage_field_raw (env : Env) (filters : EventFilters) (c : PcfCounters)
    (ev : Envelope) (msg : LogMessage) (body : List UInt8) (nrEvent : NREventType)
    (fet : String) (hkind : ev.EventType = some .LogMessage)
    (hmsg : ev.LogMessage = some msg) (hbody : msg.Message = some body)
    (hpe : processEvent filters ev fet = true)
    (hkeys : ∀ kvs, env.jsonUnmarshal (truncateMessage body) = some kvs →
      ∀ kv ∈ kvs, kv.1 ≠ "") :
    ∃ r c', transformEvent env filters c ev nrEvent fet = .returned r c' none ∧
      r.get "logMessage" = some (.bytesString (truncateMessage body)) := by
  obtain ⟨r, c', ht, hg⟩ :=
    logMessage_field env filters c ev msg body nrEvent fet hkind hmsg hbody hpe
  refine ⟨r, c', ht, ?_⟩
  rw [hg]
  cases hd : env.jsonUnmarshal (truncateMessage body) with
  | none => rfl
  | some kvs => exact afterEmptyKeys_of_no_empty_key kvs _ (hkeys kvs hd)

theorem processEvent_noFilterLists (ev : Envelope) (fet : String) :
    processEvent (setFilterLists noFilterLists {}) ev fet = true :=
  processEvent_of_not_excluded noFilterLists {} ev fet
    (by simp [GlobalExclusionMatches, noFilterLists])

theorem paddedEmptyKeyBody_length : paddedEmptyKeyBody.length = 4095 := by
  unfold paddedEmptyKeyBody
  rw [List.length_append, List.length_append, List.length_replicate]
  rfl

theorem body4096_length : body4096.length = 4096 := List.length_replicate _ _

theorem exampleUnmarshal_body4096 : exampleUnmarshal body4096 = none := by
  have h1 : ¬ body4096 = paddedEmptyKeyBody := fun h => by
    have hl := congrArg List.length h
    rw [body4096_length, paddedEmptyKeyBody_length] at hl
    omega
  have h2 : ¬ body4096 = [123, 34, 34, 58, 49, 125] := fun h => by
    have hl := congrArg List.length h
    rw [body4096_length] at hl
    simp at hl
  have h3 : ¬ body4096 = [123, 34, 120, 34, 58, 49, 125] := fun h => by
    have hl := congrArg List.length h
    rw [body4096_length] at hl
    simp at hl
  simp only [exampleUnmarshal, h1, h2, h3, if_false]

/-- C8, at a log event whose body is 4096 letters "a": the event is accepted and the
field "logMessage" of the record is the whole body, 4096 bytes long, since the test
`len(msgContent) > 4096` leaves a body of exactly 4096 bytes uncut. -/
theorem C8_body_of_4096_bytes_kept_whole :
    body4096.length = 4096 ∧
    ∃ r c', transformEvent exampleEnv (setFilterLists noFilterLists {}) {} (logEvent body4096)
        [] (logEvent body4096).GetEventType.String = .returned r c' none ∧
      r.get "logMessage" = some (.bytesString body4096) := by
  have hlen : body4096.length = 4096 := body4096_length
  refine ⟨hlen, ?_⟩
  obtain ⟨r, c', ht, hg⟩ := logMessage_field exampleEnv (setFilterLists noFilterLists {}) {}
    (logEvent body4096) _ body4096 [] (logEvent body4096).GetEventType.String rfl rfl rfl
    (processEvent_noFilterLists _ _)
  refine ⟨r, c', ht, ?_⟩
  rw [hg, truncateMessage_of_short body4096 (by omega)]
  have hu : exampleEnv.jsonUnmarshal body4096 = none := exampleUnmarshal_body4096
  rw [hu]

theorem exampleEnv_jsonUnmarshal : exampleEnv.jsonUnmarshal = exampleUnmarshal := rfl

theorem body5000_length : body5000.length = 5000 := by
  unfold body5000
  rw [List.length_append, List.length_replicate, paddedEmptyKeyBody_length]

theorem truncateMessage_body5000 : truncateMessage body5000 = paddedEmptyKeyBody := by
  rw [(truncateMessage_of_long body5000 (by rw [body5000_length]; omega)).1]
  exact List.take_left' paddedEmptyKeyBody_length

theorem exampleUnmarshal_paddedEmptyKeyBody :
    exampleUnmarshal paddedEmptyKeyBody = some [("", .float64 float64One)] := by
  unfold exampleUnmarshal
  exact if_pos rfl

theorem exampleUnmarshal_bodyEmptyKey :
    exampleUnmarshal bodyEmptyKey = some [("", .float64 float64One)] := by
  have h1 : ¬ bodyEmptyKey = paddedEmptyKeyBody := fun h => by
    have hl := congrArg List.length h
    rw [paddedEmptyKeyBody_length] at hl
    simp [bodyEmptyKey] at hl
  simp only [exampleUnmarshal, h1, if_false]
  rfl

/-- C9, at a log event whose body is 5000 bytes long and starts with the 4095 bytes
`{"":1`, 4089 spaces, `}`: the body is cut to these 4095 bytes, they decode to an object
with the empty key, and the loop over the decoded object overwrites the field
"logMessage" with the number 1, so the record does not hold the first 4095 bytes of the
body under "logMessage". -/
theorem C9_empty_key_overwrites_truncated_body :
    body5000.length = 5000 ∧ truncateMessage body5000 = body5000.take 4095 ∧
    ∃ r c', transformEvent exampleEnv (setFilterLists noFilterLists {}) {} (logEvent body5000)
        [] (logEvent body5000).GetEventType.String = .returned r c' none ∧
      r.get "logMessage" = some (.float64 float64One) ∧
      r.get "logMessage" ≠ some (.bytesString (body5000.take 4095)) := by
  refine ⟨body5000_length,
    (truncateMessage_of_long body5000 (by rw [body5000_length]; omega)).1, ?_⟩
  obtain ⟨r, c', ht, hg⟩ := logMessage_field exampleEnv (setFilterLists noFilterLists {}) {}
    (logEvent body5000) _ body5000 [] (logEvent body5000).GetEventType.String rfl rfl rfl
    (processEvent_noFilterLists _ _)
  have hu : exampleEnv.jsonUnmarshal (truncateMessage body5000)
      = some [("", .float64 float64One)] := by
    rw [truncateMessage_body5000, exampleEnv_jsonUnmarshal,
      exampleUnmarshal_paddedEmptyKeyBody]
  rw [hu] at hg
  have hv : r.get "logMessage" = some (.float64 float64One) := by
    rw [hg]
    rfl
  refine ⟨r, c', ht, hv, ?_⟩
  rw [hv]
  simp

/-- C10, at a log event whose body is `{"":1}`: the body decodes to an object with the
empty key, the loop over the decoded object writes the number 1 under "logMessage" with
the empty key appended, that is under "logMessage" itself, and the record does not hold
the raw body there. -/
theorem C10_empty_key_overwrites_raw_body :
    truncateMessage bodyEmptyKey = bodyEmptyKey ∧
    ∃ r c', transformEvent exampleEnv (setFilterLists noFilterLists {}) {}
        (logEvent bodyEmptyKey) [] (logEvent bodyEmptyKey).GetEventType.String
          = .returned r c' none ∧
      r.get "logMessage" = some (.float64 float64One) ∧
      r.get "logMessage" ≠ some (.bytesString bodyEmptyKey) := by
  have htr : truncateMessage bodyEmptyKey = bodyEmptyKey := by decide
  refine ⟨htr, ?_⟩
  obtain ⟨r, c', ht, hg⟩ := logMessage_field exampleEnv (setFilterLists noFilterLists {}) {}
    (logEvent bodyEmptyKey) _ bodyEmptyKey [] (logEvent bodyEmptyKey).GetEventType.String
    rfl rfl rfl (processEvent_noFilterLists _ _)
  have hu : exampleEnv.jsonUnmarshal (truncateMessage bodyEmptyKey)
      = some [("", .float64 float64One)] := by
    rw [htr, exampleEnv_jsonUnmarshal, exampleUnmarshal_bodyEmptyKey]
  rw [hu] at hg
  have hv : r.get "logMessage" = some (.float64 float64One) := by
    rw [hg]
    rfl
  refine ⟨r, c', ht, hv, ?_⟩
  rw [hv]
  simp

/-! ## The transformations as chains of optional assignments -/

theorem matchString_eq_setOpt (o : Option String) (r : NREventType) (k : String)
    (f : String → Value) :
    (match o with
      | some x => r.set k (f x)
      | none => r) = setOpt r k (o.map f) := by
  cases o <;> rfl

theorem matchFloat64_eq_setOpt (o : Option Float64) (r : NREventType) (k : String)
    (f : Float64 → Value) :
    (match o with
      | some x => r.set k (f x)
      | none => r) = setOpt r k (o.map f) := by
  cases o <;> rfl

theorem matchNat_eq_setOpt (o : Option Nat) (r : NREventType) (k : String)
    (f : Nat → Value) :
    (match o with
      | some x => r.set k (f x)
      | none => r) = setOpt r k (o.map f) := by
  cases o <;> rfl

theorem matchInt_eq_setOpt (o : Option Int) (r : NREventType) (k : String)
    (f : Int → Value) :
    (match o with
      | some x => r.set k (f x)
      | none => r) = setOpt r k (o.map f) := by
  cases o <;> rfl

theorem matchUUID_eq_setOpt (o : Option UUID) (r : NREventType) (k : String)
    (f : UUID → Value) :
    (match o with
      | some x => r.set k (f x)
      | none => r) = setOpt r k (o.map f) := by
  cases o <;> rfl

theorem matchPeerType_eq_setOpt (o : Option PeerType) (r : NREventType) (k : String)
    (f : PeerType → Value) :
    (match o with
      | some x => r.set k (f x)
      | none => r) = setOpt r k (o.map f) := by
  cases o <;> rfl

theorem matchMessageType_eq_setOpt (o : Option MessageType) (r : NREventType) (k : String)
    (f : MessageType → Value) :
    (match o with
      | some x => r.set k (f x)
      | none => r) = setOpt r k (o.map f) := by
  cases o <;> rfl

theorem get_setOpt (r : NREventType) (k k' : String) (o : Option Value) :
    (setOpt r k o).get k' = if k = k' then o.or (r.get k') else r.get k' := by
  cases o with
  | none => simp [setOpt]
  | some v => simp [setOpt, get_set]

theorem transformValueMetric_eq (ev : Envelope) (vm : ValueMetric) (r : NREventType)
    (h : ev.ValueMetric = some vm) :
    transformValueMetric ev r = some
      (setOpt (setOpt (setOpt r "valueMetricName" (vm.Name.map .str))
        "valueMetricValue" (vm.Value.map .float64)) "valueMetricUnit" (vm.Unit.map .str)) := by
  simp only [transformValueMetric, h, matchString_eq_setOpt, matchFloat64_eq_setOpt]
  rfl

theorem transformCounterEvent_eq (ev : Envelope) (ce : CounterEvent) (r : NREventType)
    (h : ev.CounterEvent = some ce) :
    transformCounterEvent ev r = some
      (setOpt (setOpt (setOpt r "counterEventName" (ce.Name.map .str))
        "counterEventDelta" (ce.Delta.map .uint64)) "counterEventTotal"
        (ce.Total.map .uint64)) := by
  simp only [transformCounterEvent, h, matchString_eq_setOpt, matchNat_eq_setOpt]
  rfl

theorem transformErrorEvent_eq (ev : Envelope) (ee : ErrorEvent) (r : NREventType)
    (h : ev.Error = some ee) :
    transformErrorEvent ev r = some
      (setOpt (setOpt (setOpt r "errorSource" (ee.Source.map .str))
        "errorCode" (ee.Code.map .int32)) "errorMessage" (ee.Message.map .str)) := by
  simp only [transformErrorEvent, h, matchString_eq_setOpt, matchInt_eq_setOpt]
  rfl

theorem transformContainerMetric_eq (env : Env) (ev : Envelope) (cm : ContainerMetric)
    (r : NREventType) (h : ev.ContainerMetric = some cm) :
    transformContainerMetric env ev r = some
      (setOpt (setOpt (setOpt (setOpt (setOpt (setOpt
        (match cm.ApplicationId with
          | some appGuid =>
            addAppDetailInfo env (r.set "containerMetricApplicationId" (.str appGuid)) appGuid
          | none => r)
        "containerMetricInstanceIndex" (cm.InstanceIndex.map .int32))
        "containerMetricCpuPercentage" (cm.CpuPercentage.map .float64))
        "containerMetricMemoryBytes" (cm.MemoryBytes.map .uint64))
        "containerMetricDiskBytes" (cm.DiskBytes.map .uint64))
        "containerMetricMemoryBytesQuota" (cm.MemoryBytesQuota.map .uint64))
        "containerMetricDiskBytesQuota" (cm.DiskBytesQuota.map .uint64)) := by
  simp only [transformContainerMetric, h, matchFloat64_eq_setOpt, matchNat_eq_setOpt,
    matchInt_eq_setOpt]
  rfl

theorem transformLogMessage_eq (env : Env) (ev : Envelope) (msg : LogMessage)
    (r : NREventType) (h : ev.LogMessage = some msg) :
    transformLogMessage env ev r = some
      (setOpt (setOpt (setOpt (setOpt (setOpt
        (match msg.Message with
          | some body =>
            addAppDetailInfo env
              (match env.jsonUnmarshal (truncateMessage body) with
                | some parsedContent =>
                  mergeParsedContent
                    (r.set "logMessage" (.bytesString (truncateMessage body))) parsedContent
                | none => r.set "logMessage" (.bytesString (truncateMessage body)))
              (msg.AppId.getD "")
          | none => r)
        "logMessageType" (msg.MessageType.map (fun t => .str t.String)))
        "logTimestamp" (msg.Timestamp.map (fun t => .time ⟨t⟩)))
        "logAppId" (msg.AppId.map .str))
        "logSourceType" (msg.SourceType.map .str))
        "logSourceInstance" (msg.SourceInstance.map .str)) := by
  simp only [transformLogMessage, h, matchString_eq_setOpt, matchInt_eq_setOpt,
    matchMessageType_eq_setOpt]
  rfl

theorem transformHttpStartStopEvent_eq (env : Env) (ev : Envelope) (he : HttpStartStop)
    (r : NREventType) (h : ev.HttpStartStop = some he) :
    transformHttpStartStopEvent env ev r = some
      (forwardedLoop
        (setOpt (setOpt (setOpt (setOpt (setOpt (setOpt (setOpt (setOpt (setOpt (setOpt
          (setOpt
            (((r.set "httpStartTimestamp" (.time ⟨he.StartTimestamp.getD 0⟩)).set
              "httpStopTimestamp" (.time ⟨he.StopTimestamp.getD 0⟩)).set "httpDurationMs"
              (.float64 (env.float64Div
                (env.float64OfInt64
                  (timeSub (he.StopTimestamp.getD 0) (he.StartTimestamp.getD 0)))
                (env.float64OfInt64 1000000))))
            "httpRequestId" (he.RequestId.map (fun u => .str (env.uuidString u))))
          "httpPeerType" (he.PeerType.map (fun t => .str t.String)))
          "httpMethod" (he.Method.map (fun m => .str (env.methodString m))))
          "httpUri" (he.Uri.map .str))
          "httpRemoteAddress" (he.RemoteAddress.map .str))
          "httpUserAgent" (he.UserAgent.map .str))
          "httpStatusCode" (he.StatusCode.map .int32))
          "httpContentLength" (he.ContentLength.map .int64))
          "httpApplicationId" (he.ApplicationId.map .uuid))
          "httpInstanceIndex" (he.InstanceIndex.map .int32))
          "httpInstanceId" (he.InstanceId.map .str))
        0 he.Forwarded) := by
  simp only [transformHttpStartStopEvent, h, matchString_eq_setOpt, matchInt_eq_setOpt,
    matchUUID_eq_setOpt, matchPeerType_eq_setOpt]
  rfl

/-! ## Which fields a step leaves alone -/

theorem append_ne_of_not_startsWith (p n k : String) (h : startsWith p k = false) :
    p ++ n ≠ k := by
  intro e
  have hp : startsWith p k = true := by
    unfold startsWith
    rw [List.isPrefixOf_iff_prefix, ← e, String.data_append]
    exact List.prefix_append _ _
  rw [hp] at h
  exact Bool.noConfusion h

/-- The value that a loop of assignments leaves under the key `k`. -/
theorem get_foldl_set {α : Type} (key : α → String) (val : α → Value) (l : List α)
    (r : NREventType) (k : String) :
    (l.foldl (fun r a => r.set (key a) (val a)) r).get k
      = l.foldl (fun acc a => if key a = k then some (val a) else acc) (r.get k) := by
  induction l generalizing r with
  | nil => rfl
  | cons a rest ih => simp only [List.foldl_cons, ih, get_set]

theorem foldl_ite_of_forall_ne {α : Type} (key : α → String) (val : α → Value) (l : List α)
    (v : Option Value) (k : String) (h : ∀ a ∈ l, key a ≠ k) :
    l.foldl (fun acc a => if key a = k then some (val a) else acc) v = v := by
  induction l generalizing v with
  | nil => rfl
  | cons a rest ih =>
    have h1 : key a ≠ k := h a (List.mem_cons_self _ _)
    simp only [List.foldl_cons, h1, if_false]
    exact ih v (fun x hx => h x (List.mem_cons_of_mem _ hx))

/-- `fillGenericMetrics` leaves every field alone whose name is none of the generic names
and does not start with "tag_". -/
theorem get_fillGenericMetrics_frame (env : Env) (r : NREventType)
    (o fet d j idx ip : String) (ts : Int) (tags : List (String × String)) (k : String)
    (h1 : ∀ g ∈ genericFields, g ≠ k) (h2 : startsWith "tag_" k = false) :
    (fillGenericMetrics env r o fet d j idx ip ts tags).get k = r.get k := by
  unfold fillGenericMetrics
  simp only []
  rw [get_foldl_set (fun t : String × String => "tag_" ++ t.1) (fun t => .str t.2),
    foldl_ite_of_forall_ne _ _ _ _ _ (fun a _ => append_ne_of_not_startsWith _ _ _ h2)]
  have g1 := h1 "origin" (by simp [genericFields])
  have g2 := h1 "eventType" (by simp [genericFields])
  have g3 := h1 "FirehoseEventType" (by simp [genericFields])
  have g4 := h1 "pcfDomain" (by simp [genericFields])
  have g5 := h1 "nozzleInstanceIp" (by simp [genericFields])
  have g6 := h1 "nozzleInstanceId" (by simp [genericFields])
  have g7 := h1 "deployment" (by simp [genericFields])
  have g8 := h1 "job" (by simp [genericFields])
  have g9 := h1 "index" (by simp [genericFields])
  have g10 := h1 "ip" (by simp [genericFields])
  have g11 := h1 "timestamp" (by simp [genericFields])
  split_ifs <;> simp [get_set, g1, g2, g3, g4, g5, g6, g7, g8, g9, g10, g11]

theorem get_mergeParsedContent_frame (kvs : List (String × Value)) (r : NREventType)
    (k : String) (h : startsWith "logMessage" k = false) :
    (mergeParsedContent r kvs).get k = r.get k := by
  unfold mergeParsedContent
  rw [get_foldl_set (fun kv : String × Value => ("log" ++ "Message") ++ kv.1) (fun kv => kv.2),
    foldl_ite_of_forall_ne]
  intro a _
  have hkey : ("log" ++ "Message" : String) = "logMessage" := by decide
  rw [hkey]
  exact append_ne_of_not_startsWith _ _ _ h

theorem get_forwardedLoop_frame (f : List String) (r : NREventType) (i : Nat) (k : String)
    (h : startsWith "httpForwarded" k = false) :
    (forwardedLoop r i f).get k = r.get k := by
  induction f generalizing r i with
  | nil => rfl
  | cons a rest ih =>
    have hkey : ("http" ++ "Forwarded" : String) = "httpForwarded" := by decide
    simp only [forwardedLoop, ih, get_set, hkey]
    simp [append_ne_of_not_startsWith _ (Nat.repr i) _ h]

theorem get_addAppDetailInfo_frame (env : Env) (r : NREventType) (g k : String)
    (h : ∀ x ∈ enrichmentFields, x ≠ k) :
    (addAppDetailInfo env r g).get k = r.get k := by
  simp only [enrichmentFields, List.mem_cons, List.mem_singleton, List.mem_nil_iff, or_false,
    forall_eq_or_imp, forall_eq] at h
  obtain ⟨a1, a2, a3, a4, a5, a6, a7, a8, a9, a10, a11, a12, a13, a14⟩ := h
  simp [addAppDetailInfo, get_set, a1, a2, a3, a4, a5, a6, a7, a8, a9, a10, a11, a12, a13, a14]

/-! ## The call on an event that carries its tag and payload -/

theorem transformEvent_HttpStartStop (env : Env) (filters : EventFilters) (c : PcfCounters)
    (ev : Envelope) (nrEvent : NREventType) (fet : String)
    (hkind : ev.EventType = some .HttpStartStop) (hpe : processEvent filters ev fet = true) :
    transformEvent env filters c ev nrEvent fet =
      match transformHttpStartStopEvent env ev (genericRecord env ev nrEvent fet) with
      | none => .panic
      | some r => .returned r { c with httpStartStopEvents := incr64 c.httpStartStopEvents } none := by
  unfold transformEvent genericRecord
  simp only [hpe, if_true, hkind]

theorem transformEvent_LogMessage (env : Env) (filters : EventFilters) (c : PcfCounters)
    (ev : Envelope) (nrEvent : NREventType) (fet : String)
    (hkind : ev.EventType = some .LogMessage) (hpe : processEvent filters ev fet = true) :
    transformEvent env filters c ev nrEvent fet =
      match transformLogMessage env ev (genericRecord env ev nrEvent fet) with
      | none => .panic
      | some r => .returned r { c with logMessageEvents := incr64 c.logMessageEvents } none := by
  unfold transformEvent genericRecord
  simp only [hpe, if_true, hkind]

theorem transformEvent_ValueMetric (env : Env) (filters : EventFilters) (c : PcfCounters)
    (ev : Envelope) (nrEvent : NREventType) (fet : String)
    (hkind : ev.EventType = some .ValueMetric) (hpe : processEvent filters ev fet = true) :
    transformEvent env filters c ev nrEvent fet =
      match transformValueMetric ev (genericRecord env ev nrEvent fet) with
      | none => .panic
      | some r => .returned r { c with valueMetricEvents := incr64 c.valueMetricEvents } none := by
  unfold transformEvent genericRecord
  simp only [hpe, if_true, hkind]

theorem transformEvent_CounterEvent (env : Env) (filters : EventFilters) (c : PcfCounters)
    (ev : Envelope) (nrEvent : NREventType) (fet : String)
    (hkind : ev.EventType = some .CounterEvent) (hpe : processEvent filters ev fet = true) :
    transformEvent env filters c ev nrEvent fet =
      match transformCounterEvent ev (genericRecord env ev nrEvent fet) with
      | none => .panic
      | some r => .returned r { c with counterEvents := incr64 c.counterEvents } none := by
  unfold transformEvent genericRecord
  simp only [hpe, if_true, hkind]

theorem transformEvent_Error (env : Env) (filters : EventFilters) (c : PcfCounters)
    (ev : Envelope) (nrEvent : NREventType) (fet : String)
    (hkind : ev.EventType = some .Error) (hpe : processEvent filters ev fet = true) :
    transformEvent env filters c ev nrEvent fet =
      match transformErrorEvent ev (genericRecord env ev nrEvent fet) with
      | none => .panic
      | some r => .returned r { c with errors := incr64 c.errors } none := by
  unfold transformEvent genericRecord
  simp only [hpe, if_true, hkind]

theorem transformEvent_ContainerMetric (env : Env) (filters : EventFilters) (c : PcfCounters)
    (ev : Envelope) (nrEvent : NREventType) (fet : String)
    (hkind : ev.EventType = some .ContainerMetric) (hpe : processEvent filters ev fet = true) :
    transformEvent env filters c ev nrEvent fet =
      match transformContainerMetric env ev (genericRecord env ev nrEvent fet) with
      | none => .panic
      | some r => .returned r { c with containerEvents := incr64 c.containerEvents } none := by
  unfold transformEvent genericRecord
  simp only [hpe, if_true, hkind]

/-! ## Flattening of the decoded log body -/

theorem ne_of_not_startsWith (p s k : String) (hs : startsWith p s = true)
    (h : startsWith p k = false) : s ≠ k := by
  intro e
  rw [e, h] at hs
  exact Bool.noConfusion hs

theorem append_left_cancel (p a b : String) (h : p ++ a = p ++ b) : a = b := by
  have hd := congrArg String.data h
  simp only [String.data_append] at hd
  exact String.ext (List.append_cancel_left hd)

/-- The loop of assignments leaves the value of an entry under its key, when the keys of
the entries are pairwise distinct. -/
theorem foldl_ite_of_mem {α : Type} (key : α → String) (val : α → Value) (l : List α)
    (v : Option Value) (a : α) (ha : a ∈ l)
    (hinj : ∀ x ∈ l, ∀ y ∈ l, key x = key y → x = y) :
    l.foldl (fun acc x => if key x = key a then some (val x) else acc) v = some (val a) := by
  induction l generalizing v with
  | nil => exact absurd ha (List.not_mem_nil _)
  | cons x rest ih =>
    simp only [List.foldl_cons]
    by_cases hx : key x = key a
    · have hxa : x = a := hinj x (List.mem_cons_self _ _) a ha hx
      subst hxa
      simp only [if_true]
      by_cases hmem : x ∈ rest
      · exact ih _ hmem (fun p hp q hq => hinj p (List.mem_cons_of_mem _ hp) q
          (List.mem_cons_of_mem _ hq))
      · apply foldl_ite_of_forall_ne
        intro y hy hky
        have := hinj y (List.mem_cons_of_mem _ hy) x (List.mem_cons_self _ _) hky
        exact hmem (this ▸ hy)
    · simp only [hx, if_false]
      have hmem : a ∈ rest := by
        rcases List.mem_cons.mp ha with h | h
        · exact absurd (h ▸ rfl) hx
        · exact h
      exact ih _ hmem (fun p hp q hq => hinj p (List.mem_cons_of_mem _ hp) q
        (List.mem_cons_of_mem _ hq))

/-- The field "logMessage" followed by a decoded key holds the decoded value when the
record leaves `transformLogMessage`, unless the key is "Type" and the event carries a
message type. -/
theorem logMessage_flattened_field (env : Env) (filters : EventFilters) (c : PcfCounters)
    (ev : Envelope) (msg : LogMessage) (body : List UInt8) (nrEvent : NREventType)
    (fet : String) (kvs : List (String × Value)) (k : String) (v : Value)
    (hkind : ev.EventType = some .LogMessage)
    (hmsg : ev.LogMessage = some msg) (hbody : msg.Message = some body)
    (hpe : processEvent filters ev fet = true)
    (hdec : env.jsonUnmarshal (truncateMessage body) = some kvs)
    (hnodup : (kvs.map Prod.fst).Nodup) (hmem : (k, v) ∈ kvs)
    (hType : k ≠ "Type" ∨ msg.MessageType = none) :
    ∃ r c', transformEvent env filters c ev nrEvent fet = .returned r c' none ∧
      r.get ("logMessage" ++ k) = some v := by
  have ht := transformEvent_LogMessage env filters c ev nrEvent fet hkind hpe
  rw [transformLogMessage_eq env ev msg _ hmsg] at ht
  refine ⟨_, _, ht, ?_⟩
  have hne : ∀ s : String, startsWith "logMessage" s = false → s ≠ "logMessage" ++ k :=
    fun s hs e => append_ne_of_not_startsWith "logMessage" k s hs e.symm
  have n1 := hne "logSourceInstance" (by decide)
  have n2 := hne "logSourceType" (by decide)
  have n3 := hne "logAppId" (by decide)
  have n4 := hne "logTimestamp" (by decide)
  have happ : ∀ x ∈ enrichmentFields, x ≠ "logMessage" ++ k := by
    intro x hx
    apply hne
    revert x
    decide
  have hT : ("logMessageType" = "logMessage" ++ k) ↔ k = "Type" := by
    constructor
    · intro e
      have e' : "logMessage" ++ "Type" = "logMessage" ++ k := by
        rw [← e]
        decide
      exact (append_left_cancel _ _ _ e').symm
    · rintro rfl
      decide
  have hmerge : ∀ r0 : NREventType,
      (mergeParsedContent r0 kvs).get ("logMessage" ++ k) = some v := by
    intro r0
    unfold mergeParsedContent
    have hkey : ("log" ++ "Message" : String) = "logMessage" := by decide
    rw [get_foldl_set (fun kv : String × Value => ("log" ++ "Message") ++ kv.1)
      (fun kv => kv.2), hkey]
    exact foldl_ite_of_mem (fun kv : String × Value => "logMessage" ++ kv.1) (fun kv => kv.2)
      kvs _ (k, v) hmem (fun x hx y hy hxy =>
        List.inj_on_of_nodup_map hnodup hx hy (append_left_cancel _ _ _ hxy))
  simp only [hbody, hdec, get_setOpt, n1, n2, n3, n4, if_false,
    get_addAppDetailInfo_frame env _ _ _ happ, hmerge, hT]
  rcases hType with h | h
  · simp [h]
  · simp [h]

theorem truncateMessage_bodyTypeKey : truncateMessage bodyTypeKey = bodyTypeKey := by decide

theorem exampleTypeEnv_decodes_bodyTypeKey :
    exampleTypeEnv.jsonUnmarshal (truncateMessage bodyTypeKey)
      = some [("Type", .float64 float64One)] := by
  rw [truncateMessage_bodyTypeKey]
  show exampleUnmarshalType bodyTypeKey = _
  unfold exampleUnmarshalType
  exact if_pos rfl

/-- C11, at a log event of message type OUT whose body is `{"Type":1}`: the body decodes
to an object with the key "Type" and the value 1, the loop writes 1 under
"logMessageType", and the assignment of the message type (line 747) then overwrites it, so
the record holds "OUT" under "logMessage" followed by the key, not the decoded value. -/
theorem C11_type_key_overwritten_by_message_type :
    exampleTypeEnv.jsonUnmarshal (truncateMessage bodyTypeKey)
      = some [("Type", .float64 float64One)] ∧
    ∃ r c', transformEvent exampleTypeEnv (setFilterLists noFilterLists {}) {}
        (logEvent bodyTypeKey) [] (logEvent bodyTypeKey).GetEventType.String
          = .returned r c' none ∧
      r.get ("logMessage" ++ "Type") = some (.str "OUT") ∧
      r.get ("logMessage" ++ "Type") ≠ some (.float64 float64One) := by
  refine ⟨exampleTypeEnv_decodes_bodyTypeKey, ?_⟩
  have ht := transformEvent_LogMessage exampleTypeEnv (setFilterLists noFilterLists {}) {}
    (logEvent bodyTypeKey) [] (logEvent bodyTypeKey).GetEventType.String rfl
    (processEvent_noFilterLists _ _)
  rw [transformLogMessage_eq exampleTypeEnv (logEvent bodyTypeKey) _ _ rfl] at ht
  refine ⟨_, _, ht, ?_⟩
  have hkey : ("logMessage" ++ "Type" : String) = "logMessageType" := by decide
  rw [hkey]
  simp [get_setOpt, MessageType.String]

/-- The fourth end-to-end scenario: a log event whose body is `{"x":1}` gives a record
with the raw body under "logMessage" and the number 1 under "logMessagex". -/
theorem logMessage_x_flattened :
    ∃ r c', transformEvent exampleEnv (setFilterLists noFilterLists {}) {} (logEvent bodyX) []
        (logEvent bodyX).GetEventType.String = .returned r c' none ∧
      r.get "logMessage" = some (.bytesString bodyX) ∧
      r.get "logMessagex" = some (.float64 float64One) := by
  have ht := transformEvent_LogMessage exampleEnv (setFilterLists noFilterLists {}) {}
    (logEvent bodyX) [] (logEvent bodyX).GetEventType.String rfl
    (processEvent_noFilterLists _ _)
  rw [transformLogMessage_eq exampleEnv (logEvent bodyX) _ _ rfl] at ht
  refine ⟨_, _, ht, ?_⟩
  have htr : truncateMessage bodyX = bodyX := by decide
  have hdec : exampleEnv.jsonUnmarshal bodyX = some [("x", .float64 float64One)] := by
    have h1 : ¬ bodyX = paddedEmptyKeyBody := fun h => by
      have hl := congrArg List.length h
      rw [paddedEmptyKeyBody_length] at hl
      simp [bodyX] at hl
    show exampleUnmarshal bodyX = _
    simp only [exampleUnmarshal, h1, if_false]
    rfl
  simp [logEvent, htr, hdec, get_setOpt, get_addAppDetailInfo_frame, enrichmentFields,
    mergeParsedContent, get_set]

/-! ## Enrichment of container events -/

/-- The enrichment fields as `addAppDetailInfo` leaves them. -/
theorem get_addAppDetailInfo_enrichment (env : Env) (r : NREventType) (g : String) :
    ∀ p ∈ enrichmentOf (env.appManager.GetAppData g),
      (addAppDetailInfo env r g).get p.1 = some p.2 := by
  simp [enrichmentOf, addAppDetailInfo, get_set]

theorem enrichmentOf_fields (d : AppInfo) : (enrichmentOf d).map Prod.fst = enrichmentFields :=
  rfl

/-- C12. For every container event that passes the filter and carries an application id,
`transformEvent` returns the nil error and the record holds the fourteen enrichment fields
with the values of the record that the metadata cache returns for the id, whatever that
record is; when it is the zero-valued record, appName and appState are the empty string,
appInstances is "0", diegoContainer and appSshEnabled are "false". -/
theorem C12_container_enrichment (env : Env) (filters : EventFilters) (c : PcfCounters)
    (ev : Envelope) (cm : ContainerMetric) (appGuid : String) (nrEvent : NREventType)
    (fet : String) (hkind : ev.EventType = some .ContainerMetric)
    (hcm : ev.ContainerMetric = some cm) (happ : cm.ApplicationId = some appGuid)
    (hpe : processEvent filters ev fet = true) :
    ∃ r c', transformEvent env filters c ev nrEvent fet = .returned r c' none ∧
      (∀ p ∈ enrichmentOf (env.appManager.GetAppData appGuid), r.get p.1 = some p.2) ∧
      (env.appManager.GetAppData appGuid = {} →
        r.get "appName" = some (.str "") ∧ r.get "appState" = some (.str "") ∧
        r.get "appInstances" = some (.str "0") ∧
        r.get "diegoContainer" = some (.str "false") ∧
        r.get "appSshEnabled" = some (.str "false")) := by
  have ht := transformEvent_ContainerMetric env filters c ev nrEvent fet hkind hpe
  rw [transformContainerMetric_eq env ev cm _ hcm] at ht
  refine ⟨_, _, ht, ?_⟩
  have hall : ∀ p ∈ enrichmentOf (env.appManager.GetAppData appGuid),
      NREventType.get (setOpt (setOpt (setOpt (setOpt (setOpt (setOpt
        (match cm.ApplicationId with
          | some appGuid =>
            addAppDetailInfo env
              ((genericRecord env ev nrEvent fet).set "containerMetricApplicationId"
                (.str appGuid)) appGuid
          | none => genericRecord env ev nrEvent fet)
        "containerMetricInstanceIndex" (cm.InstanceIndex.map .int32))
        "containerMetricCpuPercentage" (cm.CpuPercentage.map .float64))
        "containerMetricMemoryBytes" (cm.MemoryBytes.map .uint64))
        "containerMetricDiskBytes" (cm.DiskBytes.map .uint64))
        "containerMetricMemoryBytesQuota" (cm.MemoryBytesQuota.map .uint64))
        "containerMetricDiskBytesQuota" (cm.DiskBytesQuota.map .uint64)) p.1 = some p.2 := by
    simp [happ, enrichmentOf, get_setOpt, addAppDetailInfo, get_set]
  refine ⟨hall, fun hz => ?_⟩
  rw [hz] at hall
  have hrepr : Nat.repr 0 = "0" := by decide
  exact ⟨hall ("appName", .str "") (by simp [enrichmentOf]),
    hall ("appState", .str "") (by simp [enrichmentOf]),
    hall ("appInstances", .str "0") (by simp [enrichmentOf, formatInt, hrepr]),
    hall ("diegoContainer", .str "false") (by simp [enrichmentOf, formatBool]),
    hall ("appSshEnabled", .str "false") (by simp [enrichmentOf, formatBool])⟩

/-- C12, at the container event of application "app-1" with an empty metadata cache. -/
theorem C12_container_enrichment_witness :
    processEvent (setFilterLists noFilterLists {}) containerApp1
      containerApp1.GetEventType.String = true ∧
    exampleEnv.appManager.GetAppData "app-1" = {} ∧
    ∃ r c', transformEvent exampleEnv (setFilterLists noFilterLists {}) {} containerApp1 []
        containerApp1.GetEventType.String = .returned r c' none ∧
      r.get "appName" = some (.str "") ∧ r.get "appState" = some (.str "") ∧
      r.get "appInstances" = some (.str "0") ∧
      r.get "diegoContainer" = some (.str "false") ∧
      r.get "appSshEnabled" = some (.str "false") := by
  refine ⟨processEvent_noFilterLists _ _, rfl, ?_⟩
  obtain ⟨r, c', ht, _, hz⟩ := C12_container_enrichment exampleEnv
    (setFilterLists noFilterLists {}) {} containerApp1 _ "app-1" []
    containerApp1.GetEventType.String rfl rfl rfl (processEvent_noFilterLists _ _)
  exact ⟨r, c', ht, hz rfl⟩

/-! ## Fields that a transformation leaves alone -/


theorem get_transformValueMetric_frame (ev : Envelope) (r0 r : NREventType) (k : String)
    (hr : transformValueMetric ev r0 = some r) (h : startsWith "valueMetric" k = false) :
    r.get k = r0.get k := by
  cases hp : ev.ValueMetric with
  | none => simp [transformValueMetric, hp] at hr
  | some vm =>
    rw [transformValueMetric_eq ev vm r0 hp, Option.some.injEq] at hr
    subst hr
    have n0 := ne_of_not_startsWith "valueMetric" "valueMetricName" k (by decide) h
    have n1 := ne_of_not_startsWith "valueMetric" "valueMetricValue" k (by decide) h
    have n2 := ne_of_not_startsWith "valueMetric" "valueMetricUnit" k (by decide) h
    simp [get_setOpt, n0, n1, n2]

theorem get_transformCounterEvent_frame (ev : Envelope) (r0 r : NREventType) (k : String)
    (hr : transformCounterEvent ev r0 = some r) (h : startsWith "counterEvent" k = false) :
    r.get k = r0.get k := by
  cases hp : ev.CounterEvent with
  | none => simp [transformCounterEvent, hp] at hr
  | some ce =>
    rw [transformCounterEvent_eq ev ce r0 hp, Option.some.injEq] at hr
    subst hr
    have n0 := ne_of_not_startsWith "counterEvent" "counterEventName" k (by decide) h
    have n1 := ne_of_not_startsWith "counterEvent" "counterEventDelta" k (by decide) h
    have n2 := ne_of_not_startsWith "counterEvent" "counterEventTotal" k (by decide) h
    simp [get_setOpt, n0, n1, n2]

theorem get_transformErrorEvent_frame (ev : Envelope) (r0 r : NREventType) (k : String)
    (hr : transformErrorEvent ev r0 = some r) (h : startsWith "error" k = false) :
    r.get k = r0.get k := by
  cases hp : ev.Error with
  | none => simp [transformErrorEvent, hp] at hr
  | some ee =>
    rw [transformErrorEvent_eq ev ee r0 hp, Option.some.injEq] at hr
    subst hr
    have n0 := ne_of_not_startsWith "error" "errorSource" k (by decide) h
    have n1 := ne_of_not_startsWith "error" "errorCode" k (by decide) h
    have n2 := ne_of_not_startsWith "error" "errorMessage" k (by decide) h
    simp [get_setOpt, n0, n1, n2]

theorem get_transformContainerMetric_frame (env : Env) (ev : Envelope) (r0 r : NREventType)
    (k : String) (hr : transformContainerMetric env ev r0 = some r)
    (h : startsWith "containerMetric" k = false) (he : ∀ x ∈ enrichmentFields, x ≠ k) :
    r.get k = r0.get k := by
  cases hp : ev.ContainerMetric with
  | none => simp [transformContainerMetric, hp] at hr
  | some cm =>
    rw [transformContainerMetric_eq env ev cm r0 hp, Option.some.injEq] at hr
    subst hr
    have n0 := ne_of_not_startsWith "containerMetric" "containerMetricApplicationId" k (by decide) h
    have n1 := ne_of_not_startsWith "containerMetric" "containerMetricInstanceIndex" k (by decide) h
    have n2 := ne_of_not_startsWith "containerMetric" "containerMetricCpuPercentage" k (by decide) h
    have n3 := ne_of_not_startsWith "containerMetric" "containerMetricMemoryBytes" k (by decide) h
    have n4 := ne_of_not_startsWith "containerMetric" "containerMetricDiskBytes" k (by decide) h
    have n5 := ne_of_not_startsWith "containerMetric" "containerMetricMemoryBytesQuota" k (by decide) h
    have n6 := ne_of_not_startsWith "containerMetric" "containerMetricDiskBytesQuota" k (by decide) h
    cases cm.ApplicationId <;>
      simp [get_setOpt, get_addAppDetailInfo_frame env _ _ _ he, get_set, n0, n1, n2, n3, n4, n5, n6]

theorem get_transformLogMessage_frame (env : Env) (ev : Envelope) (r0 r : NREventType)
    (k : String) (hr : transformLogMessage env ev r0 = some r)
    (h : startsWith "log" k = false) (he : ∀ x ∈ enrichmentFields, x ≠ k) :
    r.get k = r0.get k := by
  cases hp : ev.LogMessage with
  | none => simp [transformLogMessage, hp] at hr
  | some msg =>
    rw [transformLogMessage_eq env ev msg r0 hp, Option.some.injEq] at hr
    subst hr
    have n0 := ne_of_not_startsWith "log" "logMessage" k (by decide) h
    have n1 := ne_of_not_startsWith "log" "logMessageType" k (by decide) h
    have n2 := ne_of_not_startsWith "log" "logTimestamp" k (by decide) h
    have n3 := ne_of_not_startsWith "log" "logAppId" k (by decide) h
    have n4 := ne_of_not_startsWith "log" "logSourceType" k (by decide) h
    have n5 := ne_of_not_startsWith "log" "logSourceInstance" k (by decide) h
    have hm : startsWith "logMessage" k = false := by
      cases hs : startsWith "logMessage" k
      · rfl
      · exfalso
        unfold startsWith at hs h
        rw [List.isPrefixOf_iff_prefix] at hs
        have hp' : ("log" : String).data <+: k.data :=
          List.IsPrefix.trans (by decide) hs
        rw [← List.isPrefixOf_iff_prefix, h] at hp'
        exact Bool.noConfusion hp'
    cases msg.Message with
    | none => simp [get_setOpt, n0, n1, n2, n3, n4, n5]
    | some body =>
      cases hd : env.jsonUnmarshal (truncateMessage body) <;>
        simp [hd, get_setOpt, get_addAppDetailInfo_frame env _ _ _ he,
          get_mergeParsedContent_frame _ _ _ hm, get_set, n0, n1, n2, n3, n4, n5]

theorem get_transformHttpStartStopEvent_frame (env : Env) (ev : Envelope)
    (r0 r : NREventType) (k : String) (hr : transformHttpStartStopEvent env ev r0 = some r)
    (h : startsWith "http" k = false) : r.get k = r0.get k := by
  cases hp : ev.HttpStartStop with
  | none => simp [transformHttpStartStopEvent, hp] at hr
  | some he =>
    rw [transformHttpStartStopEvent_eq env ev he r0 hp, Option.some.injEq] at hr
    subst hr
    have n0 := ne_of_not_startsWith "http" "httpStartTimestamp" k (by decide) h
    have n1 := ne_of_not_startsWith "http" "httpStopTimestamp" k (by decide) h
    have n2 := ne_of_not_startsWith "http" "httpDurationMs" k (by decide) h
    have n3 := ne_of_not_startsWith "http" "httpRequestId" k (by decide) h
    have n4 := ne_of_not_startsWith "http" "httpPeerType" k (by decide) h
    have n5 := ne_of_not_startsWith "http" "httpMethod" k (by decide) h
    have n6 := ne_of_not_startsWith "http" "httpUri" k (by decide) h
    have n7 := ne_of_not_startsWith "http" "httpRemoteAddress" k (by decide) h
    have n8 := ne_of_not_startsWith "http" "httpUserAgent" k (by decide) h
    have n9 := ne_of_not_startsWith "http" "httpStatusCode" k (by decide) h
    have n10 := ne_of_not_startsWith "http" "httpContentLength" k (by decide) h
    have n11 := ne_of_not_startsWith "http" "httpApplicationId" k (by decide) h
    have n12 := ne_of_not_startsWith "http" "httpInstanceIndex" k (by decide) h
    have n13 := ne_of_not_startsWith "http" "httpInstanceId" k (by decide) h
    have hf : startsWith "httpForwarded" k = false := by
      cases hs : startsWith "httpForwarded" k
      · rfl
      · exfalso
        unfold startsWith at hs h
        rw [List.isPrefixOf_iff_prefix] at hs
        have hp' : ("http" : String).data <+: k.data :=
          List.IsPrefix.trans (by decide) hs
        rw [← List.isPrefixOf_iff_prefix, h] at hp'
        exact Bool.noConfusion hp'
    rw [get_forwardedLoop_frame _ _ _ _ hf]
    simp [get_setOpt, get_set, n0, n1, n2, n3, n4, n5, n6, n7, n8, n9, n10, n11, n12, n13]

/-! ## The call never returns an error on an accepted event, and may panic -/

theorem get_genericRecord_eventType (env : Env) (ev : Envelope) (nrEvent : NREventType)
    (fet : String) :
    (genericRecord env ev nrEvent fet).get "eventType" = some (.str pcfEventType) := by
  unfold genericRecord fillGenericMetrics
  simp only []
  rw [get_foldl_set (fun t : String × String => "tag_" ++ t.1) (fun t => .str t.2),
    foldl_ite_of_forall_ne _ _ _ _ _
      (fun a _ => append_ne_of_not_startsWith "tag_" _ "eventType" (by decide))]
  split_ifs <;> simp [get_set]

/-- A call that returns the nil error passed the filter, and the event carried its tag
and payload: the record is the one built by the transformation of its kind. -/
theorem transformEvent_frame (env : Env) (filters : EventFilters) (c c' : PcfCounters)
    (ev : Envelope) (nrEvent r : NREventType) (fet k : String)
    (h : transformEvent env filters c ev nrEvent fet = .returned r c' none)
    (hk : ∀ p ∈ kindFieldStems, startsWith p k = false)
    (he : ∀ x ∈ enrichmentFields, x ≠ k) :
    r.get k = (genericRecord env ev nrEvent fet).get k := by
  have hpe : processEvent filters ev fet = true := by
    cases hp : processEvent filters ev fet
    · rw [transformEvent_of_not_processEvent env filters c ev nrEvent fet hp] at h
      simp at h
    · rfl
  have k1 := hk "valueMetric" (by simp [kindFieldStems])
  have k2 := hk "counterEvent" (by simp [kindFieldStems])
  have k3 := hk "containerMetric" (by simp [kindFieldStems])
  have k4 := hk "log" (by simp [kindFieldStems])
  have k5 := hk "http" (by simp [kindFieldStems])
  have k6 := hk "error" (by simp [kindFieldStems])
  cases hkind : ev.EventType with
  | none =>
    unfold transformEvent at h
    simp [hpe, hkind] at h
  | some kind =>
    cases kind
    · rw [transformEvent_HttpStartStop env filters c ev nrEvent fet hkind hpe] at h
      cases hT : transformHttpStartStopEvent env ev (genericRecord env ev nrEvent fet) with
      | none => simp [hT] at h
      | some r' =>
        simp only [hT, Outcome.returned.injEq] at h
        rw [← h.1]
        exact get_transformHttpStartStopEvent_frame env ev _ r' k hT k5
    · rw [transformEvent_LogMessage env filters c ev nrEvent fet hkind hpe] at h
      cases hT : transformLogMessage env ev (genericRecord env ev nrEvent fet) with
      | none => simp [hT] at h
      | some r' =>
        simp only [hT, Outcome.returned.injEq] at h
        rw [← h.1]
        exact get_transformLogMessage_frame env ev _ r' k hT k4 he
    · rw [transformEvent_ValueMetric env filters c ev nrEvent fet hkind hpe] at h
      cases hT : transformValueMetric ev (genericRecord env ev nrEvent fet) with
      | none => simp [hT] at h
      | some r' =>
        simp only [hT, Outcome.returned.injEq] at h
        rw [← h.1]
        exact get_transformValueMetric_frame ev _ r' k hT k1
    · rw [transformEvent_CounterEvent env filters c ev nrEvent fet hkind hpe] at h
      cases hT : transformCounterEvent ev (genericRecord env ev nrEvent fet) with
      | none => simp [hT] at h
      | some r' =>
        simp only [hT, Outcome.returned.injEq] at h
        rw [← h.1]
        exact get_transformCounterEvent_frame ev _ r' k hT k2
    · rw [transformEvent_Error env filters c ev nrEvent fet hkind hpe] at h
      cases hT : transformErrorEvent ev (genericRecord env ev nrEvent fet) with
      | none => simp [hT] at h
      | some r' =>
        simp only [hT, Outcome.returned.injEq] at h
        rw [← h.1]
        exact get_transformErrorEvent_frame ev _ r' k hT k6
    · rw [transformEvent_ContainerMetric env filters c ev nrEvent fet hkind hpe] at h
      cases hT : transformContainerMetric env ev (genericRecord env ev nrEvent fet) with
      | none => simp [hT] at h
      | some r' =>
        simp only [hT, Outcome.returned.injEq] at h
        rw [← h.1]
        exact get_transformContainerMetric_frame env ev _ r' k hT k3 he

/-- C13 fails as stated: with no filter configured, an envelope tagged ValueMetric that
carries no ValueMetric payload passes the filter and the call panics on the nil payload
(`vm.Name`), and an envelope without kind tag passes the filter and the call panics on
`*cfEvent.EventType`. -/
theorem C13_panics_without_payload_or_tag :
    (processEvent (setFilterLists noFilterLists {}) gaugeNoPayload
        gaugeNoPayload.GetEventType.String = true ∧
      transformEvent exampleEnv (setFilterLists noFilterLists {}) {} gaugeNoPayload []
        gaugeNoPayload.GetEventType.String = .panic) ∧
    (processEvent (setFilterLists noFilterLists {}) httpNoTag
        httpNoTag.GetEventType.String = true ∧
      transformEvent exampleEnv (setFilterLists noFilterLists {}) {} httpNoTag []
        httpNoTag.GetEventType.String = .panic) := by
  refine ⟨⟨processEvent_noFilterLists _ _, ?_⟩, ⟨processEvent_noFilterLists _ _, ?_⟩⟩
  · rw [transformEvent_ValueMetric _ _ _ _ _ _ rfl (processEvent_noFilterLists _ _)]
    rfl
  · unfold transformEvent
    rw [processEvent_noFilterLists]
    rfl

/-- C13, amended. For every envelope that carries its kind tag and the payload of that
kind and passes the filter, whatever optional fields are absent, `transformEvent` returns
the nil error and a populated record: it is not empty and holds "PcfFirehoseEvent" under
"eventType". -/
theorem C13_accepted_event_is_transformed (env : Env) (filters : EventFilters)
    (c : PcfCounters) (ev : Envelope) (nrEvent : NREventType) (fet : String)
    (hp : ev.payloadPresent = true) (hpe : processEvent filters ev fet = true) :
    ∃ r c', transformEvent env filters c ev nrEvent fet = .returned r c' none ∧
      r.get "eventType" = some (.str "PcfFirehoseEvent") ∧ r ≠ [] := by
  have hacc := transformEvent_accepted_of_processEvent env filters c ev nrEvent fet hpe hp
  cases hT : transformEvent env filters c ev nrEvent fet with
  | panic => simp [hT, Outcome.accepted] at hacc
  | returned r c' err =>
    cases err with
    | some e => simp [hT, Outcome.accepted] at hacc
    | none =>
      have hget : r.get "eventType" = some (.str "PcfFirehoseEvent") := by
        rw [transformEvent_frame env filters c c' ev nrEvent r fet "eventType" hT
          (by decide) (by decide), get_genericRecord_eventType]
        rfl
      refine ⟨r, c', rfl, hget, ?_⟩
      intro hnil
      rw [hnil] at hget
      simp [NREventType.get] at hget

/-- C13 amended, at a gauge event with no filter configured. -/
theorem C13_accepted_event_is_transformed_witness :
    gaugeProd.payloadPresent = true ∧
    ∃ r c', transformEvent exampleEnv (setFilterLists noFilterLists {}) {} gaugeProd []
        gaugeProd.GetEventType.String = .returned r c' none ∧
      r.get "eventType" = some (.str "PcfFirehoseEvent") ∧ r ≠ [] :=
  ⟨by decide,
    C13_accepted_event_is_transformed exampleEnv (setFilterLists noFilterLists {}) {}
      gaugeProd [] gaugeProd.GetEventType.String (by decide) (processEvent_noFilterLists _ _)⟩

/-! ## The record is a function of the event and of the fixed values -/

theorem sameMap_set (r1 r2 : NREventType) (k : String) (v : Value) (h : SameMap r1 r2) :
    SameMap (r1.set k v) (r2.set k v) := by
  intro x
  rw [get_set, get_set, h x]

theorem sameMap_setOpt (r1 r2 : NREventType) (k : String) (o : Option Value)
    (h : SameMap r1 r2) : SameMap (setOpt r1 k o) (setOpt r2 k o) := by
  intro x
  rw [get_setOpt, get_setOpt, h x]

theorem sameMap_forwardedLoop (f : List String) (r1 r2 : NREventType) (i : Nat)
    (h : SameMap r1 r2) : SameMap (forwardedLoop r1 i f) (forwardedLoop r2 i f) := by
  induction f generalizing r1 r2 i with
  | nil => exact h
  | cons a rest ih => exact ih _ _ _ (sameMap_set _ _ _ _ h)

theorem sameMap_addAppDetailInfo (env : Env) (r1 r2 : NREventType) (g : String)
    (h : SameMap r1 r2) : SameMap (addAppDetailInfo env r1 g) (addAppDetailInfo env r2 g) := by
  unfold addAppDetailInfo
  simp only []
  repeat apply sameMap_set
  exact h

/-- A loop of assignments under pairwise distinct keys gives the same map in whatever
order the entries are visited. -/
theorem sameMap_foldl_set_perm {α : Type} (key : α → String) (val : α → Value)
    (l1 l2 : List α) (r1 r2 : NREventType) (hperm : l1.Perm l2)
    (hinj : ∀ x ∈ l1, ∀ y ∈ l1, key x = key y → x = y) (h : SameMap r1 r2) :
    SameMap (l1.foldl (fun r a => r.set (key a) (val a)) r1)
      (l2.foldl (fun r a => r.set (key a) (val a)) r2) := by
  intro k
  rw [get_foldl_set, get_foldl_set, h k]
  apply List.Perm.foldl_eq' hperm
  intro x hx y hy z
  by_cases h1 : key x = k
  · by_cases h2 : key y = k
    · have hxy : x = y := hinj x hx y hy (h1.trans h2.symm)
      subst hxy
      rfl
    · simp [h1, h2]
  · by_cases h2 : key y = k
    · simp [h1, h2]
    · simp [h1, h2]

theorem sameMap_mergeParsedContent (l1 l2 : List (String × Value)) (r1 r2 : NREventType)
    (hperm : l1.Perm l2) (hnodup : (l1.map Prod.fst).Nodup) (h : SameMap r1 r2) :
    SameMap (mergeParsedContent r1 l1) (mergeParsedContent r2 l2) := by
  unfold mergeParsedContent
  exact sameMap_foldl_set_perm (fun kv : String × Value => ("log" ++ "Message") ++ kv.1)
    (fun kv => kv.2) l1 l2 r1 r2 hperm
    (fun x hx y hy hxy => List.inj_on_of_nodup_map hnodup hx hy (append_left_cancel _ _ _ hxy))
    h

theorem sameMap_genericRecord (env : Env) (ev : Envelope) (nrEvent : NREventType)
    (fet : String) (tags2 : List (String × String))
    (u2 : List UInt8 → Option (List (String × Value)))
    (htags : ev.Tags.Perm tags2) (hnodup : (ev.Tags.map Prod.fst).Nodup) :
    SameMap (genericRecord env ev nrEvent fet)
      (genericRecord { env with jsonUnmarshal := u2 } { ev with Tags := tags2 } nrEvent fet) := by
  unfold genericRecord fillGenericMetrics
  exact sameMap_foldl_set_perm (fun t : String × String => "tag_" ++ t.1)
    (fun t => .str t.2) ev.Tags tags2 _ _ htags
    (fun x hx y hy hxy => List.inj_on_of_nodup_map hnodup hx hy (append_left_cancel _ _ _ hxy))
    (fun _ => rfl)

/-- The record that a call returns does not depend on the counters. -/
theorem transformEvent_record_counters (env : Env) (filters : EventFilters)
    (c1 c2 : PcfCounters) (ev : Envelope) (nrEvent : NREventType) (fet : String) :
    (transformEvent env filters c1 ev nrEvent fet).record
      = (transformEvent env filters c2 ev nrEvent fet).record := by
  cases hpe : processEvent filters ev fet with
  | false =>
    rw [transformEvent_of_not_processEvent env filters c1 ev nrEvent fet hpe,
      transformEvent_of_not_processEvent env filters c2 ev nrEvent fet hpe]
    rfl
  | true =>
    cases hkind : ev.EventType with
    | none =>
      unfold transformEvent
      simp only [hpe, if_true, hkind]
    | some kind =>
      cases kind
      · rw [transformEvent_HttpStartStop env filters c1 ev nrEvent fet hkind hpe,
          transformEvent_HttpStartStop env filters c2 ev nrEvent fet hkind hpe]
        cases transformHttpStartStopEvent env ev (genericRecord env ev nrEvent fet) <;> rfl
      · rw [transformEvent_LogMessage env filters c1 ev nrEvent fet hkind hpe,
          transformEvent_LogMessage env filters c2 ev nrEvent fet hkind hpe]
        cases transformLogMessage env ev (genericRecord env ev nrEvent fet) <;> rfl
      · rw [transformEvent_ValueMetric env filters c1 ev nrEvent fet hkind hpe,
          transformEvent_ValueMetric env filters c2 ev nrEvent fet hkind hpe]
        cases transformValueMetric ev (genericRecord env ev nrEvent fet) <;> rfl
      · rw [transformEvent_CounterEvent env filters c1 ev nrEvent fet hkind hpe,
          transformEvent_CounterEvent env filters c2 ev nrEvent fet hkind hpe]
        cases transformCounterEvent ev (genericRecord env ev nrEvent fet) <;> rfl
      · rw [transformEvent_Error env filters c1 ev nrEvent fet hkind hpe,
          transformEvent_Error env filters c2 ev nrEvent fet hkind hpe]
        cases transformErrorEvent ev (genericRecord env ev nrEvent fet) <;> rfl
      · rw [transformEvent_ContainerMetric env filters c1 ev nrEvent fet hkind hpe,
          transformEvent_ContainerMetric env filters c2 ev nrEvent fet hkind hpe]
        cases transformContainerMetric env ev (genericRecord env ev nrEvent fet) <;> rfl

theorem option_eq_none_or_some {α : Type} (o : Option α) : o = none ∨ ∃ a, o = some a := by
  cases o with
  | none => exact Or.inl rfl
  | some a => exact Or.inr ⟨a, rfl⟩

/-- An event without kind tag that passes the filter makes the call panic. -/
theorem transformEvent_of_no_tag (env : Env) (filters : EventFilters) (c : PcfCounters)
    (ev : Envelope) (nrEvent : NREventType) (fet : String) (hkind : ev.EventType = none)
    (hpe : processEvent filters ev fet = true) :
    transformEvent env filters c ev nrEvent fet = .panic := by
  unfold transformEvent
  simp only [hpe, if_true, hkind]

/-- Two calls on the same event, into the same record, end alike whatever the counters
are and in whatever order the tags and the entries of the decoded log body are visited. -/
theorem transformEvent_sameResult (env : Env) (filters : EventFilters) (c1 c2 : PcfCounters)
    (ev : Envelope) (nrEvent : NREventType) (fet : String) (tags2 : List (String × String))
    (u2 : List UInt8 → Option (List (String × Value)))
    (htags : ev.Tags.Perm tags2) (hnodup : (ev.Tags.map Prod.fst).Nodup)
    (hdec : SameDecoding env.jsonUnmarshal u2)
    (hkeys : ∀ b l, env.jsonUnmarshal b = some l → (l.map Prod.fst).Nodup) :
    (transformEvent env filters c1 ev nrEvent fet).sameResult
      (transformEvent { env with jsonUnmarshal := u2 } filters c2 { ev with Tags := tags2 }
        nrEvent fet) := by
  have hbase := sameMap_genericRecord env ev nrEvent fet tags2 u2 htags hnodup
  generalize hr1 : genericRecord env ev nrEvent fet = g1 at hbase
  generalize hr2 : genericRecord { env with jsonUnmarshal := u2 } { ev with Tags := tags2 }
    nrEvent fet = g2 at hbase
  have hpe2 : processEvent filters { ev with Tags := tags2 } fet
      = processEvent filters ev fet := rfl
  cases hpe : processEvent filters ev fet with
  | false =>
    rw [transformEvent_of_not_processEvent env filters c1 ev nrEvent fet hpe,
      transformEvent_of_not_processEvent _ filters c2 _ nrEvent fet (hpe2.trans hpe)]
    exact ⟨rfl, fun _ => rfl⟩
  | true =>
    rcases option_eq_none_or_some ev.EventType with hkind | ⟨kind, hkind⟩
    · rw [transformEvent_of_no_tag env filters c1 ev nrEvent fet hkind hpe,
        transformEvent_of_no_tag _ filters c2 { ev with Tags := tags2 } nrEvent fet hkind
          (hpe2.trans hpe)]
      trivial
    · cases kind
      · rw [transformEvent_HttpStartStop env filters c1 ev nrEvent fet hkind hpe,
          transformEvent_HttpStartStop _ filters c2 { ev with Tags := tags2 } nrEvent fet hkind
            (hpe2.trans hpe), hr1, hr2]
        rcases option_eq_none_or_some ev.HttpStartStop with hp | ⟨he, hp⟩
        · simp only [transformHttpStartStopEvent, hp]
          trivial
        · rw [transformHttpStartStopEvent_eq env ev he g1 hp,
            transformHttpStartStopEvent_eq _ { ev with Tags := tags2 } he g2 hp]
          refine ⟨rfl, ?_⟩
          apply sameMap_forwardedLoop
          repeat apply sameMap_setOpt
          repeat apply sameMap_set
          exact hbase
      · rw [transformEvent_LogMessage env filters c1 ev nrEvent fet hkind hpe,
          transformEvent_LogMessage _ filters c2 { ev with Tags := tags2 } nrEvent fet hkind
            (hpe2.trans hpe), hr1, hr2]
        rcases option_eq_none_or_some ev.LogMessage with hp | ⟨msg, hp⟩
        · simp only [transformLogMessage, hp]
          trivial
        · rw [transformLogMessage_eq env ev msg g1 hp,
            transformLogMessage_eq _ { ev with Tags := tags2 } msg g2 hp]
          refine ⟨rfl, ?_⟩
          repeat apply sameMap_setOpt
          cases msg.Message with
          | none => exact hbase
          | some body =>
            have happ : ∀ (x : NREventType) (g : String),
                addAppDetailInfo { env with jsonUnmarshal := u2 } x g
                  = addAppDetailInfo env x g := fun _ _ => rfl
            simp only [happ]
            apply sameMap_addAppDetailInfo
            have hd := hdec (truncateMessage body)
            cases h1 : env.jsonUnmarshal (truncateMessage body) with
            | none =>
              cases h2 : u2 (truncateMessage body) with
              | none => exact sameMap_set _ _ _ _ hbase
              | some l2 => simp [h1, h2] at hd
            | some l1 =>
              cases h2 : u2 (truncateMessage body) with
              | none => simp [h1, h2] at hd
              | some l2 =>
                simp only [h1, h2] at hd
                exact sameMap_mergeParsedContent l1 l2 _ _ hd (hkeys _ _ h1)
                  (sameMap_set _ _ _ _ hbase)
      · rw [transformEvent_ValueMetric env filters c1 ev nrEvent fet hkind hpe,
          transformEvent_ValueMetric _ filters c2 { ev with Tags := tags2 } nrEvent fet hkind
            (hpe2.trans hpe), hr1, hr2]
        rcases option_eq_none_or_some ev.ValueMetric with hp | ⟨vm, hp⟩
        · simp only [transformValueMetric, hp]
          trivial
        · rw [transformValueMetric_eq ev vm g1 hp,
            transformValueMetric_eq { ev with Tags := tags2 } vm g2 hp]
          refine ⟨rfl, ?_⟩
          repeat apply sameMap_setOpt
          exact hbase
      · rw [transformEvent_CounterEvent env filters c1 ev nrEvent fet hkind hpe,
          transformEvent_CounterEvent _ filters c2 { ev with Tags := tags2 } nrEvent fet hkind
            (hpe2.trans hpe), hr1, hr2]
        rcases option_eq_none_or_some ev.CounterEvent with hp | ⟨ce, hp⟩
        · simp only [transformCounterEvent, hp]
          trivial
        · rw [transformCounterEvent_eq ev ce g1 hp,
            transformCounterEvent_eq { ev with Tags := tags2 } ce g2 hp]
          refine ⟨rfl, ?_⟩
          repeat apply sameMap_setOpt
          exact hbase
      · rw [transformEvent_Error env filters c1 ev nrEvent fet hkind hpe,
          transformEvent_Error _ filters c2 { ev with Tags := tags2 } nrEvent fet hkind
            (hpe2.trans hpe), hr1, hr2]
        rcases option_eq_none_or_some ev.Error with hp | ⟨ee, hp⟩
        · simp only [transformErrorEvent, hp]
          trivial
        · rw [transformErrorEvent_eq ev ee g1 hp,
            transformErrorEvent_eq { ev with Tags := tags2 } ee g2 hp]
          refine ⟨rfl, ?_⟩
          repeat apply sameMap_setOpt
          exact hbase
      · rw [transformEvent_ContainerMetric env filters c1 ev nrEvent fet hkind hpe,
          transformEvent_ContainerMetric _ filters c2 { ev with Tags := tags2 } nrEvent fet
            hkind (hpe2.trans hpe), hr1, hr2]
        rcases option_eq_none_or_some ev.ContainerMetric with hp | ⟨cm, hp⟩
        · simp only [transformContainerMetric, hp]
          trivial
        · rw [transformContainerMetric_eq env ev cm g1 hp,
            transformContainerMetric_eq _ { ev with Tags := tags2 } cm g2 hp]
          refine ⟨rfl, ?_⟩
          repeat apply sameMap_setOpt
          cases cm.ApplicationId with
          | none => exact hbase
          | some appGuid =>
            have happ : ∀ (x : NREventType) (g : String),
                addAppDetailInfo { env with jsonUnmarshal := u2 } x g
                  = addAppDetailInfo env x g := fun _ _ => rfl
            simp only [happ]
            exact sameMap_addAppDetailInfo env _ _ _ (sameMap_set _ _ _ _ hbase)

theorem sameDecoding_refl (u : List UInt8 → Option (List (String × Value))) :
    SameDecoding u u := by
  intro b
  cases u b with
  | none => trivial
  | some l => exact List.Perm.refl l

theorem exampleUnmarshal_keys (b : List UInt8) (l : List (String × Value))
    (h : exampleUnmarshal b = some l) : (l.map Prod.fst).Nodup := by
  unfold exampleUnmarshal at h
  split_ifs at h <;> simp only [Option.some.injEq] at h <;> subst h <;> simp

/-- C14. Transforming the same event twice, each time into a fresh empty record, with
the filter state, the process-identity values and the metadata cache held fixed: the two
calls return the same record whatever the counters are (in particular the counters that
the first call left), and they end alike, with records that are the same map, also when
the second call visits the tags and the entries of the decoded log body in another order
(the tag names and the decoded keys being pairwise distinct, as the keys of a Go map
are). -/
theorem C14_same_event_same_record (env : Env) (filters : EventFilters)
    (c1 c2 : PcfCounters) (ev : Envelope) (fet : String) (tags2 : List (String × String))
    (u2 : List UInt8 → Option (List (String × Value)))
    (htags : ev.Tags.Perm tags2) (hnodup : (ev.Tags.map Prod.fst).Nodup)
    (hdec : SameDecoding env.jsonUnmarshal u2)
    (hkeys : ∀ b l, env.jsonUnmarshal b = some l → (l.map Prod.fst).Nodup) :
    (transformEvent env filters c1 ev [] fet).record
      = (transformEvent env filters c2 ev [] fet).record ∧
    (transformEvent env filters c1 ev [] fet).sameResult
      (transformEvent { env with jsonUnmarshal := u2 } filters c2 { ev with Tags := tags2 }
        [] fet) :=
  ⟨transformEvent_record_counters env filters c1 c2 ev [] fet,
    transformEvent_sameResult env filters c1 c2 ev [] fet tags2 u2 htags hnodup hdec hkeys⟩

/-- C14, at a gauge event with two tags, transformed a second time with the counters
left by the first call and the tags visited in the other order. -/
theorem C14_same_event_same_record_witness :
    gaugeTwoTags.Tags.Perm twoTagsSwapped ∧
    (transformEvent exampleEnv (setFilterLists noFilterLists {}) {} gaugeTwoTags []
        "ValueMetric").record
      = (transformEvent exampleEnv (setFilterLists noFilterLists {}) countersAfterOneGauge
        gaugeTwoTags [] "ValueMetric").record ∧
    (transformEvent exampleEnv (setFilterLists noFilterLists {}) {} gaugeTwoTags []
        "ValueMetric").sameResult
      (transformEvent { exampleEnv with jsonUnmarshal := exampleUnmarshal }
        (setFilterLists noFilterLists {}) countersAfterOneGauge
        { gaugeTwoTags with Tags := twoTagsSwapped } [] "ValueMetric") :=
  ⟨List.Perm.swap _ _ _,
    C14_same_event_same_record exampleEnv (setFilterLists noFilterLists {}) {}
      countersAfterOneGauge gaugeTwoTags "ValueMetric" twoTagsSwapped exampleUnmarshal
      (List.Perm.swap _ _ _) (by decide) (sameDecoding_refl _) exampleUnmarshal_keys⟩

/-! ## The driver loop -/

/-- C15 fails as stated: on a stream error the loop only logs. At a state whose error
counter is 0 the step leaves the error counter at 0, where the claim asks for 1. -/
theorem C15_stream_error_not_counted :
    ∃ s', loopStep exampleDriver {} (.streamError "websocket: close 1006") = some s' ∧
      s'.pcfCounters.errors = 0 ∧ s'.pcfCounters.errors ≠ incr64 0 :=
  ⟨{}, rfl, rfl, by decide⟩

/-- C15, amended. On every stream-level error notification the step of the loop returns
the state it was given: no counter changes, the error counter included, the count of
events seen and the records handed to the sink are unchanged, and the loop continues. -/
theorem C15_stream_error_changes_nothing (d : Driver) (s : LoopState) (err : String) :
    ∃ s', loopStep d s (.streamError err) = some s' ∧ s' = s ∧
      s'.pcfCounters.errors = s.pcfCounters.errors ∧
      (∀ k, s'.pcfCounters.ofKind k = s.pcfCounters.ofKind k) ∧ s'.i = s.i ∧
      s'.enqueued = s.enqueued :=
  ⟨s, rfl, rfl, rfl, fun _ => rfl, rfl, rfl⟩

theorem incr64_ne (n : Nat) : incr64 n ≠ n := by
  unfold incr64
  omega

theorem incr64_of_lt (n : Nat) (h : n < 2 ^ 64 - 1) : incr64 n = n + 1 := by
  unfold incr64
  omega

/-- The counters after the increment for a kind: the counter of that kind is stepped,
every other counter is unchanged. -/
theorem ofKind_incr (c : PcfCounters) (kind k : EventType) :
    (c.incr kind).ofKind k = if k = kind then incr64 (c.ofKind k) else c.ofKind k := by
  cases kind <;> cases k <;> simp [PcfCounters.incr, PcfCounters.ofKind]

theorem incr_ne (c : PcfCounters) (kind : EventType) : c.incr kind ≠ c := by
  intro h
  have h1 := congrArg (fun x => x.ofKind kind) h
  simp only [ofKind_incr, if_true] at h1
  exact incr64_ne _ h1

/-- An event that carries its tag and payload and passes the filter: the call returns the
nil error, with the counter of the kind of the event stepped. -/
theorem transformEvent_counters (env : Env) (filters : EventFilters) (c : PcfCounters)
    (ev : Envelope) (nrEvent : NREventType) (fet : String)
    (hp : ev.payloadPresent = true) (hpe : processEvent filters ev fet = true) :
    ∃ r, transformEvent env filters c ev nrEvent fet
      = .returned r (c.incr ev.GetEventType) none := by
  unfold Envelope.payloadPresent at hp
  rcases option_eq_none_or_some ev.EventType with hkind | ⟨kind, hkind⟩
  · simp [hkind] at hp
  · have hget : ev.GetEventType = kind := by simp [Envelope.GetEventType, hkind]
    rw [hget]
    cases kind <;> simp only [hkind] at hp
    · obtain ⟨x, hx⟩ := Option.isSome_iff_exists.mp hp
      rw [transformEvent_HttpStartStop env filters c ev nrEvent fet hkind hpe,
        transformHttpStartStopEvent_eq env ev x _ hx]
      exact ⟨_, rfl⟩
    · obtain ⟨x, hx⟩ := Option.isSome_iff_exists.mp hp
      rw [transformEvent_LogMessage env filters c ev nrEvent fet hkind hpe,
        transformLogMessage_eq env ev x _ hx]
      exact ⟨_, rfl⟩
    · obtain ⟨x, hx⟩ := Option.isSome_iff_exists.mp hp
      rw [transformEvent_ValueMetric env filters c ev nrEvent fet hkind hpe,
        transformValueMetric_eq ev x _ hx]
      exact ⟨_, rfl⟩
    · obtain ⟨x, hx⟩ := Option.isSome_iff_exists.mp hp
      rw [transformEvent_CounterEvent env filters c ev nrEvent fet hkind hpe,
        transformCounterEvent_eq ev x _ hx]
      exact ⟨_, rfl⟩
    · obtain ⟨x, hx⟩ := Option.isSome_iff_exists.mp hp
      rw [transformEvent_Error env filters c ev nrEvent fet hkind hpe,
        transformErrorEvent_eq ev x _ hx]
      exact ⟨_, rfl⟩
    · obtain ⟨x, hx⟩ := Option.isSome_iff_exists.mp hp
      rw [transformEvent_ContainerMetric env filters c ev nrEvent fet hkind hpe,
        transformContainerMetric_eq env ev x _ hx]
      exact ⟨_, rfl⟩

/-- An event that passes the filter and lacks its kind tag or the payload of its kind
makes the call panic. -/
theorem transformEvent_panic_of_no_payload (env : Env) (filters : EventFilters)
    (c : PcfCounters) (ev : Envelope) (nrEvent : NREventType) (fet : String)
    (hpe : processEvent filters ev fet = true) (hp : ev.payloadPresent = false) :
    transformEvent env filters c ev nrEvent fet = .panic := by
  unfold Envelope.payloadPresent at hp
  have hnone : ∀ {α : Type} (o : Option α), o.isSome = false → o = none := by
    intro α o h
    cases o with
    | none => rfl
    | some a => exact Bool.noConfusion h
  rcases option_eq_none_or_some ev.EventType with hkind | ⟨kind, hkind⟩
  · exact transformEvent_of_no_tag env filters c ev nrEvent fet hkind hpe
  · cases kind <;> simp only [hkind] at hp
    · rw [transformEvent_HttpStartStop env filters c ev nrEvent fet hkind hpe]
      simp only [transformHttpStartStopEvent, hnone _ hp]
    · rw [transformEvent_LogMessage env filters c ev nrEvent fet hkind hpe]
      simp only [transformLogMessage, hnone _ hp]
    · rw [transformEvent_ValueMetric env filters c ev nrEvent fet hkind hpe]
      simp only [transformValueMetric, hnone _ hp]
    · rw [transformEvent_CounterEvent env filters c ev nrEvent fet hkind hpe]
      simp only [transformCounterEvent, hnone _ hp]
    · rw [transformEvent_Error env filters c ev nrEvent fet hkind hpe]
      simp only [transformErrorEvent, hnone _ hp]
    · rw [transformEvent_ContainerMetric env filters c ev nrEvent fet hkind hpe]
      simp only [transformContainerMetric, hnone _ hp]

/-- C16 fails as stated: at the driver of the examples, which subscribes to gauge events
with no filter, a gauge envelope without payload is of a subscribed kind and passes the
filter, yet the step does not complete: `transformEvent` panics on the nil payload, so no
record is handed to the sink. -/
theorem C16_step_panics_without_payload :
    includedEventTypes exampleDriver.SelectedEvents gaugeNoPayload.GetEventType = true ∧
    processEvent exampleDriver.filters gaugeNoPayload gaugeNoPayload.GetEventType.String
      = true ∧
    transformEvent exampleDriver.env exampleDriver.filters {} gaugeNoPayload []
      gaugeNoPayload.GetEventType.String = .panic ∧
    loopStep exampleDriver {} (.event (some gaugeNoPayload)) = none := by
  have hpe : processEvent exampleDriver.filters gaugeNoPayload
      gaugeNoPayload.GetEventType.String = true := by decide
  have hpanic := transformEvent_panic_of_no_payload exampleDriver.env exampleDriver.filters {}
    gaugeNoPayload [] gaugeNoPayload.GetEventType.String hpe (by decide)
  refine ⟨by decide, hpe, hpanic, ?_⟩
  have hincl : includedEventTypes exampleDriver.SelectedEvents gaugeNoPayload.GetEventType
      = true := by decide
  simp only [loopStep, hincl, if_true]
  rw [hpanic]

/-- C16, amended. For every non-nil event delivered to the loop. If the kind of the event
is subscribed and the filter accepts it, then, the event carrying its kind tag and the
payload of that kind, the step hands exactly one record to the sink, the record returned
by `transformEvent` with the subscription id and the nozzle version added, steps the
counter of the kind of the event (by one, short of the 64-bit wrap-around), leaves every
other counter unchanged, so that the counters do change, and steps the count of events
seen. Otherwise, the kind not being subscribed or the filter rejecting the event, the step
leaves the counters and the sink unchanged and only steps the count of events seen; on a
rejection the record supplied to `transformEvent` comes back empty. A subscribed event
that passes the filter and lacks its kind tag or payload makes `transformEvent` panic:
the step does not complete and nothing is handed to the sink. -/
theorem C16_event_step (d : Driver) (s : LoopState) (ev : Envelope) :
    (includedEventTypes d.SelectedEvents ev.GetEventType = true →
      processEvent d.filters ev ev.GetEventType.String = true →
      ev.payloadPresent = true →
      ∃ r, transformEvent d.env d.filters s.pcfCounters ev [] ev.GetEventType.String
          = .returned r (s.pcfCounters.incr ev.GetEventType) none ∧
        loopStep d s (.event (some ev)) = some
          { pcfCounters := s.pcfCounters.incr ev.GetEventType
            i := wrapInt64 (s.i + 1)
            enqueued := s.enqueued ++
              [(r.set "firehoseSubscriptionId" (.str d.FirehoseSubscriptionID)).set
                "nozzleVersion" (.str d.nozzleVersion)] } ∧
        (∀ k, (s.pcfCounters.incr ev.GetEventType).ofKind k
          = if k = ev.GetEventType then incr64 (s.pcfCounters.ofKind k)
            else s.pcfCounters.ofKind k) ∧
        (s.pcfCounters.ofKind ev.GetEventType < 2 ^ 64 - 1 →
          (s.pcfCounters.incr ev.GetEventType).ofKind ev.GetEventType
            = s.pcfCounters.ofKind ev.GetEventType + 1) ∧
        s.pcfCounters.incr ev.GetEventType ≠ s.pcfCounters) ∧
    (¬ (includedEventTypes d.SelectedEvents ev.GetEventType = true ∧
        processEvent d.filters ev ev.GetEventType.String = true) →
      loopStep d s (.event (some ev)) = some
        { pcfCounters := s.pcfCounters, i := wrapInt64 (s.i + 1), enqueued := s.enqueued } ∧
      (includedEventTypes d.SelectedEvents ev.GetEventType = true →
        transformEvent d.env d.filters s.pcfCounters ev [] ev.GetEventType.String
          = .returned [] s.pcfCounters (some "eventskipped"))) ∧
    (includedEventTypes d.SelectedEvents ev.GetEventType = true →
      processEvent d.filters ev ev.GetEventType.String = true →
      ev.payloadPresent = false →
      transformEvent d.env d.filters s.pcfCounters ev [] ev.GetEventType.String = .panic ∧
      loopStep d s (.event (some ev)) = none) := by
  refine ⟨?_, ?_, ?_⟩
  · intro hincl hpe hp
    obtain ⟨r, hr⟩ := transformEvent_counters d.env d.filters s.pcfCounters ev []
      ev.GetEventType.String hp hpe
    refine ⟨r, hr, ?_, ofKind_incr _ _, fun hlt => ?_, incr_ne _ _⟩
    · simp only [loopStep, hincl, if_true, hr]
    · rw [ofKind_incr, if_pos rfl, incr64_of_lt _ hlt]
  · intro hna
    by_cases hincl : includedEventTypes d.SelectedEvents ev.GetEventType = true
    · have hpe : processEvent d.filters ev ev.GetEventType.String = false := by
        cases h : processEvent d.filters ev ev.GetEventType.String
        · rfl
        · exact absurd ⟨hincl, h⟩ hna
      have hr := transformEvent_of_not_processEvent d.env d.filters s.pcfCounters ev []
        ev.GetEventType.String hpe
      refine ⟨?_, fun _ => hr⟩
      simp only [loopStep, hincl, if_true, hr]
    · refine ⟨?_, fun h => absurd h hincl⟩
      simp only [loopStep, hincl]
      rfl
  · intro hincl hpe hp
    have hpanic := transformEvent_panic_of_no_payload d.env d.filters s.pcfCounters ev []
      ev.GetEventType.String hpe hp
    refine ⟨hpanic, ?_⟩
    simp only [loopStep, hincl, if_true, hpanic]

/-- C16 amended, at the driver of the examples, which subscribes to gauge and counter
events with no filter: a gauge event is transformed and enqueued, a log event is not. -/
theorem C16_event_step_witness :
    (∃ r, loopStep exampleDriver {} (.event (some gaugeProd)) = some
      { pcfCounters := { valueMetricEvents := 1 }, i := 1, enqueued := [r] }) ∧
    loopStep exampleDriver {} (.event (some (logEvent bodyX))) = some
      { pcfCounters := {}, i := 1, enqueued := [] } := by
  constructor
  · obtain ⟨r, _, hstep, _⟩ := (C16_event_step exampleDriver {} gaugeProd).1 (by decide)
      (by decide) (by decide)
    exact ⟨_, hstep⟩
  · exact ((C16_event_step exampleDriver {} (logEvent bodyX)).2.1 (by decide)).1

/-! ## The optional fields of the payload -/

/-- A field whose name is none of the generic names and does not start with "tag_" is
absent from the record of generic fields built on a fresh record. -/
theorem get_genericRecord_fresh (env : Env) (ev : Envelope) (fet k : String)
    (h1 : ∀ g ∈ genericFields, g ≠ k) (h2 : startsWith "tag_" k = false) :
    (genericRecord env ev [] fet).get k = none := by
  unfold genericRecord
  rw [get_fillGenericMetrics_frame _ _ _ _ _ _ _ _ _ _ k h1 h2]
  rfl

/-- C17. For every accepted ValueMetric, CounterEvent, ContainerMetric or Error event,
transformed into a fresh record, and each optional field of its payload: the record holds
the field of the corresponding name exactly when the source field is present, and then
with the value of the source; nothing is stored for an absent source field. -/
theorem C17_optional_fields (env : Env) (filters : EventFilters) (c : PcfCounters)
    (ev : Envelope) (fet : String) (hpe : processEvent filters ev fet = true) :
    (∀ vm, ev.EventType = some .ValueMetric → ev.ValueMetric = some vm →
      ∃ r c', transformEvent env filters c ev [] fet = .returned r c' none ∧
        r.get "valueMetricName" = vm.Name.map .str ∧
        r.get "valueMetricValue" = vm.Value.map .float64 ∧
        r.get "valueMetricUnit" = vm.Unit.map .str) ∧
    (∀ ce, ev.EventType = some .CounterEvent → ev.CounterEvent = some ce →
      ∃ r c', transformEvent env filters c ev [] fet = .returned r c' none ∧
        r.get "counterEventName" = ce.Name.map .str ∧
        r.get "counterEventDelta" = ce.Delta.map .uint64 ∧
        r.get "counterEventTotal" = ce.Total.map .uint64) ∧
    (∀ cm, ev.EventType = some .ContainerMetric → ev.ContainerMetric = some cm →
      ∃ r c', transformEvent env filters c ev [] fet = .returned r c' none ∧
        r.get "containerMetricApplicationId" = cm.ApplicationId.map .str ∧
        r.get "containerMetricInstanceIndex" = cm.InstanceIndex.map .int32 ∧
        r.get "containerMetricCpuPercentage" = cm.CpuPercentage.map .float64 ∧
        r.get "containerMetricMemoryBytes" = cm.MemoryBytes.map .uint64 ∧
        r.get "containerMetricDiskBytes" = cm.DiskBytes.map .uint64 ∧
        r.get "containerMetricMemoryBytesQuota" = cm.MemoryBytesQuota.map .uint64 ∧
        r.get "containerMetricDiskBytesQuota" = cm.DiskBytesQuota.map .uint64) ∧
    (∀ ee, ev.EventType = some .Error → ev.Error = some ee →
      ∃ r c', transformEvent env filters c ev [] fet = .returned r c' none ∧
        r.get "errorSource" = ee.Source.map .str ∧
        r.get "errorCode" = ee.Code.map .int32 ∧
        r.get "errorMessage" = ee.Message.map .str) := by
  refine ⟨fun vm hkind hp => ?_, fun ce hkind hp => ?_, fun cm hkind hp => ?_,
    fun ee hkind hp => ?_⟩
  · have ht := transformEvent_ValueMetric env filters c ev [] fet hkind hpe
    rw [transformValueMetric_eq ev vm _ hp] at ht
    refine ⟨_, _, ht, ?_⟩
    have b0 := get_genericRecord_fresh env ev fet "valueMetricName" (by decide) (by decide)
    have b1 := get_genericRecord_fresh env ev fet "valueMetricValue" (by decide) (by decide)
    have b2 := get_genericRecord_fresh env ev fet "valueMetricUnit" (by decide) (by decide)
    simp [get_setOpt, b0, b1, b2, Option.or_none]
  · have ht := transformEvent_CounterEvent env filters c ev [] fet hkind hpe
    rw [transformCounterEvent_eq ev ce _ hp] at ht
    refine ⟨_, _, ht, ?_⟩
    have b0 := get_genericRecord_fresh env ev fet "counterEventName" (by decide) (by decide)
    have b1 := get_genericRecord_fresh env ev fet "counterEventDelta" (by decide) (by decide)
    have b2 := get_genericRecord_fresh env ev fet "counterEventTotal" (by decide) (by decide)
    simp [get_setOpt, b0, b1, b2, Option.or_none]
  · have ht := transformEvent_ContainerMetric env filters c ev [] fet hkind hpe
    rw [transformContainerMetric_eq env ev cm _ hp] at ht
    refine ⟨_, _, ht, ?_⟩
    have b0 := get_genericRecord_fresh env ev fet "containerMetricApplicationId" (by decide) (by decide)
    have b1 := get_genericRecord_fresh env ev fet "containerMetricInstanceIndex" (by decide) (by decide)
    have b2 := get_genericRecord_fresh env ev fet "containerMetricCpuPercentage" (by decide) (by decide)
    have b3 := get_genericRecord_fresh env ev fet "containerMetricMemoryBytes" (by decide) (by decide)
    have b4 := get_genericRecord_fresh env ev fet "containerMetricDiskBytes" (by decide) (by decide)
    have b5 := get_genericRecord_fresh env ev fet "containerMetricMemoryBytesQuota" (by decide) (by decide)
    have b6 := get_genericRecord_fresh env ev fet "containerMetricDiskBytesQuota" (by decide) (by decide)
    cases cm.ApplicationId <;>
      simp [get_setOpt, get_addAppDetailInfo_frame, enrichmentFields, get_set,
        b0, b1, b2, b3, b4, b5, b6, Option.or_none]
  · have ht := transformEvent_Error env filters c ev [] fet hkind hpe
    rw [transformErrorEvent_eq ev ee _ hp] at ht
    refine ⟨_, _, ht, ?_⟩
    have b0 := get_genericRecord_fresh env ev fet "errorSource" (by decide) (by decide)
    have b1 := get_genericRecord_fresh env ev fet "errorCode" (by decide) (by decide)
    have b2 := get_genericRecord_fresh env ev fet "errorMessage" (by decide) (by decide)
    simp [get_setOpt, b0, b1, b2, Option.or_none]

/-- C17, at a gauge event whose three fields are present and at a container event. -/
theorem C17_optional_fields_witness :
    (∃ r c', transformEvent exampleEnv (setFilterLists noFilterLists {}) {} gaugeProd []
        "ValueMetric" = .returned r c' none ∧
      r.get "valueMetricName" = some (.str "numCPUS") ∧
      r.get "valueMetricValue" = some (.float64 float64One) ∧
      r.get "valueMetricUnit" = some (.str "count")) ∧
    (∃ r c', transformEvent exampleEnv (setFilterLists noFilterLists {}) {} containerApp1 []
        "ContainerMetric" = .returned r c' none ∧
      r.get "containerMetricApplicationId" = some (.str "app-1") ∧
      r.get "containerMetricMemoryBytes" = some (.uint64 359899136)) := by
  constructor
  · obtain ⟨r, c', ht, h1, h2, h3⟩ := (C17_optional_fields exampleEnv
      (setFilterLists noFilterLists {}) {} gaugeProd "ValueMetric"
      (processEvent_noFilterLists _ _)).1 _ rfl rfl
    exact ⟨r, c', ht, h1, h2, h3⟩
  · obtain ⟨r, c', ht, h1, _, _, h4, _⟩ := (C17_optional_fields exampleEnv
      (setFilterLists noFilterLists {}) {} containerApp1 "ContainerMetric"
      (processEvent_noFilterLists _ _)).2.2.1 _ rfl rfl
    exact ⟨r, c', ht, h1, h4⟩

/-! ## Enrichment of log events -/

/-- For a log event that passes the filter, transformed into a fresh record: when it has a
message body the record holds the fourteen enrichment fields of the metadata record
looked up under the application id, or under "" when the event carries none; when it has
no message body the record holds none of them. -/
theorem logMessage_enrichment (env : Env) (filters : EventFilters) (c : PcfCounters)
    (ev : Envelope) (msg : LogMessage) (fet : String)
    (hkind : ev.EventType = some .LogMessage) (hmsg : ev.LogMessage = some msg)
    (hpe : processEvent filters ev fet = true) :
    ∃ r c', transformEvent env filters c ev [] fet = .returned r c' none ∧
      (∀ body, msg.Message = some body →
        ∀ p ∈ enrichmentOf (env.appManager.GetAppData (msg.AppId.getD "")),
          r.get p.1 = some p.2) ∧
      (msg.Message = none → ∀ k ∈ enrichmentFields, r.get k = none) := by
  have ht := transformEvent_LogMessage env filters c ev [] fet hkind hpe
  rw [transformLogMessage_eq env ev msg _ hmsg] at ht
  refine ⟨_, _, ht, fun body hbody => ?_, fun hnone => ?_⟩
  · intro p hp
    have hget := get_addAppDetailInfo_enrichment env
      (match env.jsonUnmarshal (truncateMessage body) with
        | some parsedContent =>
          mergeParsedContent
            ((genericRecord env ev [] fet).set "logMessage"
              (.bytesString (truncateMessage body))) parsedContent
        | none => (genericRecord env ev [] fet).set "logMessage"
            (.bytesString (truncateMessage body)))
      (msg.AppId.getD "") p hp
    simp only [enrichmentOf, List.mem_cons, List.mem_singleton, List.mem_nil_iff,
      or_false] at hp
    rcases hp with h | h | h | h | h | h | h | h | h | h | h | h | h | h <;>
      subst h <;> simp only [hbody, get_setOpt] <;> simpa using hget
  · intro k hk
    have hfresh : (genericRecord env ev [] fet).get k = none := by
      apply get_genericRecord_fresh
      · revert k
        decide
      · revert k
        decide
    simp only [enrichmentFields, List.mem_cons, List.mem_singleton, List.mem_nil_iff,
      or_false] at hk
    rcases hk with h | h | h | h | h | h | h | h | h | h | h | h | h | h <;>
      subst h <;> simp [hnone, get_setOpt, hfresh]

/-- C18. The code departs from the claim at two log events, with an empty metadata
cache. The first has a message body and no application id: the record holds the
enrichment fields all the same, looked up under the empty id (appName and appState are
""). The second carries the application id "app-1" and no message body: the record holds
"app-1" under "logAppId" and no enrichment field. `transformLogMessage` calls
`addAppDetailInfo` inside the test `message.Message != nil` with `message.GetAppId()`,
where `transformContainerMetric` calls it inside the test of the application id. -/
theorem C18_enrichment_follows_body_not_app_id :
    (∃ r c', transformEvent exampleEnv (setFilterLists noFilterLists {}) {} logNoAppId []
        logNoAppId.GetEventType.String = .returned r c' none ∧
      r.get "logAppId" = none ∧
      r.get "appName" = some (.str "") ∧ r.get "appState" = some (.str "")) ∧
    (∃ r c', transformEvent exampleEnv (setFilterLists noFilterLists {}) {} logNoBody []
        logNoBody.GetEventType.String = .returned r c' none ∧
      r.get "logAppId" = some (.str "app-1") ∧
      r.get "appName" = none ∧ r.get "appState" = none) := by
  constructor
  · have ht := transformEvent_LogMessage exampleEnv (setFilterLists noFilterLists {}) {}
      logNoAppId [] logNoAppId.GetEventType.String rfl (processEvent_noFilterLists _ _)
    rw [transformLogMessage_eq exampleEnv logNoAppId _ _ rfl] at ht
    refine ⟨_, _, ht, ?_⟩
    have b := get_genericRecord_fresh exampleEnv logNoAppId logNoAppId.GetEventType.String
      "logAppId" (by decide) (by decide)
    have hm : ∀ kvs r0, (mergeParsedContent r0 kvs).get "logAppId" = r0.get "logAppId" :=
      fun kvs r0 => get_mergeParsedContent_frame kvs r0 "logAppId" (by decide)
    refine ⟨?_, ?_, ?_⟩
    · cases hd : exampleEnv.jsonUnmarshal (truncateMessage [104, 105]) <;>
        simp [get_setOpt, get_addAppDetailInfo_frame, enrichmentFields, get_set, hm, b, hd]
    · simp [get_setOpt, addAppDetailInfo, get_set]
      rfl
    · simp [get_setOpt, addAppDetailInfo, get_set]
      rfl
  · obtain ⟨r, c', ht, _, hnone⟩ := logMessage_enrichment exampleEnv
      (setFilterLists noFilterLists {}) {} logNoBody _ logNoBody.GetEventType.String rfl rfl
      (processEvent_noFilterLists _ _)
    have ht2 := transformEvent_LogMessage exampleEnv (setFilterLists noFilterLists {}) {}
      logNoBody [] logNoBody.GetEventType.String rfl (processEvent_noFilterLists _ _)
    rw [transformLogMessage_eq exampleEnv logNoBody _ _ rfl] at ht2
    rw [ht2] at ht
    simp only [Outcome.returned.injEq] at ht
    refine ⟨r, c', by rw [ht2, ← ht.1, ← ht.2.1], ?_, hnone rfl _ (by decide),
      hnone rfl _ (by decide)⟩
    rw [← ht.1]
    simp [get_setOpt]

/-! ## The decimal rendering of a position is injective -/

theorem digitChar_toNat (m : Nat) (h : m < 10) : (Nat.digitChar m).toNat - 48 = m := by
  interval_cases m <;> rfl

/-- The digits that `Nat.toDigitsCore` puts in front of `ds` denote `n`: reading them
from the left after `acc` gives `acc` shifted by their number, plus `n`. -/
theorem toDigitsCore_decode (fuel : Nat) :
    ∀ (n : Nat) (ds : List Char), n < fuel →
      ∃ l : List Char, Nat.toDigitsCore 10 fuel n ds = l ++ ds ∧
        ∀ acc : Nat, l.foldl (fun a ch => 10 * a + (ch.toNat - 48)) acc
          = acc * 10 ^ l.length + n := by
  induction fuel with
  | zero => intro n ds h; omega
  | succ fuel ih =>
    intro n ds h
    by_cases h0 : n / 10 = 0
    · refine ⟨[Nat.digitChar (n % 10)], ?_, ?_⟩
      · simp [Nat.toDigitsCore, h0]
      · intro acc
        have hlt : n < 10 := by omega
        simp only [List.foldl_cons, List.foldl_nil, List.length_singleton, pow_one,
          digitChar_toNat (n % 10) (Nat.mod_lt _ (by decide))]
        omega
    · have hlt : n / 10 < fuel := by omega
      obtain ⟨l, hl, hdec⟩ := ih (n / 10) (Nat.digitChar (n % 10) :: ds) hlt
      refine ⟨l ++ [Nat.digitChar (n % 10)], ?_, ?_⟩
      · simp [Nat.toDigitsCore, h0, hl]
      · intro acc
        simp only [List.foldl_append, List.foldl_cons, List.foldl_nil, hdec,
          List.length_append, List.length_singleton, pow_succ,
          digitChar_toNat (n % 10) (Nat.mod_lt _ (by decide))]
        have := Nat.div_add_mod n 10
        nlinarith [this]

theorem repr_injective (i j : Nat) (h : Nat.repr i = Nat.repr j) : i = j := by
  have hd : Nat.toDigits 10 i = Nat.toDigits 10 j := by
    have := congrArg String.data h
    simpa [Nat.repr, List.asString] using this
  obtain ⟨li, hli, hi⟩ := toDigitsCore_decode (i + 1) i [] (by omega)
  obtain ⟨lj, hlj, hj⟩ := toDigitsCore_decode (j + 1) j [] (by omega)
  have hl : li = lj := by
    have h1 : Nat.toDigits 10 i = li := by simpa [Nat.toDigits] using hli
    have h2 : Nat.toDigits 10 j = lj := by simpa [Nat.toDigits] using hlj
    rw [← h1, ← h2, hd]
  have h1 := hi 0
  have h2 := hj 0
  rw [hl] at h1
  simp only [Nat.zero_mul, Nat.zero_add] at h1 h2
  exact h1.symm.trans h2

/-! ## The HTTP transformation -/

theorem startsWith_append (p t : String) : startsWith p (p ++ t) = true := by
  unfold startsWith
  rw [List.isPrefixOf_iff_prefix, String.data_append]
  exact List.prefix_append _ _

theorem exists_of_startsWith (p k : String) (h : startsWith p k = true) :
    ∃ t : String, k = p ++ t := by
  unfold startsWith at h
  rw [List.isPrefixOf_iff_prefix] at h
  obtain ⟨t, ht⟩ := h
  exact ⟨⟨t⟩, String.ext (by rw [String.data_append, ht])⟩

theorem forwardedKey_injective (i j : Nat)
    (h : "httpForwarded" ++ Nat.repr i = "httpForwarded" ++ Nat.repr j) : i = j :=
  repr_injective i j (append_left_cancel _ _ _ h)

theorem forwardedKey_eq : ("http" ++ "Forwarded" : String) = "httpForwarded" := by decide

/-- The loop over the forwarded addresses leaves alone every field that is not named
after one of its positions. -/
theorem get_forwardedLoop_other (f : List String) (r : NREventType) (i : Nat) (k : String)
    (h : ∀ j, j < f.length → k ≠ "httpForwarded" ++ Nat.repr (i + j)) :
    (forwardedLoop r i f).get k = r.get k := by
  induction f generalizing r i with
  | nil => rfl
  | cons a rest ih =>
    simp only [forwardedLoop, forwardedKey_eq]
    rw [ih]
    · have h0 := h 0 (by simp)
      rw [get_set, if_neg (fun e => h0 e.symm)]
    · intro j hj
      have := h (j + 1) (by simpa using hj)
      rwa [show i + (j + 1) = i + 1 + j by omega] at this

/-- The loop over the forwarded addresses stores the address of position `j` under the
name of position `i + j`. -/
theorem get_forwardedLoop_at (f : List String) (r : NREventType) (i j : Nat)
    (hj : j < f.length) :
    (forwardedLoop r i f).get ("httpForwarded" ++ Nat.repr (i + j))
      = some (.str (f.get ⟨j, hj⟩)) := by
  induction f generalizing r i j with
  | nil => exact absurd hj (Nat.not_lt_zero _)
  | cons a rest ih =>
    simp only [forwardedLoop, forwardedKey_eq]
    cases j with
    | zero =>
      rw [get_forwardedLoop_other]
      · simp [get_set]
      · intro j' _ e
        have := forwardedKey_injective _ _ e
        omega
    | succ j' =>
      have hj' : j' < rest.length := by simpa using hj
      have := ih (r.set ("httpForwarded" ++ Nat.repr i) (.str a)) (i + 1) j' hj'
      rw [show i + 1 + j' = i + (j' + 1) by omega] at this
      rw [this]
      rfl

theorem get_eq_none_iff (r : NREventType) (k : String) :
    r.get k = none ↔ ∀ p ∈ r, p.1 ≠ k := by
  induction r with
  | nil => simp [NREventType.get]
  | cons p rest ih =>
    obtain ⟨a, b⟩ := p
    by_cases h : a = k
    · simp [NREventType.get, h]
    · simp [NREventType.get, h, ih]

/-- The number of fields whose name satisfies `P` after an assignment: one more when
the name assigned satisfies `P` and was absent, the same otherwise. -/
theorem countP_set (P : String → Bool) (r : NREventType) (k : String) (v : Value) :
    ((r.set k v).filter (fun p => P p.1)).length
      = (r.filter (fun p => P p.1)).length
        + (if ((r.get k).isNone && P k) = true then 1 else 0) := by
  induction r with
  | nil =>
    by_cases hP : P k = true <;> simp [NREventType.set, NREventType.get, List.filter, hP]
  | cons p rest ih =>
    obtain ⟨a, b⟩ := p
    by_cases h : a = k
    · subst h
      by_cases hP : P a = true <;> simp [NREventType.set, NREventType.get, List.filter, hP]
    · by_cases hP : P a = true
      · simp only [NREventType.set, NREventType.get, h, if_false, List.filter, hP,
          List.length_cons, ih]
        omega
      · simp only [NREventType.set, NREventType.get, h, if_false, List.filter, hP, ih]

theorem countP_set_of_not (P : String → Bool) (r : NREventType) (k : String) (v : Value)
    (h : P k = false) :
    ((r.set k v).filter (fun p => P p.1)).length = (r.filter (fun p => P p.1)).length := by
  rw [countP_set]
  simp [h]

theorem countP_setOpt_of_not (P : String → Bool) (r : NREventType) (k : String)
    (o : Option Value) (h : P k = false) :
    ((setOpt r k o).filter (fun p => P p.1)).length = (r.filter (fun p => P p.1)).length := by
  cases o with
  | none => rfl
  | some v => exact countP_set_of_not P r k v h

theorem startsWith_forwarded_tag (n : String) :
    startsWith "httpForwarded" ("tag_" ++ n) = false := by
  unfold startsWith
  rw [String.data_append]
  rfl

theorem startsWith_tag_forwarded (t : String) :
    startsWith "tag_" ("httpForwarded" ++ t) = false := by
  unfold startsWith
  rw [String.data_append]
  rfl

/-- The record of generic fields built on a fresh record has no field whose name starts
with "httpForwarded". -/
theorem countP_genericRecord (env : Env) (ev : Envelope) (fet : String) :
    ((genericRecord env ev [] fet).filter
      (fun p => startsWith "httpForwarded" p.1)).length = 0 := by
  unfold genericRecord fillGenericMetrics
  simp only []
  have hfold : ∀ (tags : List (String × String)) (r : NREventType),
      ((tags.foldl (fun r t => r.set ("tag_" ++ t.1) (.str t.2)) r).filter
        (fun p => startsWith "httpForwarded" p.1)).length
      = (r.filter (fun p => startsWith "httpForwarded" p.1)).length := by
    intro tags
    induction tags with
    | nil => intro r; rfl
    | cons t rest ih =>
      intro r
      simp only [List.foldl_cons, ih]
      exact countP_set_of_not _ _ _ _ (startsWith_forwarded_tag _)
  rw [hfold]
  have hs : ∀ (r : NREventType) (k : String) (v : Value),
      startsWith "httpForwarded" k = false →
      ((r.set k v).filter (fun p => startsWith "httpForwarded" p.1)).length
        = (r.filter (fun p => startsWith "httpForwarded" p.1)).length :=
    fun r k v h => countP_set_of_not (fun k => startsWith "httpForwarded" k) r k v h
  split_ifs <;>
    simp only [hs _ "origin" _ (by decide),
      hs _ "eventType" _ (by decide),
      hs _ "FirehoseEventType" _ (by decide),
      hs _ "pcfDomain" _ (by decide),
      hs _ "nozzleInstanceIp" _ (by decide),
      hs _ "nozzleInstanceId" _ (by decide),
      hs _ "deployment" _ (by decide),
      hs _ "job" _ (by decide),
      hs _ "index" _ (by decide),
      hs _ "ip" _ (by decide),
      hs _ "timestamp" _ (by decide)] <;> rfl

/-- The loop over the forwarded addresses adds one field per address, when no field named
after a position from `i` on is there before. -/
theorem countP_forwardedLoop (f : List String) (r : NREventType) (i : Nat)
    (h : ∀ j, r.get ("httpForwarded" ++ Nat.repr (i + j)) = none) :
    ((forwardedLoop r i f).filter (fun p => startsWith "httpForwarded" p.1)).length
      = (r.filter (fun p => startsWith "httpForwarded" p.1)).length + f.length := by
  induction f generalizing r i with
  | nil => rfl
  | cons a rest ih =>
    simp only [forwardedLoop, forwardedKey_eq]
    rw [ih, countP_set (fun k => startsWith "httpForwarded" k)]
    · have h0 := h 0
      rw [Nat.add_zero] at h0
      simp only [h0, startsWith_append, Option.isNone_none, Bool.and_self, if_true,
        List.length_cons]
      omega
    · intro j
      rw [get_set, if_neg]
      · have := h (j + 1)
        rwa [show i + (j + 1) = i + 1 + j by omega] at this
      · intro e
        have := forwardedKey_injective _ _ e
        omega

theorem ne_of_startsWith_of_not (p s k : String) (hs : startsWith p s = false)
    (hk : startsWith p k = true) : s ≠ k := by
  intro e
  rw [e, hk] at hs
  exact Bool.noConfusion hs

theorem timeSub_of_fits (stop start : Int) (h1 : -(2 ^ 63) ≤ stop - start)
    (h2 : stop - start ≤ 2 ^ 63 - 1) : timeSub stop start = stop - start := by
  unfold timeSub
  simp only []
  rw [if_neg (by omega), if_neg (by omega)]

/-- C19. For every accepted HttpStartStop event with start timestamp `s` and stop
timestamp `e` in nanoseconds, an absent timestamp counting as 0, such that `e - s` fits in
a signed 64-bit integer: the record holds the two times under "httpStartTimestamp" and
"httpStopTimestamp", and under "httpDurationMs" the quotient of `e - s` and 10^6, both
converted to doubles and divided as doubles (`float64OfInt64` and `float64Div` stand for
the conversion and the division of the platform). -/
theorem C19_http_duration (env : Env) (filters : EventFilters) (c : PcfCounters)
    (ev : Envelope) (he : HttpStartStop) (nrEvent : NREventType) (fet : String)
    (hkind : ev.EventType = some .HttpStartStop) (hp : ev.HttpStartStop = some he)
    (hpe : processEvent filters ev fet = true)
    (h1 : -(2 ^ 63) ≤ he.StopTimestamp.getD 0 - he.StartTimestamp.getD 0)
    (h2 : he.StopTimestamp.getD 0 - he.StartTimestamp.getD 0 ≤ 2 ^ 63 - 1) :
    ∃ r c', transformEvent env filters c ev nrEvent fet = .returned r c' none ∧
      r.get "httpStartTimestamp" = some (.time ⟨he.StartTimestamp.getD 0⟩) ∧
      r.get "httpStopTimestamp" = some (.time ⟨he.StopTimestamp.getD 0⟩) ∧
      r.get "httpDurationMs" = some (.float64 (env.float64Div
        (env.float64OfInt64 (he.StopTimestamp.getD 0 - he.StartTimestamp.getD 0))
        (env.float64OfInt64 (10 ^ 6)))) := by
  have ht := transformEvent_HttpStartStop env filters c ev nrEvent fet hkind hpe
  rw [transformHttpStartStopEvent_eq env ev he _ hp] at ht
  refine ⟨_, _, ht, ?_, ?_, ?_⟩
  · rw [get_forwardedLoop_frame _ _ _ _ (by decide)]
    simp [get_setOpt, get_set]
  · rw [get_forwardedLoop_frame _ _ _ _ (by decide)]
    simp [get_setOpt, get_set]
  · rw [get_forwardedLoop_frame _ _ _ _ (by decide)]
    simp [get_setOpt, get_set, timeSub_of_fits _ _ h1 h2]

/-- C19, at an HTTP event that took 88938459 nanoseconds. -/
theorem C19_http_duration_witness :
    ∃ r c', transformEvent exampleEnv (setFilterLists noFilterLists {}) {} httpThreeHops []
        "HttpStartStop" = .returned r c' none ∧
      r.get "httpStartTimestamp" = some (.time ⟨1497038373206213992⟩) ∧
      r.get "httpStopTimestamp" = some (.time ⟨1497038373295152451⟩) ∧
      r.get "httpDurationMs" = some (.float64 (exampleEnv.float64Div
        (exampleEnv.float64OfInt64 88938459) (exampleEnv.float64OfInt64 (10 ^ 6)))) :=
  C19_http_duration exampleEnv (setFilterLists noFilterLists {}) {} httpThreeHops _ []
    "HttpStartStop" rfl rfl (processEvent_noFilterLists _ _) (by decide) (by decide)

/-- The HTTP fields written before the loop over the forwarded addresses, on a fresh
record: no field whose name starts with "httpForwarded" is there. -/
theorem get_http_fields_forwarded (env : Env) (ev : Envelope) (he : HttpStartStop)
    (fet k : String) (hk : startsWith "httpForwarded" k = true) :
    NREventType.get
      (setOpt (setOpt (setOpt (setOpt (setOpt (setOpt (setOpt (setOpt (setOpt (setOpt
        (setOpt
          ((((genericRecord env ev [] fet).set "httpStartTimestamp"
            (.time ⟨he.StartTimestamp.getD 0⟩)).set
            "httpStopTimestamp" (.time ⟨he.StopTimestamp.getD 0⟩)).set "httpDurationMs"
            (.float64 (env.float64Div
              (env.float64OfInt64
                (timeSub (he.StopTimestamp.getD 0) (he.StartTimestamp.getD 0)))
              (env.float64OfInt64 1000000))))
          "httpRequestId" (he.RequestId.map (fun u => .str (env.uuidString u))))
        "httpPeerType" (he.PeerType.map (fun t => .str t.String)))
        "httpMethod" (he.Method.map (fun m => .str (env.methodString m))))
        "httpUri" (he.Uri.map .str))
        "httpRemoteAddress" (he.RemoteAddress.map .str))
        "httpUserAgent" (he.UserAgent.map .str))
        "httpStatusCode" (he.StatusCode.map .int32))
        "httpContentLength" (he.ContentLength.map .int64))
        "httpApplicationId" (he.ApplicationId.map .uuid))
        "httpInstanceIndex" (he.InstanceIndex.map .int32))
        "httpInstanceId" (he.InstanceId.map .str)) k = none := by
  have n0 := ne_of_startsWith_of_not "httpForwarded" "httpStartTimestamp" k (by decide) hk
  have n1 := ne_of_startsWith_of_not "httpForwarded" "httpStopTimestamp" k (by decide) hk
  have n2 := ne_of_startsWith_of_not "httpForwarded" "httpDurationMs" k (by decide) hk
  have n3 := ne_of_startsWith_of_not "httpForwarded" "httpRequestId" k (by decide) hk
  have n4 := ne_of_startsWith_of_not "httpForwarded" "httpPeerType" k (by decide) hk
  have n5 := ne_of_startsWith_of_not "httpForwarded" "httpMethod" k (by decide) hk
  have n6 := ne_of_startsWith_of_not "httpForwarded" "httpUri" k (by decide) hk
  have n7 := ne_of_startsWith_of_not "httpForwarded" "httpRemoteAddress" k (by decide) hk
  have n8 := ne_of_startsWith_of_not "httpForwarded" "httpUserAgent" k (by decide) hk
  have n9 := ne_of_startsWith_of_not "httpForwarded" "httpStatusCode" k (by decide) hk
  have n10 := ne_of_startsWith_of_not "httpForwarded" "httpContentLength" k (by decide) hk
  have n11 := ne_of_startsWith_of_not "httpForwarded" "httpApplicationId" k (by decide) hk
  have n12 := ne_of_startsWith_of_not "httpForwarded" "httpInstanceIndex" k (by decide) hk
  have n13 := ne_of_startsWith_of_not "httpForwarded" "httpInstanceId" k (by decide) hk
  have hbase : (genericRecord env ev [] fet).get k = none := by
    apply get_genericRecord_fresh
    · intro g hg
      refine ne_of_startsWith_of_not "httpForwarded" g k ?_ hk
      revert g
      decide
    · obtain ⟨t, rfl⟩ := exists_of_startsWith _ _ hk
      exact startsWith_tag_forwarded t
  simp [get_setOpt, get_set, n0, n1, n2, n3, n4, n5, n6, n7, n8, n9, n10, n11, n12, n13, hbase]

/-- C20. For every accepted HttpStartStop event, transformed into a fresh record, whose
list of forwarded addresses has length n: for each position i below n the record holds
the address of position i under "httpForwarded" followed by the decimal rendering of i;
distinct positions give distinct field names; every field of the record whose name starts
with "httpForwarded" is the field of a position below n; and the record has exactly n
fields whose name starts with "httpForwarded". -/
theorem C20_forwarded_fields (env : Env) (filters : EventFilters) (c : PcfCounters)
    (ev : Envelope) (he : HttpStartStop) (fet : String)
    (hkind : ev.EventType = some .HttpStartStop) (hp : ev.HttpStartStop = some he)
    (hpe : processEvent filters ev fet = true) :
    ∃ r c', transformEvent env filters c ev [] fet = .returned r c' none ∧
      (∀ i (h : i < he.Forwarded.length),
        r.get ("httpForwarded" ++ Nat.repr i) = some (.str (he.Forwarded.get ⟨i, h⟩))) ∧
      (∀ i j, "httpForwarded" ++ Nat.repr i = "httpForwarded" ++ Nat.repr j → i = j) ∧
      (∀ k, startsWith "httpForwarded" k = true → r.get k ≠ none →
        ∃ i, i < he.Forwarded.length ∧ k = "httpForwarded" ++ Nat.repr i) ∧
      (r.filter (fun p => startsWith "httpForwarded" p.1)).length = he.Forwarded.length := by
  have ht := transformEvent_HttpStartStop env filters c ev [] fet hkind hpe
  rw [transformHttpStartStopEvent_eq env ev he _ hp] at ht
  refine ⟨_, _, ht, fun i h => ?_, forwardedKey_injective, fun k hk hne => ?_, ?_⟩
  · have := get_forwardedLoop_at he.Forwarded
      (setOpt (setOpt (setOpt (setOpt (setOpt (setOpt (setOpt (setOpt (setOpt (setOpt
        (setOpt
          ((((genericRecord env ev [] fet).set "httpStartTimestamp"
            (.time ⟨he.StartTimestamp.getD 0⟩)).set
            "httpStopTimestamp" (.time ⟨he.StopTimestamp.getD 0⟩)).set "httpDurationMs"
            (.float64 (env.float64Div
              (env.float64OfInt64
                (timeSub (he.StopTimestamp.getD 0) (he.StartTimestamp.getD 0)))
              (env.float64OfInt64 1000000))))
          "httpRequestId" (he.RequestId.map (fun u => .str (env.uuidString u))))
        "httpPeerType" (he.PeerType.map (fun t => .str t.String)))
        "httpMethod" (he.Method.map (fun m => .str (env.methodString m))))
        "httpUri" (he.Uri.map .str))
        "httpRemoteAddress" (he.RemoteAddress.map .str))
        "httpUserAgent" (he.UserAgent.map .str))
        "httpStatusCode" (he.StatusCode.map .int32))
        "httpContentLength" (he.ContentLength.map .int64))
        "httpApplicationId" (he.ApplicationId.map .uuid))
        "httpInstanceIndex" (he.InstanceIndex.map .int32))
        "httpInstanceId" (he.InstanceId.map .str)) 0 i h
    rwa [Nat.zero_add] at this
  · by_contra hno
    apply hne
    rw [get_forwardedLoop_other]
    · exact get_http_fields_forwarded env ev he fet k hk
    · intro j hj e
      rw [Nat.zero_add] at e
      exact hno ⟨j, hj, e⟩
  · rw [countP_forwardedLoop]
    · simp only [countP_setOpt_of_not (fun k => startsWith "httpForwarded" k) _ "httpRequestId" _ (by decide),
        countP_setOpt_of_not (fun k => startsWith "httpForwarded" k) _ "httpPeerType" _ (by decide),
        countP_setOpt_of_not (fun k => startsWith "httpForwarded" k) _ "httpMethod" _ (by decide),
        countP_setOpt_of_not (fun k => startsWith "httpForwarded" k) _ "httpUri" _ (by decide),
        countP_setOpt_of_not (fun k => startsWith "httpForwarded" k) _ "httpRemoteAddress" _ (by decide),
        countP_setOpt_of_not (fun k => startsWith "httpForwarded" k) _ "httpUserAgent" _ (by decide),
        countP_setOpt_of_not (fun k => startsWith "httpForwarded" k) _ "httpStatusCode" _ (by decide),
        countP_setOpt_of_not (fun k => startsWith "httpForwarded" k) _ "httpContentLength" _ (by decide),
        countP_setOpt_of_not (fun k => startsWith "httpForwarded" k) _ "httpApplicationId" _ (by decide),
        countP_setOpt_of_not (fun k => startsWith "httpForwarded" k) _ "httpInstanceIndex" _ (by decide),
        countP_setOpt_of_not (fun k => startsWith "httpForwarded" k) _ "httpInstanceId" _ (by decide),
        countP_set_of_not (fun k => startsWith "httpForwarded" k) _ "httpStartTimestamp" _ (by decide),
        countP_set_of_not (fun k => startsWith "httpForwarded" k) _ "httpStopTimestamp" _ (by decide),
        countP_set_of_not (fun k => startsWith "httpForwarded" k) _ "httpDurationMs" _ (by decide),
        countP_genericRecord, Nat.zero_add]
    · intro j
      exact get_http_fields_forwarded env ev he fet _ (startsWith_append _ _)

/-- C20, at an HTTP event with three forwarded addresses. -/
theorem C20_forwarded_fields_witness :
    ∃ r c', transformEvent exampleEnv (setFilterLists noFilterLists {}) {} httpThreeHops []
        "HttpStartStop" = .returned r c' none ∧
      r.get "httpForwarded0" = some (.str "104.197.98.14") ∧
      r.get "httpForwarded1" = some (.str "35.186.215.103") ∧
      r.get "httpForwarded2" = some (.str "130.211.2.63") ∧
      (r.filter (fun p => startsWith "httpForwarded" p.1)).length = 3 := by
  obtain ⟨r, c', ht, hat, _, _, hcount⟩ := C20_forwarded_fields exampleEnv
    (setFilterLists noFilterLists {}) {} httpThreeHops _ "HttpStartStop" rfl rfl
    (processEvent_noFilterLists _ _)
  exact ⟨r, c', ht, hat 0 (by decide), hat 1 (by decide), hat 2 (by decide), hcount⟩

/-! ## The timestamp -/

/-- The generic step stores the timestamp of the envelope, divided by 1000000 with
truncation toward zero, under "timestamp"; no tag overwrites it. -/
theorem get_genericRecord_timestamp (env : Env) (ev : Envelope) (nrEvent : NREventType)
    (fet : String) :
    (genericRecord env ev nrEvent fet).get "timestamp"
      = some (.int64 (Int.tdiv ev.GetTimestamp 1000000)) := by
  unfold genericRecord fillGenericMetrics
  simp only []
  rw [get_foldl_set (fun t : String × String => "tag_" ++ t.1) (fun t => .str t.2),
    foldl_ite_of_forall_ne _ _ _ _ _
      (fun a _ => append_ne_of_not_startsWith "tag_" _ "timestamp" (by decide))]
  split_ifs <;> simp [get_set]

/-- C21. For every accepted event, whatever record it is transformed into: the field
"timestamp" of the record is the timestamp of the envelope (0 when the envelope has
none) divided by 1000000 and truncated toward zero, that is, the quotient of the
magnitudes with the sign of the timestamp; for a timestamp t that is not negative it is
the one integer m with m * 10^6 ≤ t < (m + 1) * 10^6. -/
theorem C21_timestamp_milliseconds (env : Env) (filters : EventFilters) (c c' : PcfCounters)
    (ev : Envelope) (nrEvent r : NREventType) (fet : String)
    (h : transformEvent env filters c ev nrEvent fet = .returned r c' none) :
    r.get "timestamp" = some (.int64 (Int.tdiv ev.GetTimestamp 1000000)) ∧
    (ev.Timestamp = none → r.get "timestamp" = some (.int64 0)) ∧
    (Int.tdiv ev.GetTimestamp 1000000
      = if 0 ≤ ev.GetTimestamp then ((ev.GetTimestamp.natAbs / 1000000 : Nat) : Int)
        else - ((ev.GetTimestamp.natAbs / 1000000 : Nat) : Int)) ∧
    (0 ≤ ev.GetTimestamp → ∀ m : Int,
      (m * 10 ^ 6 ≤ ev.GetTimestamp ∧ ev.GetTimestamp < (m + 1) * 10 ^ 6)
        ↔ m = Int.tdiv ev.GetTimestamp 1000000) := by
  have hget : r.get "timestamp" = some (.int64 (Int.tdiv ev.GetTimestamp 1000000)) := by
    rw [transformEvent_frame env filters c c' ev nrEvent r fet "timestamp" h (by decide)
      (by decide)]
    exact get_genericRecord_timestamp env ev nrEvent fet
  refine ⟨hget, fun hnone => ?_, ?_, fun hpos m => ?_⟩
  · rw [hget]
    simp [Envelope.GetTimestamp, hnone]
  · generalize ev.GetTimestamp = t
    split_ifs with ht
    · rw [Int.tdiv_eq_ediv ht (by decide)]
      omega
    · have hneg : t = - (t.natAbs : Int) := by omega
      conv_lhs => rw [hneg]
      rw [Int.neg_tdiv, Int.tdiv_eq_ediv (by omega) (by decide)]
      omega
  · rw [Int.tdiv_eq_ediv hpos (by decide)]
    generalize ev.GetTimestamp = t
    constructor
    · rintro ⟨h1, h2⟩
      omega
    · intro hm
      subst hm
      constructor <;> omega

/-- C21, at a gauge event with timestamp 1497038365914920486 ns. -/
theorem C21_timestamp_milliseconds_witness :
    ∃ r c', transformEvent exampleEnv (setFilterLists noFilterLists {}) {} gaugeProd []
        "ValueMetric" = .returned r c' none ∧
      r.get "timestamp" = some (.int64 1497038365914) := by
  obtain ⟨r, hr⟩ := transformEvent_counters exampleEnv (setFilterLists noFilterLists {}) {}
    gaugeProd [] "ValueMetric" (by decide) (processEvent_noFilterLists _ _)
  exact ⟨r, _, hr, (C21_timestamp_milliseconds exampleEnv _ _ _ gaugeProd [] r "ValueMetric"
    hr).1⟩

/-! ## The tags and the generic fields -/

/-- The loop over the tags leaves alone every field whose name does not start with
"tag_". -/
theorem get_fillGenericMetrics_tags (env : Env) (r : NREventType)
    (o fet d j idx ip : String) (ts : Int) (tags : List (String × String)) (n : String)
    (hn : startsWith "tag_" n = false) :
    (fillGenericMetrics env r o fet d j idx ip ts tags).get n
      = (fillGenericMetrics env r o fet d j idx ip ts []).get n := by
  unfold fillGenericMetrics
  simp only []
  rw [get_foldl_set (fun t : String × String => "tag_" ++ t.1) (fun t => .str t.2),
    foldl_ite_of_forall_ne _ _ _ _ _ (fun a _ => append_ne_of_not_startsWith _ _ _ hn)]
  rfl

/-- The record of generic fields holds every tag of the event under "tag_" followed by
the key of the tag, the keys of the tags being pairwise distinct. -/
theorem get_genericRecord_tag (env : Env) (ev : Envelope) (nrEvent : NREventType)
    (fet k v : String) (hmap : (ev.Tags.map Prod.fst).Nodup) (hkv : (k, v) ∈ ev.Tags) :
    (genericRecord env ev nrEvent fet).get ("tag_" ++ k) = some (.str v) := by
  unfold genericRecord fillGenericMetrics
  simp only []
  rw [get_foldl_set (fun t : String × String => "tag_" ++ t.1) (fun t => .str t.2)]
  exact foldl_ite_of_mem (fun t : String × String => "tag_" ++ t.1) (fun t => .str t.2)
    ev.Tags _ (k, v) hkv
    (fun x hx y hy hxy => List.inj_on_of_nodup_map hmap hx hy (append_left_cancel _ _ _ hxy))

/-- The value of a generic field in the record of generic fields, for a field that is
neither "pcfDomain" nor "nozzleInstanceIp". -/
theorem get_genericRecord_fields (env : Env) (ev : Envelope) (nrEvent : NREventType)
    (fet : String) :
    (genericRecord env ev nrEvent fet).get "origin" = some (.str ev.GetOrigin) ∧
    (genericRecord env ev nrEvent fet).get "FirehoseEventType" = some (.str fet) ∧
    (genericRecord env ev nrEvent fet).get "deployment" = some (.str ev.GetDeployment) ∧
    (genericRecord env ev nrEvent fet).get "job" = some (.str ev.GetJob) ∧
    (genericRecord env ev nrEvent fet).get "index" = some (.str ev.GetIndex) ∧
    (genericRecord env ev nrEvent fet).get "ip" = some (.str ev.GetIp) ∧
    (genericRecord env ev nrEvent fet).get "nozzleInstanceId"
      = some (.str env.nozzleInstanceId) := by
  unfold genericRecord
  rw [get_fillGenericMetrics_tags _ _ _ _ _ _ _ _ _ _ "origin" (by decide),
    get_fillGenericMetrics_tags _ _ _ _ _ _ _ _ _ _ "FirehoseEventType" (by decide),
    get_fillGenericMetrics_tags _ _ _ _ _ _ _ _ _ _ "deployment" (by decide),
    get_fillGenericMetrics_tags _ _ _ _ _ _ _ _ _ _ "job" (by decide),
    get_fillGenericMetrics_tags _ _ _ _ _ _ _ _ _ _ "index" (by decide),
    get_fillGenericMetrics_tags _ _ _ _ _ _ _ _ _ _ "ip" (by decide),
    get_fillGenericMetrics_tags _ _ _ _ _ _ _ _ _ _ "nozzleInstanceId" (by decide)]
  unfold fillGenericMetrics
  simp only [List.foldl_nil]
  refine ⟨?_, ?_, ?_, ?_, ?_, ?_, ?_⟩ <;> split_ifs <;> simp [get_set]

theorem startsWith_stem_tag (k : String) :
    ∀ p ∈ kindFieldStems, startsWith p ("tag_" ++ k) = false := by
  intro p hp
  simp only [kindFieldStems, List.mem_cons, List.mem_singleton, List.mem_nil_iff,
    or_false] at hp
  rcases hp with h | h | h | h | h | h <;> subst h <;> unfold startsWith <;>
    rw [String.data_append] <;> rfl

theorem enrichmentField_ne_tag (k : String) : ∀ x ∈ enrichmentFields, x ≠ "tag_" ++ k := by
  intro x hx
  apply ne_of_startsWith_of_not "tag_" x _ _ (startsWith_append _ _)
  simp only [enrichmentFields, List.mem_cons, List.mem_singleton, List.mem_nil_iff,
    or_false] at hx
  rcases hx with h | h | h | h | h | h | h | h | h | h | h | h | h | h <;> subst h <;> rfl

/-- C22. For every accepted event, whatever record it is transformed into. The keys of
the tag map being pairwise distinct, the final record holds, for every entry (k, v) of
the tag map, the value v under "tag_" followed by k. The loop over the tags writes only
fields whose name starts with "tag_": under every other name the generic step leaves
what it leaves for an empty tag map. So the final record holds under origin, eventType,
FirehoseEventType, deployment, job, index, ip, timestamp and nozzleInstanceId the values
that the generic step gives them, whatever the tags are. -/
theorem C22_tags_and_generic_fields (env : Env) (filters : EventFilters)
    (c c' : PcfCounters) (ev : Envelope) (nrEvent r : NREventType) (fet : String)
    (h : transformEvent env filters c ev nrEvent fet = .returned r c' none) :
    ((ev.Tags.map Prod.fst).Nodup →
      ∀ k v, (k, v) ∈ ev.Tags → r.get ("tag_" ++ k) = some (.str v)) ∧
    (∀ n, startsWith "tag_" n = false →
      (fillGenericMetrics env nrEvent ev.GetOrigin fet ev.GetDeployment ev.GetJob ev.GetIndex
          ev.GetIp ev.GetTimestamp ev.Tags).get n
        = (fillGenericMetrics env nrEvent ev.GetOrigin fet ev.GetDeployment ev.GetJob
          ev.GetIndex ev.GetIp ev.GetTimestamp []).get n) ∧
    r.get "origin" = some (.str ev.GetOrigin) ∧
    r.get "eventType" = some (.str "PcfFirehoseEvent") ∧
    r.get "FirehoseEventType" = some (.str fet) ∧
    r.get "deployment" = some (.str ev.GetDeployment) ∧
    r.get "job" = some (.str ev.GetJob) ∧
    r.get "index" = some (.str ev.GetIndex) ∧
    r.get "ip" = some (.str ev.GetIp) ∧
    r.get "timestamp" = some (.int64 (Int.tdiv ev.GetTimestamp 1000000)) ∧
    r.get "nozzleInstanceId" = some (.str env.nozzleInstanceId) := by
  have hf := fun k hk he => transformEvent_frame env filters c c' ev nrEvent r fet k h hk he
  obtain ⟨g1, g2, g3, g4, g5, g6, g7⟩ := get_genericRecord_fields env ev nrEvent fet
  refine ⟨fun hmap k v hkv => ?_, fun n hn => get_fillGenericMetrics_tags _ _ _ _ _ _ _ _ _ _ n hn,
    ?_, ?_, ?_, ?_, ?_, ?_, ?_, ?_, ?_⟩
  · rw [hf _ (startsWith_stem_tag k) (enrichmentField_ne_tag k)]
    exact get_genericRecord_tag env ev nrEvent fet k v hmap hkv
  · rw [hf "origin" (by decide) (by decide)]; exact g1
  · rw [hf "eventType" (by decide) (by decide)]
    exact get_genericRecord_eventType env ev nrEvent fet
  · rw [hf "FirehoseEventType" (by decide) (by decide)]; exact g2
  · rw [hf "deployment" (by decide) (by decide)]; exact g3
  · rw [hf "job" (by decide) (by decide)]; exact g4
  · rw [hf "index" (by decide) (by decide)]; exact g5
  · rw [hf "ip" (by decide) (by decide)]; exact g6
  · rw [hf "timestamp" (by decide) (by decide)]
    exact get_genericRecord_timestamp env ev nrEvent fet
  · rw [hf "nozzleInstanceId" (by decide) (by decide)]; exact g7

/-- C22, at a gauge event with the tags source_id and zone. -/
theorem C22_tags_and_generic_fields_witness :
    ∃ r c', transformEvent exampleEnv (setFilterLists noFilterLists {}) {} gaugeTwoTags []
        "ValueMetric" = .returned r c' none ∧
      r.get "tag_source_id" = some (.str "doppler") ∧ r.get "tag_zone" = some (.str "z1") ∧
      r.get "origin" = some (.str "doppler") ∧ r.get "deployment" = some (.str "prod") := by
  obtain ⟨r, hr⟩ := transformEvent_counters exampleEnv (setFilterLists noFilterLists {}) {}
    gaugeTwoTags [] "ValueMetric" (by decide) (processEvent_noFilterLists _ _)
  obtain ⟨h1, _, h3, _, _, h6, _⟩ := C22_tags_and_generic_fields exampleEnv _ _ _
    gaugeTwoTags [] r "ValueMetric" hr
  exact ⟨r, _, hr, h1 (by decide) "source_id" "doppler" (by decide),
    h1 (by decide) "zone" "z1" (by decide), h3, h6⟩

/-! ## The decision is a function of the configuration and of five values of the event -/

/-- A call returns an error exactly when the flag `processEvent` is false; the error is
then "eventskipped" and the record and the counters come back untouched. -/
theorem transformEvent_error_iff (env : Env) (filters : EventFilters) (c : PcfCounters)
    (ev : Envelope) (nrEvent : NREventType) (fet : String) :
    (∃ r c' e, transformEvent env filters c ev nrEvent fet = .returned r c' (some e))
      ↔ processEvent filters ev fet = false := by
  constructor
  · rintro ⟨r, c', e, h⟩
    cases hpe : processEvent filters ev fet
    · rfl
    · exfalso
      rcases option_eq_none_or_some ev.EventType with hkind | ⟨kind, hkind⟩
      · rw [transformEvent_of_no_tag env filters c ev nrEvent fet hkind hpe] at h
        exact Outcome.noConfusion h
      · cases kind
        · rw [transformEvent_HttpStartStop env filters c ev nrEvent fet hkind hpe] at h
          cases hT : transformHttpStartStopEvent env ev (genericRecord env ev nrEvent fet) <;>
            simp [hT] at h
        · rw [transformEvent_LogMessage env filters c ev nrEvent fet hkind hpe] at h
          cases hT : transformLogMessage env ev (genericRecord env ev nrEvent fet) <;>
            simp [hT] at h
        · rw [transformEvent_ValueMetric env filters c ev nrEvent fet hkind hpe] at h
          cases hT : transformValueMetric ev (genericRecord env ev nrEvent fet) <;>
            simp [hT] at h
        · rw [transformEvent_CounterEvent env filters c ev nrEvent fet hkind hpe] at h
          cases hT : transformCounterEvent ev (genericRecord env ev nrEvent fet) <;>
            simp [hT] at h
        · rw [transformEvent_Error env filters c ev nrEvent fet hkind hpe] at h
          cases hT : transformErrorEvent ev (genericRecord env ev nrEvent fet) <;>
            simp [hT] at h
        · rw [transformEvent_ContainerMetric env filters c ev nrEvent fet hkind hpe] at h
          cases hT : transformContainerMetric env ev (genericRecord env ev nrEvent fet) <;>
            simp [hT] at h
  · intro hpe
    exact ⟨_, _, _, transformEvent_of_not_processEvent env filters c ev nrEvent fet hpe⟩

/-- The flag `processEvent` reads the event only through its deployment, origin and job
and, when the kind passed is "ValueMetric", through the name of its metric. -/
theorem processEvent_congr (filters : EventFilters) (ev1 ev2 : Envelope) (fet : String)
    (hd : ev1.GetDeployment = ev2.GetDeployment) (ho : ev1.GetOrigin = ev2.GetOrigin)
    (hj : ev1.GetJob = ev2.GetJob)
    (hn : fet = "ValueMetric" → ev1.valueMetricGetName = ev2.valueMetricGetName) :
    processEvent filters ev1 fet = processEvent filters ev2 fet := by
  have hg : globalEventsFilter filters ev1 = globalEventsFilter filters ev2 := by
    simp only [globalEventsFilter, hd, ho, hj]
  unfold processEvent
  simp only [hg, hd, ho, hj]
  by_cases hk : fet = "ValueMetric"
  · simp only [hn hk]
  · simp only [hk, if_false]

/-- C23. Two events that agree on their kind, deployment, origin and job and, when the
kind is ValueMetric, on the name of the metric, receive the same decision under the same
filter configuration, whatever their other fields are, whatever the fixed values of the
process, the counters and the records supplied are: the flag `processEvent` is the same,
and one call returns the error "eventskipped" exactly when the other does. -/
theorem C23_decision_depends_on_five_values (env1 env2 : Env) (filters : EventFilters)
    (c1 c2 : PcfCounters) (ev1 ev2 : Envelope) (nrEvent1 nrEvent2 : NREventType)
    (hk : ev1.GetEventType = ev2.GetEventType)
    (hd : ev1.GetDeployment = ev2.GetDeployment) (ho : ev1.GetOrigin = ev2.GetOrigin)
    (hj : ev1.GetJob = ev2.GetJob)
    (hn : ev1.GetEventType = .ValueMetric →
      ev1.valueMetricGetName = ev2.valueMetricGetName) :
    processEvent filters ev1 ev1.GetEventType.String
      = processEvent filters ev2 ev2.GetEventType.String ∧
    (transformEvent env1 filters c1 ev1 nrEvent1 ev1.GetEventType.String
        = .returned nrEvent1 c1 (some "eventskipped")
      ↔ transformEvent env2 filters c2 ev2 nrEvent2 ev2.GetEventType.String
        = .returned nrEvent2 c2 (some "eventskipped")) ∧
    ((∃ r c' e, transformEvent env1 filters c1 ev1 nrEvent1 ev1.GetEventType.String
        = .returned r c' (some e))
      ↔ ∃ r c' e, transformEvent env2 filters c2 ev2 nrEvent2 ev2.GetEventType.String
        = .returned r c' (some e)) := by
  have hpe : processEvent filters ev1 ev1.GetEventType.String
      = processEvent filters ev2 ev2.GetEventType.String := by
    rw [← hk]
    exact processEvent_congr filters ev1 ev2 _ hd ho hj
      (fun h => hn ((eventType_string_eq_valueMetric _).mp h))
  refine ⟨hpe, ?_, ?_⟩
  · constructor
    · intro h
      have h1 := (transformEvent_error_iff env1 filters c1 ev1 nrEvent1 _).mp ⟨_, _, _, h⟩
      exact transformEvent_of_not_processEvent env2 filters c2 ev2 nrEvent2 _ (hpe ▸ h1)
    · intro h
      have h1 := (transformEvent_error_iff env2 filters c2 ev2 nrEvent2 _).mp ⟨_, _, _, h⟩
      exact transformEvent_of_not_processEvent env1 filters c1 ev1 nrEvent1 _ (hpe ▸ h1)
  · rw [transformEvent_error_iff, transformEvent_error_iff, hpe]

/-- C23, at two gauge events of deployment "prod" that differ in timestamp, tags, index,
value and unit, under the exclusion of "prod": both are rejected, from whatever
counters. -/
theorem C23_decision_depends_on_five_values_witness :
    processEvent (setFilterLists excludeProd {}) gaugeProd "ValueMetric"
      = processEvent (setFilterLists excludeProd {}) gaugeProdOther "ValueMetric" ∧
    (transformEvent exampleEnv (setFilterLists excludeProd {}) {} gaugeProd [] "ValueMetric"
        = .returned [] {} (some "eventskipped")
      ↔ transformEvent exampleTypeEnv (setFilterLists excludeProd {}) countersBusy
          gaugeProdOther [] "ValueMetric" = .returned [] countersBusy (some "eventskipped")) :=
  ⟨(C23_decision_depends_on_five_values exampleEnv exampleTypeEnv
      (setFilterLists excludeProd {}) {} countersBusy gaugeProd gaugeProdOther [] []
      (by decide) (by decide) (by decide) (by decide) (fun _ => by decide)).1,
    (C23_decision_depends_on_five_values exampleEnv exampleTypeEnv
      (setFilterLists excludeProd {}) {} countersBusy gaugeProd gaugeProdOther [] []
      (by decide) (by decide) (by decide) (by decide) (fun _ => by decide)).2.1⟩

/-! ## The selected event kinds -/

/-- The loop of `parseSelectedEvents` on pieces that all name a kind: the kinds are
appended in the order of the pieces. -/
theorem parseSelectedEventsLoop_ok (table : String → Option EventType) (l : List String)
    (acc kinds : List EventType)
    (h : (l.map stringsTrimSpace).map table = kinds.map some) :
    parseSelectedEventsLoop table l acc = .ok (acc ++ kinds) := by
  induction l generalizing acc kinds with
  | nil =>
    cases kinds with
    | nil => simp [parseSelectedEventsLoop]
    | cons k ks => simp at h
  | cons p rest ih =>
    cases kinds with
    | nil => simp at h
    | cons k ks =>
      simp only [List.map_cons, List.cons.injEq] at h
      simp only [parseSelectedEventsLoop, h.1]
      rw [ih (acc ++ [k]) ks h.2]
      simp

/-- The loop of `parseSelectedEvents` stops at the first piece that names no kind, with
the error that names this piece. -/
theorem parseSelectedEventsLoop_error (table : String → Option EventType)
    (before after : List String) (p : String) (acc : List EventType)
    (hb : ∀ q ∈ before, (table (stringsTrimSpace q)).isSome = true)
    (hp : table (stringsTrimSpace p) = none) :
    parseSelectedEventsLoop table (before ++ p :: after) acc
      = .error ("[" ++ stringsTrimSpace p ++ "] is not a valid event type") := by
  induction before generalizing acc with
  | nil => simp only [List.nil_append, parseSelectedEventsLoop, hp]
  | cons q rest ih =>
    obtain ⟨k, hk⟩ := Option.isSome_iff_exists.mp (hb q (List.mem_cons_self _ _))
    simp only [List.cons_append, parseSelectedEventsLoop, hk]
    exact ih _ (fun x hx => hb x (List.mem_cons_of_mem _ hx))

/-- A list of pieces either names kinds throughout or has a first piece that names
none. -/
theorem pieces_valid_or_first_invalid (table : String → Option EventType) (l : List String) :
    (∃ kinds : List EventType, l.map table = kinds.map some) ∨
    (∃ before p after, l = before ++ p :: after ∧
      (∀ q ∈ before, (table q).isSome = true) ∧ table p = none) := by
  induction l with
  | nil => exact Or.inl ⟨[], rfl⟩
  | cons x rest ih =>
    cases hx : table x with
    | none => exact Or.inr ⟨[], x, rest, rfl, fun q hq => absurd hq (List.not_mem_nil _), hx⟩
    | some k =>
      rcases ih with ⟨kinds, hk⟩ | ⟨before, p, after, hl, hb, hp⟩
      · exact Or.inl ⟨k :: kinds, by simp [hx, hk]⟩
      · refine Or.inr ⟨x :: before, p, after, by simp [hl], ?_, hp⟩
        intro q hq
        rcases List.mem_cons.mp hq with h | h
        · rw [h, hx]; rfl
        · exact hb q h

/-- C24. For the text v of the selected event kinds and the table of the names of the
kinds. If v is empty the result is exactly [ValueMetric, CounterEvent]. Otherwise, with
the pieces of v between the commas, each trimmed: if every piece names a kind, the result
is the list of the kinds named, in the order of the pieces; the result is an error
exactly when some piece names no kind, and the error then names the first such piece (an
error carries no list). -/
theorem C24_selected_events (table : String → Option EventType) (v : String) :
    (v = "" → parseSelectedEvents table v = .ok [.ValueMetric, .CounterEvent]) ∧
    (v ≠ "" →
      (∀ kinds : List EventType,
        ((stringsSplit v ',').map stringsTrimSpace).map table = kinds.map some →
        parseSelectedEvents table v = .ok kinds) ∧
      ((∃ e, parseSelectedEvents table v = .error e)
        ↔ ∃ p ∈ (stringsSplit v ',').map stringsTrimSpace, table p = none) ∧
      (∀ before p after, (stringsSplit v ',').map stringsTrimSpace = before ++ p :: after →
        (∀ q ∈ before, (table q).isSome = true) → table p = none →
        parseSelectedEvents table v = .error ("[" ++ p ++ "] is not a valid event type"))) := by
  constructor
  · intro hv
    simp [parseSelectedEvents, hv]
  · intro hv
    have hdef : parseSelectedEvents table v
        = parseSelectedEventsLoop table (stringsSplit v ',') [] := by
      simp [parseSelectedEvents, hv]
    have hfirst : ∀ before p after,
        (stringsSplit v ',').map stringsTrimSpace = before ++ p :: after →
        (∀ q ∈ before, (table q).isSome = true) → table p = none →
        parseSelectedEvents table v
          = .error ("[" ++ p ++ "] is not a valid event type") := by
      intro before p after hl hb hp
      obtain ⟨b0, rest0, hsplit, hb0, hrest0⟩ := List.map_eq_append_iff.mp hl
      obtain ⟨p0, a0, hrest, hp0, _⟩ := List.map_eq_cons_iff.mp hrest0
      rw [hdef, hsplit, hrest]
      subst hb0
      subst hp0
      exact parseSelectedEventsLoop_error table b0 a0 p0 []
        (fun q hq => hb _ (List.mem_map_of_mem _ hq)) hp
    refine ⟨fun kinds hk => ?_, ?_, hfirst⟩
    · rw [hdef, parseSelectedEventsLoop_ok table _ [] kinds hk]
      rfl
    · constructor
      · rintro ⟨e, he⟩
        rcases pieces_valid_or_first_invalid table ((stringsSplit v ',').map stringsTrimSpace)
          with ⟨kinds, hk⟩ | ⟨before, p, after, hl, _, hp⟩
        · rw [hdef, parseSelectedEventsLoop_ok table _ [] kinds hk] at he
          exact Except.noConfusion he
        · exact ⟨p, by rw [hl]; simp, hp⟩
      · rintro ⟨p, hmem, hp⟩
        rcases pieces_valid_or_first_invalid table ((stringsSplit v ',').map stringsTrimSpace)
          with ⟨kinds, hk⟩ | ⟨before, q, after, hl, hb, hq⟩
        · exfalso
          have h1 : table p ∈ ((stringsSplit v ',').map stringsTrimSpace).map table :=
            List.mem_map_of_mem _ hmem
          rw [hk, hp] at h1
          simp at h1
        · exact ⟨_, hfirst before q after hl hb hq⟩

/-- C24, at the table of the six names: the empty text gives the two default kinds, a
text of two names with blanks gives the two kinds in order, and a text whose second and
third pieces name no kind gives the error that names the second piece. -/
theorem C24_selected_events_witness :
    parseSelectedEvents exampleEventTypeValue "" = .ok [.ValueMetric, .CounterEvent] ∧
    parseSelectedEvents exampleEventTypeValue "LogMessage, ValueMetric "
      = .ok [.LogMessage, .ValueMetric] ∧
    parseSelectedEvents exampleEventTypeValue "ValueMetric, Foo ,Bar"
      = .error "[Foo] is not a valid event type" :=
  ⟨(C24_selected_events exampleEventTypeValue "").1 rfl,
    ((C24_selected_events exampleEventTypeValue "LogMessage, ValueMetric ").2 (by decide)).1
      [.LogMessage, .ValueMetric] (by decide),
    ((C24_selected_events exampleEventTypeValue "ValueMetric, Foo ,Bar").2 (by decide)).2.2
      ["ValueMetric"] "Foo" ["Bar"] (by decide) (by decide) (by decide)⟩

/-! ## Splitting of the configuration text -/

theorem splitChars_ne_nil (sep : Char) (l : List Char) : splitChars sep l ≠ [] := by
  cases l with
  | nil => simp [splitChars]
  | cons c cs =>
    unfold splitChars
    split_ifs
    · simp
    · split <;> simp

/-- A text with n separators has n + 1 pieces. -/
theorem length_splitChars (sep : Char) (l : List Char) :
    (splitChars sep l).length = l.count sep + 1 := by
  induction l with
  | nil => simp [splitChars]
  | cons c cs ih =>
    unfold splitChars
    by_cases h : c = sep
    · simp [h, ih]
    · have h' : ¬ (c == sep) = true := by simpa using h
      rw [if_neg h, List.count_cons, if_neg h']
      cases hs : splitChars sep cs with
      | nil => exact absurd hs (splitChars_ne_nil sep cs)
      | cons piece pieces =>
        rw [hs] at ih
        simpa using ih

/-- No piece holds the separator. -/
theorem not_mem_of_mem_splitChars (sep : Char) (l : List Char) :
    ∀ p ∈ splitChars sep l, sep ∉ p := by
  induction l with
  | nil => simp [splitChars]
  | cons c cs ih =>
    unfold splitChars
    by_cases h : c = sep
    · rw [if_pos h]
      intro p hp
      rcases List.mem_cons.mp hp with hp | hp
      · rw [hp]; exact List.not_mem_nil _
      · exact ih p hp
    · rw [if_neg h]
      cases hs : splitChars sep cs with
      | nil => exact absurd hs (splitChars_ne_nil sep cs)
      | cons piece pieces =>
        rw [hs] at ih
        intro p hp
        rcases List.mem_cons.mp hp with hp | hp
        · rw [hp]
          intro hmem
          rcases List.mem_cons.mp hmem with e | e
          · exact h e.symm
          · exact ih piece (List.mem_cons_self _ _) e
        · exact ih p (List.mem_cons_of_mem _ hp)

/-- The pieces, joined again with the separator, give the text back. -/
theorem intercalate_splitChars (sep : Char) (l : List Char) :
    [sep].intercalate (splitChars sep l) = l := by
  induction l with
  | nil => simp [splitChars, List.intercalate]
  | cons c cs ih =>
    unfold splitChars
    by_cases h : c = sep
    · rw [if_pos h]
      cases hs : splitChars sep cs with
      | nil => exact absurd hs (splitChars_ne_nil sep cs)
      | cons piece pieces =>
        rw [hs] at ih
        simp only [List.intercalate, List.intersperse_cons_cons, List.flatten_cons,
          List.nil_append, List.singleton_append] at ih ⊢
        rw [ih, h]
    · rw [if_neg h]
      cases hs : splitChars sep cs with
      | nil => exact absurd hs (splitChars_ne_nil sep cs)
      | cons piece pieces =>
        rw [hs] at ih
        cases pieces with
        | nil =>
          simp only [List.intercalate, List.intersperse_single, List.flatten_cons, List.flatten_nil,
            List.append_nil] at ih ⊢
          rw [ih]
        | cons q qs =>
          simp only [List.intercalate, List.intersperse_cons_cons, List.flatten_cons,
            List.cons_append] at ih ⊢
          rw [ih]

/-- What `strings.TrimSpace` removes is white space at the two ends. -/
theorem trimSpaceChars_decomposition (l : List Char) :
    ∃ pre post, l = pre ++ trimSpaceChars l ++ post ∧ (∀ c ∈ pre, isSpace c = true) ∧
      (∀ c ∈ post, isSpace c = true) := by
  refine ⟨l.takeWhile isSpace, (l.dropWhile isSpace).rtakeWhile isSpace, ?_, ?_, ?_⟩
  · have h1 : (l.dropWhile isSpace).rdropWhile isSpace ++ (l.dropWhile isSpace).rtakeWhile isSpace
        = l.dropWhile isSpace := by
      unfold List.rdropWhile List.rtakeWhile
      rw [← List.reverse_append, List.takeWhile_append_dropWhile, List.reverse_reverse]
    unfold trimSpaceChars
    rw [List.append_assoc, h1, List.takeWhile_append_dropWhile]
  · intro c hc
    exact List.mem_takeWhile_imp hc
  · intro c hc
    unfold List.rtakeWhile at hc
    exact List.mem_takeWhile_imp (List.mem_reverse.mp hc)

/-- The trimmed text starts with no white space. -/
theorem trimSpaceChars_head (l : List Char) (c : Char)
    (h : (trimSpaceChars l).head? = some c) : isSpace c = false := by
  unfold trimSpaceChars at h
  obtain ⟨t, ht⟩ := List.rdropWhile_prefix isSpace (l := l.dropWhile isSpace)
  have hne : (l.dropWhile isSpace).rdropWhile isSpace ≠ [] := by
    intro e
    rw [e] at h
    exact Option.noConfusion h
  have h2 : (l.dropWhile isSpace).head? = some c := by
    rw [← ht, List.head?_append_of_ne_nil _ hne]
    exact h
  have h3 := List.head?_dropWhile_not isSpace l
  rw [h2] at h3
  simpa using h3

/-- The trimmed text ends with no white space. -/
theorem trimSpaceChars_getLast (l : List Char) (c : Char)
    (h : (trimSpaceChars l).getLast? = some c) : isSpace c = false := by
  unfold trimSpaceChars at h
  have hne : (l.dropWhile isSpace).rdropWhile isSpace ≠ [] := by
    intro e
    rw [e] at h
    exact Option.noConfusion h
  have h1 := List.rdropWhile_last_not isSpace (l.dropWhile isSpace) hne
  rw [List.getLast?_eq_getLast _ hne, Option.some.injEq] at h
  rw [h] at h1
  simpa using h1

/-- C25. For every configuration text v and the separator ",". If v is empty,
`splitString` returns the empty list, which has no element and in which `filtered` finds
no value, and so is the global deployment list that `setFilters` reads out of an empty
text. Otherwise it returns, in order, the pieces of v between the commas (the pieces
hold no comma and, joined again with commas, give v), each with the white space at its
two ends removed; the result has one element more than v has commas, and no element
starts or ends with white space. -/
theorem C25_splitString (v : String) :
    (v = "" → splitString v ',' = [] ∧ (splitString v ',').length = 0 ∧
      (∀ s, filtered (splitString v ',') s = false) ∧
      ∀ (decode : String → List String) (pcfExtendedConfig : PcfExtConfig) (F0 : EventFilters),
        pcfExtendedConfig.GLOBAL_DEPLOYMENT_EXCLUSION_FILTERS = v →
        (setFilters decode pcfExtendedConfig F0).globalDeploymentFilters = [] ∧
        ∀ s, filtered (setFilters decode pcfExtendedConfig F0).globalDeploymentFilters s
          = false) ∧
    (v ≠ "" →
      [','].intercalate ((stringsSplit v ',').map String.data) = v.data ∧
      (∀ p ∈ stringsSplit v ',', ',' ∉ p.data) ∧
      splitString v ',' = (stringsSplit v ',').map stringsTrimSpace ∧
      (∀ p ∈ stringsSplit v ',', ∃ pre post,
        p.data = pre ++ (stringsTrimSpace p).data ++ post ∧
        (∀ c ∈ pre, isSpace c = true) ∧ (∀ c ∈ post, isSpace c = true)) ∧
      (splitString v ',').length = v.data.count ',' + 1 ∧
      (∀ s ∈ splitString v ',',
        (∀ c, s.data.head? = some c → isSpace c = false) ∧
        (∀ c, s.data.getLast? = some c → isSpace c = false))) := by
  have hdata : (stringsSplit v ',').map String.data = splitChars ',' v.data := by
    unfold stringsSplit
    rw [List.map_map]
    exact List.map_id _
  constructor
  · intro hv
    have h0 : splitString v ',' = [] := by simp [splitString, hv]
    have h1 : ∀ (decode : String → List String) (pcfExtendedConfig : PcfExtConfig)
        (F0 : EventFilters), pcfExtendedConfig.GLOBAL_DEPLOYMENT_EXCLUSION_FILTERS = v →
        (setFilters decode pcfExtendedConfig F0).globalDeploymentFilters = [] := by
      intro decode cfg F0 hc
      simp only [setFilters, setFilterLists, parsedFilterLists, hc, h0]
    refine ⟨h0, ?_, ?_, fun decode cfg F0 hc => ⟨h1 decode cfg F0 hc, ?_⟩⟩
    · rw [h0]; rfl
    · rw [h0]; exact fun _ => rfl
    · rw [h1 decode cfg F0 hc]; exact fun _ => rfl
  · intro hv
    have hs : splitString v ',' = (stringsSplit v ',').map stringsTrimSpace := by
      simp [splitString, hv]
    refine ⟨?_, ?_, hs, ?_, ?_, ?_⟩
    · rw [hdata, intercalate_splitChars]
    · intro p hp
      apply not_mem_of_mem_splitChars ',' v.data
      rw [← hdata]
      exact List.mem_map_of_mem _ hp
    · intro p _
      exact trimSpaceChars_decomposition p.data
    · rw [hs, List.length_map]
      unfold stringsSplit
      rw [List.length_map, length_splitChars]
    · intro s hmem
      rw [hs] at hmem
      obtain ⟨p, _, hp⟩ := List.mem_map.mp hmem
      subst hp
      exact ⟨fun c hc => trimSpaceChars_head p.data c hc,
        fun c hc => trimSpaceChars_getLast p.data c hc⟩

/-- C25, at the empty text and at a text of three pieces with blanks. -/
theorem C25_splitString_witness :
    splitString "" ',' = [] ∧
    splitString " prod, staging ,\tdev" ',' = ["prod", "staging", "dev"] ∧
    (splitString " prod, staging ,\tdev" ',').length = 2 + 1 :=
  ⟨((C25_splitString "").1 rfl).1,
    (((C25_splitString " prod, staging ,\tdev").2 (by decide)).2.2.1).trans (by decide),
    (((C25_splitString " prod, staging ,\tdev").2 (by decide)).2.2.2.2.1).trans (by decide)⟩

/-! ## The fields of a gauge event -/

/-- A call that returns the nil error leaves the names "gaugeName", "gaugeValue" and
"gaugeUnit" as they are in the record supplied: no step writes them. -/
theorem get_gauge_names (env : Env) (filters : EventFilters) (c c' : PcfCounters)
    (ev : Envelope) (nrEvent r : NREventType) (fet : String)
    (h : transformEvent env filters c ev nrEvent fet = .returned r c' none) :
    r.get "gaugeName" = nrEvent.get "gaugeName" ∧
    r.get "gaugeValue" = nrEvent.get "gaugeValue" ∧
    r.get "gaugeUnit" = nrEvent.get "gaugeUnit" := by
  refine ⟨?_, ?_, ?_⟩
  · rw [transformEvent_frame env filters c c' ev nrEvent r fet "gaugeName" h (by decide)
      (by decide)]
    exact get_fillGenericMetrics_frame _ _ _ _ _ _ _ _ _ _ "gaugeName" (by decide) (by decide)
  · rw [transformEvent_frame env filters c c' ev nrEvent r fet "gaugeValue" h (by decide)
      (by decide)]
    exact get_fillGenericMetrics_frame _ _ _ _ _ _ _ _ _ _ "gaugeValue" (by decide) (by decide)
  · rw [transformEvent_frame env filters c c' ev nrEvent r fet "gaugeUnit" h (by decide)
      (by decide)]
    exact get_fillGenericMetrics_frame _ _ _ _ _ _ _ _ _ _ "gaugeUnit" (by decide) (by decide)

/-- C26 fails as stated: the gauge event of deployment "prod", with name, value and unit
present, is accepted under the exclusion of "prod" with its metric "numCPUS" included,
and the record built for it has no field "gaugeName", "gaugeValue" or "gaugeUnit". -/
theorem C26_no_gauge_named_fields :
    ∃ r c', transformEvent exampleEnv (setFilterLists excludeProdIncludeNumCPUS {}) {}
        gaugeProd [] "ValueMetric" = .returned r c' none ∧
      r.get "gaugeName" = none ∧ r.get "gaugeValue" = none ∧ r.get "gaugeUnit" = none := by
  obtain ⟨r, hr⟩ := transformEvent_counters exampleEnv
    (setFilterLists excludeProdIncludeNumCPUS {}) {} gaugeProd [] "ValueMetric" (by decide)
    (by decide)
  exact ⟨r, _, hr, get_gauge_names _ _ _ _ _ _ _ _ hr⟩

/-- C26, amended. For every accepted ValueMetric event whose name, value and unit are
present, whatever record it is transformed into: the record holds the name of the metric
under "valueMetricName", its double value under "valueMetricValue" and its unit under
"valueMetricUnit"; the names "gaugeName", "gaugeValue" and "gaugeUnit" are not written,
so a record built fresh has no such field. -/
theorem C26_value_metric_fields (env : Env) (filters : EventFilters) (c c' : PcfCounters)
    (ev : Envelope) (nrEvent r : NREventType) (fet : String) (vm : ValueMetric)
    (n u : String) (x : Float64)
    (h : transformEvent env filters c ev nrEvent fet = .returned r c' none)
    (hkind : ev.EventType = some .ValueMetric) (hp : ev.ValueMetric = some vm)
    (hn : vm.Name = some n) (hx : vm.Value = some x) (hu : vm.Unit = some u) :
    r.get "valueMetricName" = some (.str n) ∧
    r.get "valueMetricValue" = some (.float64 x) ∧
    r.get "valueMetricUnit" = some (.str u) ∧
    r.get "gaugeName" = nrEvent.get "gaugeName" ∧
    r.get "gaugeValue" = nrEvent.get "gaugeValue" ∧
    r.get "gaugeUnit" = nrEvent.get "gaugeUnit" ∧
    (nrEvent = [] →
      r.get "gaugeName" = none ∧ r.get "gaugeValue" = none ∧ r.get "gaugeUnit" = none) := by
  obtain ⟨g1, g2, g3⟩ := get_gauge_names env filters c c' ev nrEvent r fet h
  have hpe : processEvent filters ev fet = true := by
    apply processEvent_of_accepted env filters c ev nrEvent fet
    rw [h]
    trivial
  have ht := transformEvent_ValueMetric env filters c ev nrEvent fet hkind hpe
  rw [transformValueMetric_eq ev vm _ hp, h, hn, hx, hu] at ht
  simp only [Outcome.returned.injEq] at ht
  refine ⟨?_, ?_, ?_, g1, g2, g3, fun he => ?_⟩
  · rw [ht.1]
    simp [get_setOpt]
  · rw [ht.1]
    simp [get_setOpt]
  · rw [ht.1]
    simp [get_setOpt]
  · subst he
    exact ⟨g1, g2, g3⟩

/-- C26, amended, at the gauge event of deployment "prod" with no filter. -/
theorem C26_value_metric_fields_witness :
    ∃ r c', transformEvent exampleEnv (setFilterLists noFilterLists {}) {} gaugeProd []
        "ValueMetric" = .returned r c' none ∧
      r.get "valueMetricName" = some (.str "numCPUS") ∧
      r.get "valueMetricValue" = some (.float64 float64One) ∧
      r.get "valueMetricUnit" = some (.str "count") := by
  obtain ⟨r, hr⟩ := transformEvent_counters exampleEnv (setFilterLists noFilterLists {}) {}
    gaugeProd [] "ValueMetric" (by decide) (processEvent_noFilterLists _ _)
  obtain ⟨h1, h2, h3, _⟩ := C26_value_metric_fields exampleEnv _ _ _ gaugeProd [] r
    "ValueMetric" _ "numCPUS" "count" float64One hr rfl rfl rfl rfl rfl
  exact ⟨r, _, hr, h1, h2, h3⟩

/-! ## The counters along the loop -/

/-- A call that returns leaves the counters as they were or steps the counter of the kind
of the event. -/
theorem transformEvent_returned_counters (env : Env) (filters : EventFilters)
    (c c' : PcfCounters) (ev : Envelope) (nrEvent r : NREventType) (fet : String)
    (e : Option String) (h : transformEvent env filters c ev nrEvent fet = .returned r c' e) :
    c' = c ∨ c' = c.incr ev.GetEventType := by
  cases hpe : processEvent filters ev fet
  · rw [transformEvent_of_not_processEvent env filters c ev nrEvent fet hpe] at h
    simp only [Outcome.returned.injEq] at h
    exact Or.inl h.2.1.symm
  · right
    rcases option_eq_none_or_some ev.EventType with hkind | ⟨kind, hkind⟩
    · rw [transformEvent_of_no_tag env filters c ev nrEvent fet hkind hpe] at h
      exact Outcome.noConfusion h
    · have hget : ev.GetEventType = kind := by simp [Envelope.GetEventType, hkind]
      rw [hget]
      cases kind
      · rw [transformEvent_HttpStartStop env filters c ev nrEvent fet hkind hpe] at h
        cases hT : transformHttpStartStopEvent env ev (genericRecord env ev nrEvent fet) <;>
          simp only [hT, Outcome.returned.injEq] at h
        · exact Outcome.noConfusion h
        · exact h.2.1.symm
      · rw [transformEvent_LogMessage env filters c ev nrEvent fet hkind hpe] at h
        cases hT : transformLogMessage env ev (genericRecord env ev nrEvent fet) <;>
          simp only [hT, Outcome.returned.injEq] at h
        · exact Outcome.noConfusion h
        · exact h.2.1.symm
      · rw [transformEvent_ValueMetric env filters c ev nrEvent fet hkind hpe] at h
        cases hT : transformValueMetric ev (genericRecord env ev nrEvent fet) <;>
          simp only [hT, Outcome.returned.injEq] at h
        · exact Outcome.noConfusion h
        · exact h.2.1.symm
      · rw [transformEvent_CounterEvent env filters c ev nrEvent fet hkind hpe] at h
        cases hT : transformCounterEvent ev (genericRecord env ev nrEvent fet) <;>
          simp only [hT, Outcome.returned.injEq] at h
        · exact Outcome.noConfusion h
        · exact h.2.1.symm
      · rw [transformEvent_Error env filters c ev nrEvent fet hkind hpe] at h
        cases hT : transformErrorEvent ev (genericRecord env ev nrEvent fet) <;>
          simp only [hT, Outcome.returned.injEq] at h
        · exact Outcome.noConfusion h
        · exact h.2.1.symm
      · rw [transformEvent_ContainerMetric env filters c ev nrEvent fet hkind hpe] at h
        cases hT : transformContainerMetric env ev (genericRecord env ev nrEvent fet) <;>
          simp only [hT, Outcome.returned.injEq] at h
        · exact Outcome.noConfusion h
        · exact h.2.1.symm

/-- A step of the loop that completes leaves the counters as they were or steps the
counter of the kind of the event it received. -/
theorem loopStep_counters (d : Driver) (s s' : LoopState) (input : LoopInput)
    (h : loopStep d s input = some s') :
    s'.pcfCounters = s.pcfCounters ∨ ∃ kind, s'.pcfCounters = s.pcfCounters.incr kind := by
  cases input with
  | event o =>
    cases o with
    | none =>
      simp only [loopStep, Option.some.injEq] at h
      rw [← h]
      exact Or.inl rfl
    | some ev =>
      simp only [loopStep] at h
      by_cases hincl : includedEventTypes d.SelectedEvents ev.GetEventType = true
      · simp only [hincl, if_true] at h
        cases hT : transformEvent d.env d.filters s.pcfCounters ev [] ev.GetEventType.String with
        | panic =>
          rw [hT] at h
          exact Option.noConfusion h
        | returned r c' e =>
          have hc := transformEvent_returned_counters _ _ _ _ _ _ _ _ _ hT
          rw [hT] at h
          cases e with
          | none =>
            simp only [Option.some.injEq] at h
            rw [← h]
            exact hc.imp id (fun x => ⟨_, x⟩)
          | some msg =>
            simp only [Option.some.injEq] at h
            rw [← h]
            exact hc.imp id (fun x => ⟨_, x⟩)
      · simp only [hincl] at h
        simp only [Bool.false_eq_true, if_false, Option.some.injEq] at h
        rw [← h]
        exact Or.inl rfl
  | streamError err =>
    simp only [loopStep, Option.some.injEq] at h
    rw [← h]
    exact Or.inl rfl
  | tick =>
    simp only [loopStep, Option.some.injEq] at h
    rw [← h]
    exact Or.inl rfl

/-- C27. For every state of the loop and every step from it that completes, on an
event, a stream error or a tick: every counter, the five counters of the kinds and the
error counter, is left as it was or stepped, so that a counter short of the 64-bit
wrap-around is not decreased and not reset. The tick sets the count of events seen to 0 and
leaves the counters and the records handed to the sink unchanged; so does the stream
error, which leaves the count of events seen too. The steps on a tick, on a stream error,
on a nil event and on an event that carries its tag and payload do complete. -/
theorem C27_counters_never_decrease (d : Driver) (s : LoopState) :
    (∀ input s', loopStep d s input = some s' →
      (∀ k, s'.pcfCounters.ofKind k = s.pcfCounters.ofKind k
        ∨ s'.pcfCounters.ofKind k = incr64 (s.pcfCounters.ofKind k)) ∧
      (∀ k, s.pcfCounters.ofKind k < 2 ^ 64 - 1 →
        s.pcfCounters.ofKind k ≤ s'.pcfCounters.ofKind k) ∧
      (s.pcfCounters.errors < 2 ^ 64 - 1 → s.pcfCounters.errors ≤ s'.pcfCounters.errors)) ∧
    (∃ s', loopStep d s .tick = some s' ∧ s'.pcfCounters = s.pcfCounters ∧ s'.i = 0 ∧
      s'.enqueued = s.enqueued) ∧
    (∀ err, loopStep d s (.streamError err) = some s) ∧
    (∃ s', loopStep d s (.event none) = some s' ∧ s'.pcfCounters = s.pcfCounters) ∧
    (∀ ev, ev.payloadPresent = true → ∃ s', loopStep d s (.event (some ev)) = some s') := by
  have hstep : ∀ input s', loopStep d s input = some s' →
      ∀ k, s'.pcfCounters.ofKind k = s.pcfCounters.ofKind k
        ∨ s'.pcfCounters.ofKind k = incr64 (s.pcfCounters.ofKind k) := by
    intro input s' h k
    rcases loopStep_counters d s s' input h with hc | ⟨kind, hc⟩
    · rw [hc]
      exact Or.inl rfl
    · rw [hc, ofKind_incr]
      split_ifs
      · exact Or.inr rfl
      · exact Or.inl rfl
  have hmono : ∀ input s', loopStep d s input = some s' →
      ∀ k, s.pcfCounters.ofKind k < 2 ^ 64 - 1 →
        s.pcfCounters.ofKind k ≤ s'.pcfCounters.ofKind k := by
    intro input s' h k hlt
    rcases hstep input s' h k with hc | hc
    · rw [hc]
    · rw [hc, incr64_of_lt _ hlt]
      exact Nat.le_succ _
  refine ⟨fun input s' h => ⟨hstep input s' h, hmono input s' h,
    hmono input s' h .Error⟩, ⟨_, rfl, rfl, rfl, rfl⟩, fun _ => rfl, ⟨_, rfl, rfl⟩,
    fun ev hp => ?_⟩
  by_cases hincl : includedEventTypes d.SelectedEvents ev.GetEventType = true
  · cases hpe : processEvent d.filters ev ev.GetEventType.String
    · have hr := transformEvent_of_not_processEvent d.env d.filters s.pcfCounters ev []
        ev.GetEventType.String hpe
      have hl : loopStep d s (.event (some ev)) = some
          { pcfCounters := s.pcfCounters, i := wrapInt64 (s.i + 1), enqueued := s.enqueued } := by
        simp only [loopStep, hincl, if_true, hr]
      exact ⟨_, hl⟩
    · obtain ⟨r, hr⟩ := transformEvent_counters d.env d.filters s.pcfCounters ev []
        ev.GetEventType.String hp hpe
      have hl : loopStep d s (.event (some ev)) = some
          { pcfCounters := s.pcfCounters.incr ev.GetEventType
            i := wrapInt64 (s.i + 1)
            enqueued := s.enqueued ++
              [(r.set "firehoseSubscriptionId" (.str d.FirehoseSubscriptionID)).set
                "nozzleVersion" (.str d.nozzleVersion)] } := by
        simp only [loopStep, hincl, if_true, hr]
      exact ⟨_, hl⟩
  · have hl : loopStep d s (.event (some ev)) = some
        { pcfCounters := s.pcfCounters, i := wrapInt64 (s.i + 1), enqueued := s.enqueued } := by
      simp only [loopStep, hincl]
      rfl
    exact ⟨_, hl⟩

/-- C27, at the driver of the examples after one gauge event: a further gauge event
steps the counter of the gauge events from 1 to 2 and leaves the error counter at 0, and
a tick leaves the counters and sets the count of events seen to 0. -/
theorem C27_counters_never_decrease_witness :
    (∃ s', loopStep exampleDriver { pcfCounters := countersAfterOneGauge, i := 1 }
        (.event (some gaugeProd)) = some s' ∧
      1 ≤ s'.pcfCounters.valueMetricEvents ∧ 0 ≤ s'.pcfCounters.errors) ∧
    (∃ s', loopStep exampleDriver { pcfCounters := countersAfterOneGauge, i := 1 } .tick
        = some s' ∧ s'.pcfCounters = countersAfterOneGauge ∧ s'.i = 0) := by
  have hC := C27_counters_never_decrease exampleDriver
    { pcfCounters := countersAfterOneGauge, i := 1 }
  constructor
  · obtain ⟨s', hs'⟩ := hC.2.2.2.2 gaugeProd (by decide)
    obtain ⟨_, h2, h3⟩ := hC.1 _ s' hs'
    exact ⟨s', hs', h2 .ValueMetric (by decide), h3 (by decide)⟩
  · obtain ⟨s', h1, h2, h3, _⟩ := hC.2.1
    exact ⟨s', h1, h2, h3⟩

/-! ## The decision is monotone in the rule lists -/

/-- The global exclusion keeps matching when entries are added to its lists. -/
theorem globalExclusionMatches_mono (L L' : FilterLists) (ev : Envelope)
    (h1 : L.globalDeployment ⊆ L'.globalDeployment) (h2 : L.globalOrigin ⊆ L'.globalOrigin)
    (h3 : L.globalJob ⊆ L'.globalJob) (h : GlobalExclusionMatches L ev) :
    GlobalExclusionMatches L' ev := by
  obtain ⟨hne, hm⟩ := h
  have hmem : "all" ∈ L'.globalDeployment ∨ "all" ∈ L'.globalOrigin ∨ "all" ∈ L'.globalJob
      ∨ ev.GetDeployment ∈ L'.globalDeployment ∨ ev.GetOrigin ∈ L'.globalOrigin
      ∨ ev.GetJob ∈ L'.globalJob := by
    rcases hm with h | h | h | h | h | h
    · exact Or.inl (h1 h)
    · exact Or.inr (Or.inl (h2 h))
    · exact Or.inr (Or.inr (Or.inl (h3 h)))
    · exact Or.inr (Or.inr (Or.inr (Or.inl (h1 h))))
    · exact Or.inr (Or.inr (Or.inr (Or.inr (Or.inl (h2 h)))))
    · exact Or.inr (Or.inr (Or.inr (Or.inr (Or.inr (h3 h)))))
  refine ⟨?_, hmem⟩
  rcases hmem with h | h | h | h | h | h
  · exact Or.inl (List.ne_nil_of_mem h)
  · exact Or.inr (Or.inl (List.ne_nil_of_mem h))
  · exact Or.inr (Or.inr (List.ne_nil_of_mem h))
  · exact Or.inl (List.ne_nil_of_mem h)
  · exact Or.inr (Or.inl (List.ne_nil_of_mem h))
  · exact Or.inr (Or.inr (List.ne_nil_of_mem h))

/-- The outcome of a call whose flag `processEvent` is true does not depend on the
filters. -/
theorem transformEvent_of_processEvent_congr (env : Env) (f1 f2 : EventFilters)
    (c : PcfCounters) (ev : Envelope) (nrEvent : NREventType) (fet : String)
    (h1 : processEvent f1 ev fet = true) (h2 : processEvent f2 ev fet = true) :
    transformEvent env f1 c ev nrEvent fet = transformEvent env f2 c ev nrEvent fet := by
  unfold transformEvent
  simp only [h1, h2, if_true]

/-- C29. The decision is monotone in the rule lists, for every event and whatever the
filter state was before the lists were set. When entries are added to the global
exclusion lists, the inclusion lists being the same, a rejected event stays rejected: the
flag `processEvent` stays false and the call still returns "eventskipped". When entries
are added to the value-metric inclusion lists, the exclusion lists being the same, an
event that passes the filter still passes it, and the call ends as it did before. -/
theorem C29_decision_monotone (env : Env) (L L' : FilterLists) (F0 F0' : EventFilters)
    (c : PcfCounters) (ev : Envelope) (nrEvent : NREventType) (fet : String) :
    (L.globalDeployment ⊆ L'.globalDeployment → L.globalOrigin ⊆ L'.globalOrigin →
      L.globalJob ⊆ L'.globalJob →
      L'.valueMetricDeployment = L.valueMetricDeployment →
      L'.valueMetricOrigin = L.valueMetricOrigin →
      L'.valueMetricJob = L.valueMetricJob → L'.valueMetricMetric = L.valueMetricMetric →
      processEvent (setFilterLists L F0) ev fet = false →
      processEvent (setFilterLists L' F0') ev fet = false ∧
        transformEvent env (setFilterLists L' F0') c ev nrEvent fet
          = .returned nrEvent c (some "eventskipped")) ∧
    (L.valueMetricDeployment ⊆ L'.valueMetricDeployment →
      L.valueMetricOrigin ⊆ L'.valueMetricOrigin → L.valueMetricJob ⊆ L'.valueMetricJob →
      L.valueMetricMetric ⊆ L'.valueMetricMetric →
      L'.globalDeployment = L.globalDeployment → L'.globalOrigin = L.globalOrigin →
      L'.globalJob = L.globalJob →
      processEvent (setFilterLists L F0) ev fet = true →
      processEvent (setFilterLists L' F0') ev fet = true ∧
        transformEvent env (setFilterLists L' F0') c ev nrEvent fet
          = transformEvent env (setFilterLists L F0) c ev nrEvent fet) := by
  constructor
  · intro h1 h2 h3 e1 e2 e3 e4 hrej
    have hx : GlobalExclusionMatches L ev := by
      by_contra hx
      rw [processEvent_of_not_excluded L F0 ev fet hx] at hrej
      exact Bool.noConfusion hrej
    have hx' := globalExclusionMatches_mono L L' ev h1 h2 h3 hx
    have hrej' : processEvent (setFilterLists L' F0') ev fet = false := by
      rw [processEvent_of_excluded L F0 ev fet hx] at hrej
      rw [processEvent_of_excluded L' F0' ev fet hx', e1, e2, e3, e4]
      exact hrej
    exact ⟨hrej', transformEvent_of_not_processEvent _ _ _ _ _ _ hrej'⟩
  · intro h1 h2 h3 h4 e1 e2 e3 hacc
    have hacc' : processEvent (setFilterLists L' F0') ev fet = true := by
      by_cases hx : GlobalExclusionMatches L ev
      · have hx' : GlobalExclusionMatches L' ev := by
          unfold GlobalExclusionMatches at hx ⊢
          rw [e1, e2, e3]
          exact hx
        rw [processEvent_of_excluded L F0 ev fet hx] at hacc
        rw [processEvent_of_excluded L' F0' ev fet hx']
        simp only [Bool.and_eq_true, Bool.or_eq_true, decide_eq_true_eq, filtered_iff,
          List.mem_append] at hacc ⊢
        obtain ⟨hk, hm⟩ := hacc
        refine ⟨hk, ?_⟩
        rcases hm with (((((h | h) | h) | h) | h) | h) | h
        · exact Or.inl (Or.inl (Or.inl (Or.inl (Or.inl (Or.inl (h1 h))))))
        · exact Or.inl (Or.inl (Or.inl (Or.inl (Or.inl (Or.inr (h2 h))))))
        · exact Or.inl (Or.inl (Or.inl (Or.inl (Or.inr (h3 h)))))
        · exact Or.inl (Or.inl (Or.inl (Or.inr (h1 h))))
        · exact Or.inl (Or.inl (Or.inr (h2 h)))
        · exact Or.inl (Or.inr (h3 h))
        · exact Or.inr (h4 h)
      · have hx' : ¬ GlobalExclusionMatches L' ev := by
          unfold GlobalExclusionMatches at hx ⊢
          rw [e1, e2, e3]
          exact hx
        exact processEvent_of_not_excluded L' F0' ev fet hx'
    exact ⟨hacc', transformEvent_of_processEvent_congr env _ _ c ev nrEvent fet hacc' hacc⟩

/-- C29, at a gauge event of deployment "prod": rejected under the exclusion of "prod",
it is rejected once "staging" and the job "router" are excluded too; accepted under the
exclusion of "prod" with the metric "numCPUS" included, it is accepted once the metric
"cpu" and the origin "gorouter" are included too. -/
theorem C29_decision_monotone_witness :
    (processEvent (setFilterLists excludeProd {}) gaugeProd "ValueMetric" = false ∧
      processEvent (setFilterLists excludeProdStagingRouter {}) gaugeProd "ValueMetric"
        = false) ∧
    (processEvent (setFilterLists excludeProdIncludeNumCPUS {}) gaugeProd "ValueMetric" = true ∧
      processEvent (setFilterLists excludeProdIncludeMore {}) gaugeProd "ValueMetric"
        = true) :=
  ⟨⟨by decide, ((C29_decision_monotone exampleEnv excludeProd excludeProdStagingRouter {} {}
      {} gaugeProd [] "ValueMetric").1 (by decide) (by decide) (by decide) rfl rfl rfl rfl
      (by decide)).1⟩,
    ⟨by decide, ((C29_decision_monotone exampleEnv excludeProdIncludeNumCPUS
      excludeProdIncludeMore {} {} {} gaugeProd [] "ValueMetric").2 (by decide) (by decide)
      (by decide) (by decide) rfl rfl rfl (by decide)).1⟩⟩

end Nozzle
